import Mathlib

/-!
Verification of the UDES warehouse-management customizations
(`udes_stock` addon): a shallow embedding of the picking-batch
orchestration, task grouping, drop-off reconciliation, package swapping
and backorder logic from
`src/addons/udes_stock/models/stock_picking_batch.py`,
`src/addons/udes_stock/models/stock_picking.py` and
`src/addons/udes_stock/models/stock_move_line.py`.

Modelling conventions:
* Odoo record sets become Lean `List`s of structures; `filtered` becomes
  `List.filter`, `mapped` over a many2one field becomes `List.map`
  (deduplicated with `List.dedup` where Odoo would union records).
* Many2one references are embedded records (`ml.picking_id : Picking`),
  mirroring Odoo attribute chains such as
  `ml.picking_id.picking_type_id.u_user_scans`.
* Quantities are natural numbers: the repository only ever adds,
  subtracts (guarded) and compares them, and every rounding
  (`float_round`) is the identity on integral values.
* Python's stable `sorted` is modelled by `List.insertionSort`, which is
  also stable.
* `False`-valued Odoo fields (absent many2one) are `Option.none`.
-/

namespace UDES

/-- State of a stock picking (`stock.picking.state`). -/
inductive PickState where
  | draft | waiting | confirmed | assigned | done | cancel
deriving DecidableEq, Repr

/-- State of a picking batch (`stock.picking.batch.state`). -/
inductive BatchState where
  | draft | waiting | ready | in_progress | done | cancel
deriving DecidableEq, Repr

/-- Value of the `u_user_scans` selection field on a picking type. -/
inductive UserScans where
  | product | package | pallet
deriving DecidableEq, Repr

/-- Value of the `u_drop_criterion` selection field on a picking type. -/
inductive DropCriterion where
  | all | by_products | by_packages | by_orders
deriving DecidableEq, Repr

/-- Picking type (`stock.picking.type`) with the UDES flags used by the
batch/task/swap logic. -/
structure PickingType where
  id : Nat
  u_allow_swapping_packages : Bool := false
  u_user_scans : UserScans := UserScans.product
  u_return_to_skipped : Bool := false
  u_drop_criterion : DropCriterion := DropCriterion.all
deriving DecidableEq, Repr

/-- Product (`product.product`): only the fields read by the embedded code. -/
structure Product where
  id : Nat
  barcode : String := ""
deriving DecidableEq, Repr

/-- Package (`stock.quant.package`). `location_id` is the package's
(computed) location, read by `maybe_swap`. -/
structure Package where
  id : Nat
  name : String := ""
  location_id : Nat := 0
deriving DecidableEq, Repr

/-- Stock location (`stock.location`). -/
structure Location where
  id : Nat
  name : String := ""
deriving DecidableEq, Repr

/-- Picking (`stock.picking`): a transfer document. `picking_type_id` is
the embedded picking-type record; `batch_id`/`backorder_id` are ids. -/
structure Picking where
  id : Nat
  state : PickState
  picking_type_id : PickingType
  origin : String := ""
  batch_id : Option Nat := none
  backorder_id : Option Nat := none
deriving DecidableEq, Repr

/-- Move line (`stock.move.line`). `picking_id` is the embedded picking
record (pickings do not embed their move lines, so there is no cycle);
`move_id` refers to the parent `stock.move` by id.  `product_qty` is
read through `product_uom_qty`: the embedding assumes the move line's
UoM is the product's UoM, under which Odoo's conversion is the
identity. -/
structure MoveLine where
  id : Nat
  picking_id : Picking
  move_id : Nat := 0
  product_id : Product
  package_id : Option Package := none
  result_package_id : Option Package := none
  location_id : Location
  qty_done : Nat := 0
  product_uom_qty : Nat
  ordered_qty : Nat := 0
deriving DecidableEq, Repr

/-- Quant (`stock.quant`): on-hand/reserved quantity of a product at a
location, optionally in a package (referenced by id). -/
structure Quant where
  id : Nat
  product_id : Product
  package_id : Option Nat := none
  location_id : Nat := 0
  quantity : Nat
  reserved_quantity : Nat := 0
  lot_id : Option Nat := none
deriving DecidableEq, Repr

/-- Batch (`stock.picking.batch`): owns pickings; `move_lines` holds the
move lines of its pickings (each linking back through
`MoveLine.picking_id`), mirroring `picking_ids.mapped("move_line_ids")`. -/
structure Batch where
  id : Nat
  name : String := ""
  state : BatchState
  user_id : Option Nat := none
  picking_ids : List Picking
  move_lines : List MoveLine := []
deriving DecidableEq, Repr

/-- Move lines of one picking of the batch (`picking.move_line_ids`). -/
def Batch.move_line_ids_of (b : Batch) (p : Picking) : List MoveLine :=
  b.move_lines.filter (fun ml => ml.picking_id.id = p.id)

/-- Embeds `done_picks`: pickings of the batch in state done or cancel. -/
def Batch.done_picks (b : Batch) : List Picking :=
  b.picking_ids.filter (fun p => p.state = PickState.done ∨ p.state = PickState.cancel)

/-- Embeds `ready_picks`: pickings of the batch in state assigned. -/
def Batch.ready_picks (b : Batch) : List Picking :=
  b.picking_ids.filter (fun p => p.state = PickState.assigned)

/-- Embeds `unready_picks`: pickings in state draft, waiting or confirmed. -/
def Batch.unready_picks (b : Batch) : List Picking :=
  b.picking_ids.filter
    (fun p => p.state = PickState.draft ∨ p.state = PickState.waiting ∨
      p.state = PickState.confirmed)

/-- Embeds `StockPickingBatch._compute_state` for one batch: the state
the recomputation leaves the batch in.  Batches in draft or cancel are
skipped; otherwise the three sequential `if` blocks of the source are
applied in order, each overwriting the state when its condition holds,
and a batch without pickings becomes done. -/
def Batch.compute_state (b : Batch) : BatchState :=
  if b.state = BatchState.draft ∨ b.state = BatchState.cancel then b.state
  else if b.picking_ids ≠ [] then
    let ready := b.ready_picks
    let done := b.done_picks
    let unready := b.unready_picks
    let s := b.state
    let s := if ready ≠ [] ∧ unready = [] then
        (if b.user_id.isSome then BatchState.in_progress else BatchState.ready) else s
    let s := if ready ≠ [] ∧ unready ≠ [] then
        (if b.user_id.isSome then BatchState.in_progress else BatchState.waiting) else s
    let s := if done ≠ [] ∧ ready = [] ∧ unready = [] then BatchState.done else s
    s
  else BatchState.done


/-- Embeds the computed `picking_type_ids`: the (deduplicated) picking
types of the batch's pickings, `picking_ids.mapped("picking_type_id")`. -/
def Batch.picking_type_ids (b : Batch) : List PickingType :=
  (b.picking_ids.map (fun p => p.picking_type_id)).dedup

/-- Embeds `StockPickingBatch._get_move_lines_to_drop_off`: move lines of
the batch's pickings with `qty_done > 0` whose picking is not cancelled
or done (the "completed but not yet dropped off" lines). -/
def Batch.get_move_lines_to_drop_off (b : Batch) : List MoveLine :=
  ((b.picking_ids.map b.move_line_ids_of).flatten).filter
    (fun ml => 0 < ml.qty_done ∧ ml.picking_id.state ≠ PickState.cancel ∧
      ml.picking_id.state ≠ PickState.done)

/-- Result of `get_next_drop_off` (the `batch::drop` API payload).  The
human-readable `summary` string produced by
`_drop_off_criterion_summary` is not modelled: no claim concerns it. -/
structure DropOffResult where
  last : Bool
  move_line_ids : List Nat
deriving DecidableEq, Repr

/-- Embeds `StockPickingBatch.get_next_drop_off`: errors are Python
exceptions (the `assert`, the several-picking-types check and the
unknown/`all`-criterion check; an empty `picking_type_ids` would make
the Python `getattr` lookup fail, which is also an error branch here).
Otherwise filters the completed-but-undropped move lines by the
configured criterion against the scanned `item_identity`. -/
def Batch.get_next_drop_off (b : Batch) (item_identity : String) :
    Except String DropOffResult :=
  if b.state ≠ BatchState.in_progress then
    Except.error "Batch must be in progress to be dropped off"
  else
    let all_mls_to_drop := b.get_move_lines_to_drop_off
    if all_mls_to_drop.length = 0 then
      Except.ok { last := true, move_line_ids := [] }
    else
      match b.picking_type_ids with
      | [pt] =>
        match pt.u_drop_criterion with
        | DropCriterion.all =>
            Except.error "The 'all' drop off criterion should not be invoked"
        | DropCriterion.by_products =>
            let mls := all_mls_to_drop.filter
              (fun ml => ml.product_id.barcode = item_identity)
            Except.ok { last := all_mls_to_drop.length = mls.length,
                        move_line_ids := mls.map (fun ml => ml.id) }
        | DropCriterion.by_packages =>
            let mls := all_mls_to_drop.filter
              (fun ml => (ml.result_package_id.map Package.name) = some item_identity)
            Except.ok { last := all_mls_to_drop.length = mls.length,
                        move_line_ids := mls.map (fun ml => ml.id) }
        | DropCriterion.by_orders =>
            let mls := all_mls_to_drop.filter
              (fun ml => ml.picking_id.origin = item_identity)
            Except.ok { last := all_mls_to_drop.length = mls.length,
                        move_line_ids := mls.map (fun ml => ml.id) }
      | _ => Except.error "The batch unexpectedly has pickings of different types"

/-- Embeds `StockPickingBatch.confirm_picking`.  `action_assign` is a
host-framework method acting on the pickings; its outcome is a
parameter: on success a map giving each batch its (re-reserved)
pickings, on failure the raised exception.  The result pairs the final
batches with the raised error, if any: if any batch is not in draft a
ValidationError is raised and nothing is written; otherwise all batches
are written to waiting, and on assignment failure they are written back
to draft and the exception is re-raised; on success `_compute_state`
runs. -/
def confirm_picking (batches : List Batch)
    (assign : Except String (Batch → List Picking)) : List Batch × Option String :=
  if batches.any (fun b => b.state ≠ BatchState.draft) then
    (batches, some "Batch is not in state draft can not perform confirm_picking")
  else
    let waiting := batches.map (fun b => { b with state := BatchState.waiting })
    match assign with
    | Except.ok newPicks =>
        (waiting.map (fun b =>
          let b2 : Batch := { b with picking_ids := newPicks b }
          { b2 with state := b2.compute_state }), none)
    | Except.error e =>
        (waiting.map (fun b => { b with state := BatchState.draft }), some e)


/-- Embeds `MoveLine.get_lines_todo`: lines with quantity done strictly
below quantity to do. -/
def get_lines_todo (mls : List MoveLine) : List MoveLine :=
  mls.filter (fun ml => ml.qty_done < ml.product_uom_qty)

/-- Python character comparison by code point. -/
def charLtB (c d : Char) : Bool := decide (c.val < d.val)

/-- Python lexicographic string comparison (by code point), written over
the character list so that it evaluates in the kernel (Lean's `String`
order is the same lexicographic order, but its `ltb` decision procedure
does not reduce there). -/
def strLtAux : List Char → List Char → Bool
  | [], [] => false
  | [], _ :: _ => true
  | _ :: _, [] => false
  | c :: cs, d :: ds => if c = d then strLtAux cs ds else charLtB c d

/-- Python `a < b` on strings. -/
def str_lt (a b : String) : Bool := strLtAux a.data b.data

/-- Ordering used by `sort_by_location_product`: the Python tuple
comparison on `(ml.location_id.name, ml.product_id.id)`. -/
def locProdLe (a b : MoveLine) : Bool :=
  str_lt a.location_id.name b.location_id.name ||
    (a.location_id.name = b.location_id.name && a.product_id.id ≤ b.product_id.id)

/-- Embeds `MoveLine.sort_by_location_product` (Python's stable `sorted`
with key `(location name, product id)`; `insertionSort` is stable). -/
def sort_by_location_product (mls : List MoveLine) : List MoveLine :=
  mls.insertionSort (fun a b => locProdLe a b = true)

/-- Task grouping key: a Python tuple of record ids where an absent
package is `False` (`none`). -/
abbrev GroupKey := List (Option Nat)

/-- Embeds `StockPickingBatch._get_task_grouping_criteria` for the
batch's (unique) picking type: the key is built from parts — the
picking id; the package id unless the picking type allows swapping
packages and the user scans products; the location id and product id. -/
def get_task_grouping_criteria (pt : PickingType) : MoveLine → GroupKey :=
  let parts : List (MoveLine → GroupKey) := [fun ml => [some ml.picking_id.id]]
  let parts :=
    if ¬ (pt.u_allow_swapping_packages ∧ pt.u_user_scans = UserScans.product) then
      parts ++ [fun ml => [ml.package_id.map Package.id]]
    else parts
  let parts := parts ++ [fun ml => [some ml.location_id.id, some ml.product_id.id]]
  fun ml => (parts.map (fun part => part ml)).flatten

/-- Python ordering of one key component: `False` sorts below every id. -/
def optNatLe (a b : Option Nat) : Bool :=
  match a, b with
  | none, _ => true
  | some _, none => false
  | some x, some y => x ≤ y

/-- Python lexicographic tuple comparison of grouping keys. -/
def keyLe : GroupKey → GroupKey → Bool
  | [], _ => true
  | _ :: _, [] => false
  | a :: xs, b :: ys => if a = b then keyLe xs ys else optNatLe a b

/-- Splits a list into the maximal runs of consecutive elements related
by `p` to the run's start — helper carrying the current run's first
element.  Returns the run containing `x` and the later runs. -/
def chunkRunsCore {α : Type} (p : α → α → Bool) (x : α) :
    List α → List α × List (List α)
  | [] => ([x], [])
  | y :: ys =>
      let r := chunkRunsCore p y ys
      if p x y then (x :: r.1, r.2) else ([x], r.1 :: r.2)

/-- Maximal runs of elements equivalent under `p` (Python
`itertools.groupby` on an already key-sorted sequence). -/
def chunkRuns {α : Type} (p : α → α → Bool) : List α → List (List α)
  | [] => []
  | x :: xs =>
      let r := chunkRunsCore p x xs
      r.1 :: r.2

/-- Modelled from the spec: the UDES record-set `groupby` helper used by
`_populate_next_task` lives in the repository's core addon (not under
src/); per the spec it "partition[s] the batch's outstanding move lines
into ordered groups by a configurable composite key" — it sorts the
records by the key and yields the runs of equal key. -/
def groupbyKey (key : MoveLine → GroupKey) (mls : List MoveLine) :
    List (List MoveLine) :=
  chunkRuns (fun a b => key a = key b)
    (mls.insertionSort (fun a b => keyLe (key a) (key b) = true))

/-- Task payload assembled by `_populate_next_task` /
`_prepare_task_info`.  Picking-info entries irrelevant to every claim
(printing and package details, pick_quantity, quant info) are not
modelled; `confirmations` stays empty, as `_prepare_task_info` fills it
for no picking type by default. -/
structure Task where
  num_tasks_to_pick : Nat := 0
  move_line_ids : List Nat := []
  confirmations : List String := []
  picking_id : Option Nat := none
  tasks_picked : Bool := false
deriving DecidableEq, Repr

/-- Embeds `_determine_priority_skipped_moveline`: Python scans the
ordered skipped product ids for the first with a matching line, then —
whenever skipped move line ids are given — overwrites the result by the
same scan over the skipped move line ids. -/
def determine_priority_skipped_moveline (move_lines : List MoveLine)
    (skipped_product_ids skipped_move_line_ids : List Nat) : Option MoveLine :=
  if move_lines = [] then none
  else
    let prodPick := skipped_product_ids.findSome?
      (fun pid => (move_lines.filter (fun ml => ml.product_id.id = pid)).head?)
    let mlPick := skipped_move_line_ids.findSome?
      (fun i => (move_lines.filter (fun ml => ml.id = i)).head?)
    if skipped_move_line_ids ≠ [] then mlPick
    else if skipped_product_ids ≠ [] then prodPick
    else none

/-- Group iterator state of `_populate_next_task` after the `next()`
calls: the group list starting at the group to pick — the first group,
or, when a priority line is given, the first group holding it
(`while priority_ml not in task_mls: next(grouped_mls)`). -/
def next_task_groups (crit : MoveLine → GroupKey) (move_lines : List MoveLine)
    (priority_ml : Option MoveLine) : List (List MoveLine) :=
  match priority_ml with
  | none => groupbyKey crit move_lines
  | some p => (groupbyKey crit move_lines).dropWhile (fun g => ¬ p ∈ g)

/-- Task dict built by `_populate_next_task` from the picked group
`task_mls`, the count of groups left behind it, and the whole work
list: for package/pallet scanning the task counts the packages across
all lines and takes the lines sharing the first line's package;
otherwise it counts the groups left (plus the one consumed by `next()`)
and takes the group's lines.  `_prepare_task_info` contributes the
picking id of the group's (unique) picking. -/
def task_from_group (task_mls : List MoveLine) (remaining : Nat)
    (move_lines : List MoveLine) : Task :=
  match task_mls with
  | [] => {}
  | first :: _ =>
    if first.picking_id.picking_type_id.u_user_scans = UserScans.package ∨
        first.picking_id.picking_type_id.u_user_scans = UserScans.pallet then
      { num_tasks_to_pick := (move_lines.filterMap (fun ml => ml.package_id)).dedup.length,
        move_line_ids := (move_lines.filter
          (fun ml => ml.package_id = first.package_id)).map (fun ml => ml.id),
        confirmations := [],
        picking_id := some first.picking_id.id }
    else
      { num_tasks_to_pick := remaining + 1,
        move_line_ids := task_mls.map (fun ml => ml.id),
        confirmations := [],
        picking_id := some first.picking_id.id }

/-- Embeds `_populate_next_task` with grouping criteria `crit`: group
the lines by the criteria, pick the first group (advancing to the one
holding the priority line when given; its `StopIteration` — impossible
at the call sites, which draw the priority line from `move_lines` — is
the empty task), and build the task from it. -/
def populate_next_task (crit : MoveLine → GroupKey) (move_lines : List MoveLine)
    (priority_ml : Option MoveLine) : Task :=
  if move_lines = [] then {}
  else
    match next_task_groups crit move_lines priority_ml with
    | [] => {}
    | task_mls :: later => task_from_group task_mls later.length move_lines

/-- Python truthiness test `if limit and len(tasks) >= limit` with
`limit` either an int or `False` (`none`). -/
def limitReached (limit : Option Int) (ntasks : Nat) : Bool :=
  match limit with
  | none => false
  | some k => k ≠ 0 ∧ k ≤ (ntasks : Int)

/-- Embeds the `while` loop of `_populate_next_tasks`: build a task from
the work list (giving priority to a skipped line when one matches), stop
when the limit is reached, else drop the task's lines from the work list
and continue.  `fuel` bounds the iterations; every call site passes the
work list's length, which always suffices since each round drops at
least the task group's first line. -/
def populate_next_tasks_aux (crit : MoveLine → GroupKey)
    (sp sml : List Nat) (have_picked : Bool) (limit : Option Int) :
    Nat → Nat → List MoveLine → List Task
  | 0, _, _ => []
  | _ + 1, _, [] => []
  | fuel + 1, count, ml0 :: mls =>
      let move_lines := ml0 :: mls
      let priority_ml := determine_priority_skipped_moveline move_lines sp sml
      let task := populate_next_task crit move_lines priority_ml
      let task := { task with tasks_picked := have_picked }
      if limitReached limit (count + 1) then [task]
      else
        task :: populate_next_tasks_aux crit sp sml have_picked limit fuel (count + 1)
          (move_lines.filter (fun ml => ¬ ml.id ∈ task.move_line_ids))

/-- Embeds `_populate_next_tasks`. -/
def populate_next_tasks (crit : MoveLine → GroupKey) (sp sml : List Nat)
    (have_picked : Bool) (limit : Option Int) (move_lines : List MoveLine) :
    List Task :=
  populate_next_tasks_aux crit sp sml have_picked limit move_lines.length 0 move_lines

/-- Embeds `get_available_move_lines`: the move lines of the batch's
assigned pickings. -/
def Batch.get_available_move_lines (b : Batch) : List MoveLine :=
  ((b.picking_ids.filter (fun p => p.state = PickState.assigned)).map
    b.move_line_ids_of).flatten

/-- Grouping criteria of the batch: defined when the batch's pickings
share one picking type (the `ensure_one` of
`_get_task_grouping_criteria`; `none` is the error case, unreachable
under the theorems' hypotheses). -/
def Batch.task_grouping_criteria (b : Batch) : Option (MoveLine → GroupKey) :=
  match b.picking_type_ids with
  | [pt] => some (get_task_grouping_criteria pt)
  | _ => none

/-- Embeds the skipped-line selection of `get_next_tasks`: lines of
skipped products, else — when no skipped products are given — lines
with skipped ids. -/
def Batch.skipped_mls (b : Batch) (sp sml : List Nat) : List MoveLine :=
  let all_available_mls := b.get_available_move_lines
  if sp ≠ [] then
    all_available_mls.filter (fun ml => ml.product_id.id ∈ sp)
  else if sml ≠ [] then
    all_available_mls.filter (fun ml => ml.id ∈ sml)
  else []

/-- Embeds `available_mls = all_available_mls - skipped_mls` (record-set
difference, keeping the left operand's order). -/
def Batch.available_mls (b : Batch) (sp sml : List Nat) : List MoveLine :=
  b.get_available_move_lines.filter
    (fun ml => ¬ ml.id ∈ (b.skipped_mls sp sml).map (fun m => m.id))

/-- Embeds `have_tasks_been_picked = num_tasks_picked > 0`. -/
def Batch.have_tasks_been_picked (b : Batch) (sp sml : List Nat) : Bool :=
  0 < ((b.available_mls sp sml).filter
    (fun ml => ml.qty_done = ml.product_uom_qty)).length

/-- Checked form of `_populate_next_task`: the grouping criteria are
resolved only once the work list is non-empty, so the `ensure_one` of
`_get_task_grouping_criteria` (a multi-picking-type batch) raises
exactly when there is work to group. -/
def populate_next_task_checked (crit : Option (MoveLine → GroupKey))
    (move_lines : List MoveLine) (priority_ml : Option MoveLine) :
    Except String Task :=
  if move_lines = [] then Except.ok {}
  else match crit with
    | none => Except.error "Expected singleton: picking_type_ids"
    | some c => Except.ok (populate_next_task c move_lines priority_ml)

/-- Checked form of `_populate_next_tasks`: the `while` loop resolves the
grouping criteria on its first round, so an ungroupable batch raises
exactly when the work list is non-empty. -/
def populate_next_tasks_checked (crit : Option (MoveLine → GroupKey))
    (sp sml : List Nat) (have_picked : Bool) (limit : Option Int)
    (move_lines : List MoveLine) : Except String (List Task) :=
  if move_lines = [] then Except.ok []
  else match crit with
    | none => Except.error "Expected singleton: picking_type_ids"
    | some c => Except.ok (populate_next_tasks c sp sml have_picked limit move_lines)

/-- Tasks built from the not-skipped available work
(`remaining_tasks` before the skipped pass in `get_next_tasks`). -/
def Batch.primary_tasks (b : Batch) (sp sml : List Nat) (limit : Option Int) :
    Except String (List Task) :=
  populate_next_tasks_checked b.task_grouping_criteria [] []
    (b.have_tasks_been_picked sp sml) limit
    (sort_by_location_product (get_lines_todo (b.available_mls sp sml)))

/-- Work list for the skipped pass of `get_next_tasks`: skipped lines
whose picking type returns to skipped tasks, still to do, sorted. -/
def Batch.skipped_todo_mls (b : Batch) (sp sml : List Nat) : List MoveLine :=
  sort_by_location_product (get_lines_todo ((b.skipped_mls sp sml).filter
    (fun ml => ml.picking_id.picking_type_id.u_return_to_skipped)))

/-- Tasks appended for previously skipped lines (the second
`_populate_next_tasks` call of `get_next_tasks`, with the remaining
limit). -/
def Batch.skipped_tasks (b : Batch) (sp sml : List Nat) (limit : Option Int) :
    Except String (List Task) :=
  (b.primary_tasks sp sml limit).bind (fun primary =>
    populate_next_tasks_checked b.task_grouping_criteria sp sml
      (b.have_tasks_been_picked sp sml)
      (match limit with
       | some k => some (k - primary.length)
       | none => none)
      (b.skipped_todo_mls sp sml))

/-- Embeds `get_next_tasks`: the primary tasks, then the tasks for
skipped lines eligible to be returned to; when no task at all is viable,
one empty task.  A raise from the grouping criteria's `ensure_one`
propagates. -/
def Batch.get_next_tasks (b : Batch) (sp sml : List Nat) (limit : Option Int) :
    Except String (List Task) :=
  (b.primary_tasks sp sml limit).bind (fun primary =>
    (b.skipped_tasks sp sml limit).bind (fun skipped =>
      if primary ++ skipped = [] then
        (populate_next_task_checked b.task_grouping_criteria
            (b.skipped_todo_mls sp sml) none).bind (fun t =>
          Except.ok [{ t with tasks_picked := b.have_tasks_been_picked sp sml }])
      else Except.ok (primary ++ skipped)))

/-- Embeds `get_next_task`: the first of `get_next_tasks(..., limit=1)`;
Python's `[0]` indexing raises on an empty list. -/
def Batch.get_next_task (b : Batch) (sp sml : List Nat) : Except String Task :=
  (b.get_next_tasks sp sml (some 1)).bind (fun tasks =>
    match tasks.head? with
    | some t => Except.ok t
    | none => Except.error "list index out of range")


/-- Swap environment: the quant and move-line tables read by
`maybe_swap` and the swap helpers. -/
structure SwapEnv where
  quants : List Quant
  move_lines : List MoveLine
  in_progress_batch_ids : List Nat := []
  next_line_id : Nat := 0
deriving DecidableEq, Repr

/-- Embeds `stock.quant.package._get_contained_quants` (host-framework
relation): the quants inside the package. -/
def contained_quants (env : SwapEnv) (pkg : Package) : List Quant :=
  env.quants.filter (fun q => q.package_id = some pkg.id)

/-- Modelled from the spec: `Package.has_same_content` (UDES package
model, not under src/) — "validate content equivalence": the two
packages hold the same total quantity of every product. -/
def has_same_content (env : SwapEnv) (p1 p2 : Package) : Bool :=
  (((contained_quants env p1).map (fun q => q.product_id.id)) ++
      ((contained_quants env p2).map (fun q => q.product_id.id))).all
    (fun pid =>
      (((contained_quants env p1).filter (fun q => q.product_id.id = pid)).map
        (fun q => q.quantity)).sum =
      (((contained_quants env p2).filter (fun q => q.product_id.id = pid)).map
        (fun q => q.quantity)).sum)

/-- Modelled from the spec: `Package.is_reserved` (not under src/) — the
package has reserved stock. -/
def is_reserved (env : SwapEnv) (pkg : Package) : Bool :=
  (contained_quants env pkg).any (fun q => 0 < q.reserved_quantity)

/-- Modelled from the spec: `Package.find_move_lines` (not under src/) —
the move lines reserving the package. -/
def find_move_lines (env : SwapEnv) (pkg : Package) : List MoveLine :=
  env.move_lines.filter (fun ml => ml.package_id = some pkg)

/-- Outcome of `maybe_swap`: which branch performed the swap, with the
ids of the move lines it returns. -/
inductive SwapOutcome where
  | entire_swap (move_line_ids : List Nat)
  | same_batch_no_swap (move_line_ids : List Nat)
  | content_swap (move_line_ids : List Nat)
deriving DecidableEq, Repr

/-- Embeds `StockPicking._get_mls_for_entire_package_swap`: errors are
the raised ValidationErrors; `Except.ok none` is the Python `None`
(scanned package not reserved). -/
def get_mls_for_entire_package_swap (env : SwapEnv) (scanned expected : Package) :
    Except String (Option (List MoveLine)) :=
  if ¬ has_same_content env scanned expected then
    Except.error "The contents do not match what you have been asked to pick."
  else if ¬ is_reserved env scanned then
    Except.ok none
  else
    let scanned_pack_mls := find_move_lines env scanned
    if scanned_pack_mls = [] then
      Except.error "Package is reserved for a picking type you are not allowed to work with."
    else if scanned_pack_mls.filter (fun ml => 0 < ml.qty_done) ≠ [] then
      Except.error "Package has move lines already done."
    else
      Except.ok (some scanned_pack_mls)

/-- Per-product quantities held by a package's quants: the capacities
against which `mls_can_fulfil` matches move lines. -/
def pack_product_caps (quants : List Quant) (pkg : Package) : List (Nat × Nat) :=
  (((quants.filter (fun q => q.package_id = some pkg.id)).map
      (fun q => q.product_id.id)).dedup).map
    (fun pid => (pid, (((quants.filter (fun q => q.package_id = some pkg.id)).filter
        (fun q => q.product_id.id = pid)).map (fun q => q.quantity)).sum))

/-- Remaining capacity of one product. -/
def cap_lookup (caps : List (Nat × Nat)) (pid : Nat) : Nat :=
  match caps.find? (fun c => c.1 = pid) with
  | some c => c.2
  | none => 0

/-- Decrease one product's remaining capacity. -/
def cap_update (caps : List (Nat × Nat)) (pid v : Nat) : List (Nat × Nat) :=
  caps.map (fun c => if c.1 = pid then (pid, v) else c)

/-- Modelled from the spec: `Package.mls_can_fulfil` (UDES package
model, not under src/) — "Move lines will be split to maximise the
amount fulfilled by the scanned package": walk the lines in order
against the package's per-product capacities; a line wholly within the
remaining capacity is fulfilled, a line over it is split — the
fulfilled part keeps the line's id, the excess becomes a fresh line —
and a line of an exhausted product is not fulfilled (it is returned in
neither component, as the callers keep unfulfilled candidates
themselves).  Returns the fulfilled lines, the fresh excess lines from
splits, and the next fresh line id. -/
def mls_can_fulfil_core : List (Nat × Nat) → Nat → List MoveLine →
    List MoveLine × List MoveLine × Nat
  | _, nid, [] => ([], [], nid)
  | caps, nid, ml :: rest =>
    let cap := cap_lookup caps ml.product_id.id
    if cap = 0 then
      mls_can_fulfil_core caps nid rest
    else if ml.product_uom_qty ≤ cap then
      let r := mls_can_fulfil_core (cap_update caps ml.product_id.id
        (cap - ml.product_uom_qty)) nid rest
      (ml :: r.1, r.2.1, r.2.2)
    else
      let r := mls_can_fulfil_core (cap_update caps ml.product_id.id 0) (nid + 1) rest
      ({ ml with product_uom_qty := cap } :: r.1,
       { ml with id := nid, product_uom_qty := ml.product_uom_qty - cap, qty_done := 0 } :: r.2.1,
       r.2.2)

/-- `Package.mls_can_fulfil` against the environment's quant table,
drawing fresh line ids from the environment. -/
def mls_can_fulfil (env : SwapEnv) (pkg : Package) (mls : List MoveLine) :
    List MoveLine × List MoveLine × Nat :=
  mls_can_fulfil_core (pack_product_caps env.quants pkg) env.next_line_id mls

/-- Embeds `StockPicking._get_mls_for_package_content_swap`: split the
expected lines down to what the scanned package can fulfil; errors are
the raised ValidationErrors; `none` as first component is the Python
`None` (scanned package not reserved). -/
def get_mls_for_package_content_swap (env : SwapEnv) (scanned : Package)
    (mls : List MoveLine) : Except String (Option (List MoveLine) × List MoveLine) :=
  let r := mls_can_fulfil env scanned mls
  if r.1 = [] then
    Except.error "Package can not fulfil the move lines so can not swap"
  else if ¬ is_reserved env scanned then
    Except.ok (none, r.1)
  else
    let scanned_pack_mls := get_lines_todo (find_move_lines env scanned)
    if scanned_pack_mls = [] then
      Except.error "Package is reserved for a picking type you are not allowed to work with."
    else
      let current_batch := match r.1 with
        | [] => none
        | m :: _ => m.picking_id.batch_id
      if (scanned_pack_mls.filter (fun ml =>
          match ml.picking_id.batch_id with
          | some i => i ∈ env.in_progress_batch_ids ∧ some i ≠ current_batch
          | none => False)) ≠ [] then
        Except.error "Package is contained within an in progress batch."
      else
        Except.ok (some scanned_pack_mls, r.1)

/-- Embeds `StockPicking.maybe_swap` on one picking: the common guard
chain and both scan modes.  The content path runs
`_get_mls_for_package_content_swap` and the common picking-type check
and returns the fulfilled expected lines; the state change itself is
`_swap_package_contents` below.  The entire-package path mirrors the
source's `else` branch. -/
def maybe_swap (env : SwapEnv) (picking : Picking) (scanned : Package)
    (expected_packages : List Package) : Except String SwapOutcome :=
  if ¬ picking.picking_type_id.u_allow_swapping_packages then
    Except.error "Cannot swap packages of picking type"
  else
    let exp_pack_mls := (get_lines_todo (env.move_lines.filter
      (fun ml => ml.picking_id.id = picking.id))).filter
      (fun ml => match ml.package_id with
        | some p => p ∈ expected_packages
        | none => False)
    if exp_pack_mls = [] then
      Except.error "Expected package(s) cannot be found in picking"
    else
      match (expected_packages.map (fun p => p.location_id)).dedup with
      | [exp_loc] =>
        if scanned.location_id ≠ exp_loc then
          Except.error "Packages are in different locations and cannot be swapped"
        else if picking.picking_type_id.u_user_scans = UserScans.product then
          match get_mls_for_package_content_swap env scanned exp_pack_mls with
          | Except.error e => Except.error e
          | Except.ok r =>
            match r.1 with
            | none => Except.ok (SwapOutcome.content_swap (r.2.map (fun ml => ml.id)))
            | some scanned_pack_mls =>
              match scanned_pack_mls with
              | [] => Except.ok (SwapOutcome.content_swap (r.2.map (fun ml => ml.id)))
              | m0 :: _ =>
                if m0.picking_id.picking_type_id ≠ picking.picking_type_id then
                  Except.error "Packages have different picking types and cannot be swapped"
                else
                  Except.ok (SwapOutcome.content_swap (r.2.map (fun ml => ml.id)))
        else
          match expected_packages with
          | [ep] =>
            match get_mls_for_entire_package_swap env scanned ep with
            | Except.error e => Except.error e
            | Except.ok none =>
                Except.ok (SwapOutcome.entire_swap (exp_pack_mls.map (fun ml => ml.id)))
            | Except.ok (some scanned_pack_mls) =>
                match scanned_pack_mls with
                | [] =>
                    Except.ok (SwapOutcome.entire_swap (exp_pack_mls.map (fun ml => ml.id)))
                | m0 :: _ =>
                  if m0.picking_id.picking_type_id ≠ picking.picking_type_id then
                    Except.error "Packages have different picking types and cannot be swapped"
                  else if picking.batch_id.isSome ∧ m0.picking_id.batch_id = picking.batch_id then
                    Except.ok (SwapOutcome.same_batch_no_swap
                      (scanned_pack_mls.map (fun ml => ml.id)))
                  else
                    Except.ok (SwapOutcome.entire_swap (exp_pack_mls.map (fun ml => ml.id)))
          | _ => Except.error "Expected one record for expected_package"
      | _ => Except.error "Expected one record for expected_package_location"

/-- Embeds `StockMoveLine._split_by_qty` with integral quantities.  The
Python method returns only the new line; the updated original is
returned alongside so the split's effect is visible (`none` when no
split happens). -/
def split_by_qty (ml : MoveLine) (qty : Nat) (newId : Nat) :
    Except String (MoveLine × Option MoveLine) :=
  if 0 < ml.qty_done then
    Except.error "Trying to split a move line by quantity when the move line is alreay done"
  else if 0 < qty ∧ qty < ml.product_uom_qty then
    let new_ml_qty_todo := qty
    let old_ml_qty_todo := ml.product_uom_qty - qty
    let new_ml_ordered_qty := if ml.ordered_qty < qty then 0 else qty
    let old_ml_ordered_qty := if ml.ordered_qty < qty then ml.ordered_qty
      else ml.ordered_qty - qty
    Except.ok
      ({ ml with product_uom_qty := old_ml_qty_todo, ordered_qty := old_ml_ordered_qty },
       some { ml with id := newId, product_uom_qty := new_ml_qty_todo, ordered_qty := new_ml_ordered_qty, qty_done := 0 })
  else Except.ok (ml, none)

/-- Fields swappable between quants by `_swap_quant_fields`. -/
inductive QuantField where
  | package | lot
deriving DecidableEq, Repr

/-- Reads a swappable quant field. -/
def get_quant_field (q : Quant) : QuantField → Option Nat
  | QuantField.package => q.package_id
  | QuantField.lot => q.lot_id

/-- Writes a swappable quant field. -/
def set_quant_field (q : Quant) : QuantField → Option Nat → Quant
  | QuantField.package, v => { q with package_id := v }
  | QuantField.lot, v => { q with lot_id := v }

/-- Modelled from the spec (the in-source docstring of
`_split_quant_swap_field`): UDES `stock.quant._split` (not under src/)
splits off a new quant carrying the requested quantity while the
original keeps the remainder; reserved stock stays on the original. -/
def quant_split (q : Quant) (qty : Nat) (newId : Nat) : Quant × Quant :=
  ({ q with quantity := q.quantity - qty },
   { q with id := newId, quantity := qty, reserved_quantity := 0 })

/-- Embeds the `_split_quant_swap_field` helper of `_swap_quant_fields`:
split the larger quant by the smaller quant's quantity, then swap the
given fields between the smaller quant and the split-off quant.
Returns (smaller', larger', split). -/
def split_quant_swap_field (smaller larger : Quant)
    (fields_to_swap : List QuantField) (newId : Nat) : Quant × Quant × Quant :=
  let r := quant_split larger smaller.quantity newId
  let qsplit := fields_to_swap.foldl
    (fun acc f => set_quant_field acc f (get_quant_field smaller f)) r.2
  let smaller' := fields_to_swap.foldl
    (fun acc f => set_quant_field acc f (get_quant_field larger f)) smaller
  (smaller', r.1, qsplit)

/-- Embeds `_get_all_products_quantities` (`stock_move_line.py`): total
quantity to do per product of the given move lines. -/
def all_products_quantities (mls : List MoveLine) : List (Nat × Nat) :=
  ((mls.map (fun ml => ml.product_id.id)).dedup).map
    (fun pid => (pid, ((mls.filter (fun ml => ml.product_id.id = pid)).map
      (fun ml => ml.product_uom_qty)).sum))

/-- The strict `_gather` match of `MoveLine.get_quants` (host
framework): the quant holds some of the lines' product in the line's
package at the line's location. -/
def gathers (mls : List MoveLine) (q : Quant) : Bool :=
  mls.any (fun ml => ml.product_id = q.product_id ∧
    (ml.package_id.map (fun p => p.id)) = q.package_id ∧
    ml.location_id.id = q.location_id)

/-- Embeds `_get_adjusted_quantities`: per product of the considered
quants, their total reserved quantity minus the move lines' total
quantity to do, skipping zero results. -/
def get_adjusted_quantities (quants : List Quant) (pack_mls : List MoveLine) :
    List (Nat × Nat) :=
  (((quants.map (fun q => q.product_id.id)).dedup).map
    (fun pid =>
      (pid, ((quants.filter (fun q => q.product_id.id = pid)).map
          (fun q => q.reserved_quantity)).sum -
        ((pack_mls.filter (fun ml => ml.product_id.id = pid)).map
          (fun ml => ml.product_uom_qty)).sum))).filter
    (fun pq => pq.2 ≠ 0)

/-- One product round of `_swap_adjust_reserved_quantity`: walk the
quant table, writing `reserved_quantity := min remaining quantity` on
each quant of the product inside the considered set (`pred`), stopping
once nothing remains.  Returns the updated table, the remaining amount
and the ids of the written quants. -/
def write_reserved_for_product (pred : Quant → Bool) (pid : Nat) :
    Nat → List Quant → List Quant × Nat × List Nat
  | amount, [] => ([], amount, [])
  | amount, q :: qs =>
    if pred q ∧ q.product_id.id = pid then
      if amount = 0 then (q :: qs, 0, [])
      else
        let w := min amount q.quantity
        let r := write_reserved_for_product pred pid (amount - w) qs
        ({ q with reserved_quantity := w } :: r.1, r.2.1, q.id :: r.2.2)
    else
      let r := write_reserved_for_product pred pid amount qs
      (q :: r.1, r.2.1, r.2.2)

/-- Embeds `_swap_adjust_reserved_quantity` over the quant table,
restricted to the considered quants (`pred`): one round per product.
Returns the updated table and the written (touched) quant ids; the
Python return value is the untouched remainder of the considered set. -/
def swap_adjust_reserved_quantity (pred : Quant → Bool) (quants : List Quant)
    (prod_quantities : List (Nat × Nat)) : List Quant × List Nat :=
  prod_quantities.foldl
    (fun acc pq =>
      let r := write_reserved_for_product pred pq.1 pq.2 acc.1
      (r.1, acc.2 ++ r.2.2))
    (quants, [])

/-- Embeds `_swap_unreserved` for the entire-package swap (a single
expected package, so the `groupby("package_id")` loop has one round):
1) redistribute the adjusted amounts over the expected lines' quants and
zero every untouched considered quant; 2) reserve the scanned package's
quants by the lines' product quantities; 3) move the expected lines onto
the scanned package. -/
def swap_unreserved (quants : List Quant) (scanned : Package)
    (exp_pack_mls : List MoveLine) : List Quant × List MoveLine :=
  let pred := gathers exp_pack_mls
  let adj := get_adjusted_quantities (quants.filter pred) exp_pack_mls
  let r1 := swap_adjust_reserved_quantity pred quants adj
  let quants2 := r1.1.map (fun q =>
    if pred q ∧ ¬ q.id ∈ r1.2 then { q with reserved_quantity := 0 } else q)
  let spred : Quant → Bool := fun q => q.package_id = some scanned.id
  let r2 := swap_adjust_reserved_quantity spred quants2
    (all_products_quantities exp_pack_mls)
  (r2.1, exp_pack_mls.map (fun ml =>
    { ml with package_id := some scanned, result_package_id := some scanned }))

/-- Embeds `_update_move_lines_and_log_swap` at pack level: move the
lines onto the other package (`package_id` and `result_package_id`
writes).  The below-pack lot bookkeeping touches no quantity and is not
modelled. -/
def update_move_lines_swap (move_lines : List MoveLine) (other_pack : Package) :
    List MoveLine :=
  move_lines.map (fun ml =>
    { ml with package_id := some other_pack, result_package_id := some other_pack })

/-- Embeds `_swap_entire_package`: when both packages are reserved the
lines of each simply trade packages; when only the expected one is
reserved, `_swap_unreserved` re-reserves the scanned package's stock;
with no expected lines Python raises `AssertionError`. -/
def swap_entire_package (quants : List Quant) (scanned expected : Package)
    (scanned_pack_mls exp_pack_mls : List MoveLine) :
    Except String (List Quant × List MoveLine) :=
  if scanned_pack_mls ≠ [] ∧ exp_pack_mls ≠ [] then
    Except.ok (quants,
      update_move_lines_swap exp_pack_mls scanned ++
        update_move_lines_swap scanned_pack_mls expected)
  else if exp_pack_mls ≠ [] then
    Except.ok (swap_unreserved quants scanned exp_pack_mls)
  else
    Except.error "No expected pack move lines"

/-- One round of the `for pack in expected_packages` loop of
`_swap_package_contents`: the accumulator holds the already swapped
lines, the remaining candidate scanned lines and the next fresh line
id; the pack fulfils what it can of the candidates, the fulfilled lines
move onto the pack (`candidate_scan_mls -= scan_mls`), and the excess
from splits joins the candidates (`candidate_scan_mls += excess_ml`). -/
def swap_contents_step (quants : List Quant)
    (acc : List MoveLine × List MoveLine × Nat) (pack : Package) :
    List MoveLine × List MoveLine × Nat :=
  let f := mls_can_fulfil_core (pack_product_caps quants pack) acc.2.2 acc.2.1
  (acc.1 ++ update_move_lines_swap f.1 pack,
   acc.2.1.filter (fun ml => ¬ ml.id ∈ f.1.map (fun m => m.id)) ++ f.2.1,
   f.2.2)

/-- Embeds `_swap_package_contents`: scanned lines overlapping the
expected ones are dropped from the scanned side; when both sides are
reserved, the expected lines move onto the scanned package and the
scanned lines are distributed over the expected packages as far as
each can fulfil them (splitting lines as needed, leftover candidates
unchanged); when only the expected side is reserved,
`_swap_unreserved` re-reserves the scanned package's stock; with no
expected lines Python raises `AssertionError`. -/
def swap_package_contents (quants : List Quant) (scanned : Package)
    (expected_packages : List Package)
    (scanned_pack_mls exp_pack_mls : List MoveLine) (newIdBase : Nat) :
    Except String (List Quant × List MoveLine) :=
  let scanned_pack_mls :=
    if scanned_pack_mls ≠ [] ∧ exp_pack_mls ≠ [] ∧
        (scanned_pack_mls.filter (fun ml =>
          ml.id ∈ exp_pack_mls.map (fun m => m.id))) ≠ [] then
      scanned_pack_mls.filter (fun ml => ¬ ml.id ∈ exp_pack_mls.map (fun m => m.id))
    else scanned_pack_mls
  if scanned_pack_mls ≠ [] ∧ exp_pack_mls ≠ [] then
    let r := expected_packages.foldl (swap_contents_step quants)
      ([], scanned_pack_mls, newIdBase)
    Except.ok (quants, update_move_lines_swap exp_pack_mls scanned ++ (r.1 ++ r.2.1))
  else if exp_pack_mls ≠ [] then
    Except.ok (swap_unreserved quants scanned exp_pack_mls)
  else
    Except.error "No expected pack move lines"

/-- Reference to an originating move (`move_orig_ids` entry) with its
state. -/
structure StockMoveRef where
  id : Nat
  state : PickState
deriving DecidableEq, Repr

/-- Stock move (`stock.move`): the parent of move lines, owned by a
picking. -/
structure Move where
  id : Nat
  picking_id : Nat
  state : PickState
  product_id : Product
  product_uom_qty : Nat
  move_orig_ids : List StockMoveRef := []
deriving DecidableEq, Repr

/-- Record-set equality of two move-line sets (same ids). -/
def same_records (l1 l2 : List MoveLine) : Bool :=
  (l1.map (fun ml => ml.id)).all (fun i => i ∈ l2.map (fun ml => ml.id)) &&
    (l2.map (fun ml => ml.id)).all (fun i => i ∈ l1.map (fun ml => ml.id))

/-- Embeds `StockPicking._requires_backorder`: some non-cancelled move
of the picking is not among the lines' moves, or its move lines are not
exactly the given lines of that move, or it has an unfinished
originating move. -/
def requires_backorder (p : Picking) (moves : List Move)
    (all_mls mls : List MoveLine) : Bool :=
  ((moves.filter (fun mv => mv.picking_id = p.id)).filter
    (fun mv => mv.state ≠ PickState.cancel)).any
    (fun mv =>
      ¬ mv.id ∈ mls.map (fun ml => ml.move_id) ||
      ¬ same_records (all_mls.filter (fun ml => ml.move_id = mv.id))
        (mls.filter (fun ml => ml.move_id = mv.id)) ||
      (mv.move_orig_ids.filter (fun o => o.state ≠ PickState.done ∧
        o.state ≠ PickState.cancel)) ≠ [])

/-- Modelled from the spec: `stock.move.split_out_move_lines` (UDES
stock move model, not under src/) — "splitting their parent moves when a
move is only partially covered": when the given lines are all of the
move's lines the move itself is returned; otherwise the move is split, a
new move taking exactly the given lines (and their quantity) out of the
original.  Returns the move carrying the lines plus the updated move
table and move-line table. -/
def split_out_move_lines (mv : Move) (current_mls : List MoveLine)
    (moves : List Move) (all_mls : List MoveLine) (newMoveId : Nat) :
    Nat × List Move × List MoveLine :=
  if same_records (all_mls.filter (fun ml => ml.move_id = mv.id)) current_mls then
    (mv.id, moves, all_mls)
  else
    let split_qty := (current_mls.map (fun ml => ml.product_uom_qty)).sum
    let new_move : Move := { mv with id := newMoveId, product_uom_qty := split_qty }
    (newMoveId,
     moves.map (fun m => if m.id = mv.id then
        { m with product_uom_qty := m.product_uom_qty - split_qty } else m) ++ [new_move],
     all_mls.map (fun ml => if ml.id ∈ current_mls.map (fun m2 => m2.id) then
        { ml with move_id := newMoveId } else ml))

/-- Embeds `StockPicking._backorder_movelines` for an explicit move-line
set: raise when the lines are disjoint from the picking's lines; else
split the lines' moves out of their parents, create the backorder
picking (with `backorder_id` pointing at the original) and move the
split moves and the given lines into it.  `newPickingId` and fresh move
ids parametrize the created records. -/
def backorder_movelines (p : Picking) (moves : List Move)
    (all_mls : List MoveLine) (mls : List MoveLine)
    (newPickingId newMoveIdBase : Nat) :
    Except String (Picking × List Move × List MoveLine) :=
  if (mls.filter (fun ml => ml.id ∈ (all_mls.filter
      (fun m2 => m2.picking_id.id = p.id)).map (fun m2 => m2.id))) = [] then
    Except.error "There are no move lines within picking to backorder"
  else
    let move_ids := (mls.map (fun ml => ml.move_id)).dedup
    let r := move_ids.foldl
      (fun (acc : List Nat × List Move × List MoveLine × Nat) mid =>
        match (acc.2.1.filter (fun mv => mv.id = mid)).head? with
        | none => acc
        | some mv =>
          let s := split_out_move_lines mv (mls.filter (fun ml => ml.move_id = mid))
            acc.2.1 acc.2.2.1 acc.2.2.2
          (acc.1 ++ [s.1], s.2.1, s.2.2, acc.2.2.2 + 1))
      ([], moves, all_mls, newMoveIdBase)
    let dest : Picking := { p with id := newPickingId, backorder_id := some p.id }
    let new_moves : List Nat := r.1
    let moves' := r.2.1.map (fun mv =>
      if mv.id ∈ new_moves then { mv with picking_id := dest.id } else mv)
    let mls' := r.2.2.1.map (fun ml =>
      if ml.move_id ∈ new_moves then { ml with picking_id := dest } else ml)
    Except.ok (dest, moves', mls')


/-- Total reserved quantity of the quants satisfying `cond`. -/
def res_sum (cond : Quant → Bool) (quants : List Quant) : Nat :=
  ((quants.filter cond).map (fun q => q.reserved_quantity)).sum

/-- Total physical quantity of the quants satisfying `cond`. -/
def qty_sum (cond : Quant → Bool) (quants : List Quant) : Nat :=
  ((quants.filter cond).map (fun q => q.quantity)).sum

/-- Total quantity to do of the move lines of one product. -/
def mls_qty_sum (pid : Nat) (mls : List MoveLine) : Nat :=
  ((mls.filter (fun ml => ml.product_id.id = pid)).map
    (fun ml => ml.product_uom_qty)).sum

/-- A quant predicate that does not look at the reserved quantity. -/
def ResIgnoring (c : Quant → Bool) : Prop :=
  ∀ q w, c { q with reserved_quantity := w } = c q

end UDES

namespace UDES

/-- Helper: `filter` is the whole list iff every element satisfies the
predicate (decidable-proposition form). -/
theorem filter_all_eq {α : Type} (p : α → Bool) (l : List α) (h : ∀ a ∈ l, p a) :
    l.filter p = l := by
  induction l with
  | nil => rfl
  | cons x xs ih =>
      simp only [List.filter_cons, h x (List.mem_cons_self x xs), if_pos]
      simp only [List.cons.injEq, true_and]
      exact ih (fun a ha => h a (List.mem_cons_of_mem x ha))

/-- claim C1: for a batch not in draft/cancel with at least one picking,
`_compute_state` yields done when every picking is done or cancelled;
in_progress when some picking is assigned and a user is assigned;
ready when some picking is assigned, none is unready, and no user is
assigned; waiting when some picking is assigned, some is unready, and no
user is assigned; and batches in draft or cancel are left unchanged. -/
theorem compute_state_cases (b : Batch) :
    (b.state = BatchState.draft ∨ b.state = BatchState.cancel →
      b.compute_state = b.state) ∧
    (b.state ≠ BatchState.draft → b.state ≠ BatchState.cancel →
      b.picking_ids ≠ [] →
      (((∀ p ∈ b.picking_ids, p.state = PickState.done ∨ p.state = PickState.cancel) →
          b.compute_state = BatchState.done) ∧
       ((∃ p ∈ b.picking_ids, p.state = PickState.assigned) → b.user_id.isSome →
          b.compute_state = BatchState.in_progress) ∧
       ((∃ p ∈ b.picking_ids, p.state = PickState.assigned) →
          (∀ p ∈ b.picking_ids, p.state ≠ PickState.draft ∧
            p.state ≠ PickState.waiting ∧ p.state ≠ PickState.confirmed) →
          b.user_id = none → b.compute_state = BatchState.ready) ∧
       ((∃ p ∈ b.picking_ids, p.state = PickState.assigned) →
          (∃ p ∈ b.picking_ids, p.state = PickState.draft ∨
            p.state = PickState.waiting ∨ p.state = PickState.confirmed) →
          b.user_id = none → b.compute_state = BatchState.waiting))) := by
  constructor
  · intro h
    simp only [Batch.compute_state, if_pos h]
  · intro hd hc hne
    have hguard : ¬(b.state = BatchState.draft ∨ b.state = BatchState.cancel) := by
      rintro (h | h) <;> [exact hd h; exact hc h]
    refine ⟨?_, ?_, ?_, ?_⟩
    · intro hall
      have hready : b.ready_picks = [] := by
        simp only [Batch.ready_picks, List.filter_eq_nil_iff]
        intro p hp
        rcases hall p hp with h | h <;> simp [h]
      have hunready : b.unready_picks = [] := by
        simp only [Batch.unready_picks, List.filter_eq_nil_iff]
        intro p hp
        rcases hall p hp with h | h <;> simp [h]
      have hdone : b.done_picks ≠ [] := by
        have : b.done_picks = b.picking_ids := by
          apply filter_all_eq
          intro p hp
          rcases hall p hp with h | h <;> simp [h]
        rw [this]; exact hne
      simp only [Batch.compute_state, if_neg hguard, if_pos hne]
      simp [hready, hunready, hdone]
    · rintro ⟨p, hp, hps⟩ huser
      have hready : b.ready_picks ≠ [] := by
        simp only [Batch.ready_picks, ne_eq, List.filter_eq_nil_iff, not_forall]
        exact ⟨p, hp, by simp [hps]⟩
      simp only [Batch.compute_state, if_neg hguard, if_pos hne]
      by_cases hu : b.unready_picks = []
      · simp [hready, hu, huser]
      · simp [hready, hu, huser]
    · rintro ⟨p, hp, hps⟩ hnone huser
      have hready : b.ready_picks ≠ [] := by
        simp only [Batch.ready_picks, ne_eq, List.filter_eq_nil_iff, not_forall]
        exact ⟨p, hp, by simp [hps]⟩
      have hunready : b.unready_picks = [] := by
        simp only [Batch.unready_picks, List.filter_eq_nil_iff]
        intro q hq
        rcases hnone q hq with ⟨h1, h2, h3⟩
        simp [h1, h2, h3]
      have : b.user_id.isSome = false := by simp [huser]
      simp only [Batch.compute_state, if_neg hguard, if_pos hne]
      simp [hready, hunready, this]
    · rintro ⟨p, hp, hps⟩ ⟨q, hq, hqs⟩ huser
      have hready : b.ready_picks ≠ [] := by
        simp only [Batch.ready_picks, ne_eq, List.filter_eq_nil_iff, not_forall]
        exact ⟨p, hp, by simp [hps]⟩
      have hunready : b.unready_picks ≠ [] := by
        simp only [Batch.unready_picks, ne_eq, List.filter_eq_nil_iff, not_forall]
        refine ⟨q, hq, ?_⟩
        rcases hqs with h | h | h <;> simp [h]
      have : b.user_id.isSome = false := by simp [huser]
      simp only [Batch.compute_state, if_neg hguard, if_pos hne]
      simp [hready, hunready, this]

/-- witness for C1: on a concrete batch (not draft/cancel, one assigned
picking, a user assigned) the recomputation yields in_progress. -/
theorem compute_state_cases_witness :
    ({ id := 1, name := "B1", state := BatchState.waiting, user_id := some 7, picking_ids := [{ id := 1, state := PickState.assigned, picking_type_id := { id := 1 }, batch_id := some 1 }] } : Batch).compute_state = BatchState.in_progress := by
  have h := (compute_state_cases
    { id := 1, name := "B1", state := BatchState.waiting, user_id := some 7, picking_ids := [{ id := 1, state := PickState.assigned, picking_type_id := { id := 1 }, batch_id := some 1 }] }).2
    (by decide) (by decide) (by decide)
  exact h.2.1 ⟨_, List.mem_cons_self _ _, rfl⟩ (by decide)

/-- Helper for C7: recomputation of a batch whose state field has been
replaced by `s`, written as nested `if`s (definitional unfolding of
`Batch.compute_state`). -/
theorem compute_state_update_eq (b : Batch) (s : BatchState) :
    ({ b with state := s } : Batch).compute_state =
      (if s = BatchState.draft ∨ s = BatchState.cancel then s
       else if b.picking_ids ≠ [] then
         (if b.done_picks ≠ [] ∧ b.ready_picks = [] ∧ b.unready_picks = [] then
            BatchState.done
          else if b.ready_picks ≠ [] ∧ b.unready_picks ≠ [] then
            (if b.user_id.isSome then BatchState.in_progress else BatchState.waiting)
          else if b.ready_picks ≠ [] ∧ b.unready_picks = [] then
            (if b.user_id.isSome then BatchState.in_progress else BatchState.ready)
          else s)
       else BatchState.done) := rfl

/-- claim C7: recomputing the batch state twice yields the same state as
recomputing it once (`_compute_state` is idempotent). -/
theorem compute_state_idempotent (b : Batch) :
    ({ b with state := b.compute_state } : Batch).compute_state = b.compute_state := by
  have hb : b.compute_state = ({ b with state := b.state } : Batch).compute_state := rfl
  rw [compute_state_update_eq, hb, compute_state_update_eq]
  by_cases hg : b.state = BatchState.draft ∨ b.state = BatchState.cancel
  · simp [hg]
  · simp only [if_neg hg]
    by_cases hne : b.picking_ids ≠ []
    · simp only [if_pos hne]
      by_cases h3 : b.done_picks ≠ [] ∧ b.ready_picks = [] ∧ b.unready_picks = [] <;>
        by_cases h2 : b.ready_picks ≠ [] ∧ b.unready_picks ≠ [] <;>
        by_cases h1 : b.ready_picks ≠ [] ∧ b.unready_picks = [] <;>
        cases hu : b.user_id.isSome <;>
        simp [h3, h2, h1, hne, hg, hu]
    · simp [hne]


/-- Helper: a sublist obtained by `filter` equals the original list iff
their lengths agree. -/
theorem filter_eq_self_iff_length {α : Type} (p : α → Bool) (l : List α) :
    l.filter p = l ↔ (l.filter p).length = l.length := by
  constructor
  · intro h; rw [h]
  · intro h
    rw [List.filter_eq_self]
    intro a ha
    by_contra hpa
    have hlt : (l.filter p).length < l.length := by
      apply List.length_filter_lt_length_iff_exists.mpr
      exact ⟨a, ha, by simpa using hpa⟩
    omega

/-- claim C3: for an in-progress batch with a single picking type,
`get_next_drop_off(item_identity)` returns last = true and no move lines
when there are no completed-but-undropped lines; otherwise, under drop
criterion by_products (resp. by_packages, by_orders), it selects exactly
the completed-but-undropped lines whose product barcode (resp. result
package name, picking origin) equals `item_identity`, and reports
last = true iff the selection is all of the completed-but-undropped
lines. -/
theorem get_next_drop_off_spec (b : Batch) (pt : PickingType) (item : String)
    (hstate : b.state = BatchState.in_progress)
    (hpt : b.picking_type_ids = [pt]) :
    (b.get_move_lines_to_drop_off = [] →
      b.get_next_drop_off item = Except.ok { last := true, move_line_ids := [] }) ∧
    (b.get_move_lines_to_drop_off ≠ [] →
      pt.u_drop_criterion = DropCriterion.by_products →
      ∃ r, b.get_next_drop_off item = Except.ok r ∧
        r.move_line_ids = (b.get_move_lines_to_drop_off.filter
          (fun ml => ml.product_id.barcode = item)).map (fun ml => ml.id) ∧
        (r.last = true ↔ b.get_move_lines_to_drop_off.filter
          (fun ml => ml.product_id.barcode = item) = b.get_move_lines_to_drop_off)) ∧
    (b.get_move_lines_to_drop_off ≠ [] →
      pt.u_drop_criterion = DropCriterion.by_packages →
      ∃ r, b.get_next_drop_off item = Except.ok r ∧
        r.move_line_ids = (b.get_move_lines_to_drop_off.filter
          (fun ml => (ml.result_package_id.map Package.name) = some item)).map
            (fun ml => ml.id) ∧
        (r.last = true ↔ b.get_move_lines_to_drop_off.filter
          (fun ml => (ml.result_package_id.map Package.name) = some item)
            = b.get_move_lines_to_drop_off)) ∧
    (b.get_move_lines_to_drop_off ≠ [] →
      pt.u_drop_criterion = DropCriterion.by_orders →
      ∃ r, b.get_next_drop_off item = Except.ok r ∧
        r.move_line_ids = (b.get_move_lines_to_drop_off.filter
          (fun ml => ml.picking_id.origin = item)).map (fun ml => ml.id) ∧
        (r.last = true ↔ b.get_move_lines_to_drop_off.filter
          (fun ml => ml.picking_id.origin = item) = b.get_move_lines_to_drop_off)) := by
  have hs : ¬ b.state ≠ BatchState.in_progress := by simp [hstate]
  refine ⟨?_, ?_, ?_, ?_⟩
  · intro hempty
    simp [Batch.get_next_drop_off, hs, hempty]
  · intro hne hcrit
    have hlen : ¬ b.get_move_lines_to_drop_off.length = 0 := by
      simpa [List.length_eq_zero] using hne
    have heq : b.get_next_drop_off item = Except.ok
        { last := decide (b.get_move_lines_to_drop_off.length =
            (b.get_move_lines_to_drop_off.filter
              (fun ml => ml.product_id.barcode = item)).length),
          move_line_ids := (b.get_move_lines_to_drop_off.filter
            (fun ml => ml.product_id.barcode = item)).map (fun ml => ml.id) } := by
      simp only [Batch.get_next_drop_off, if_neg hs, if_neg hlen, hpt, hcrit]
    refine ⟨_, heq, rfl, ?_⟩
    simp only [decide_eq_true_eq]
    rw [filter_eq_self_iff_length]
    exact eq_comm
  · intro hne hcrit
    have hlen : ¬ b.get_move_lines_to_drop_off.length = 0 := by
      simpa [List.length_eq_zero] using hne
    have heq : b.get_next_drop_off item = Except.ok
        { last := decide (b.get_move_lines_to_drop_off.length =
            (b.get_move_lines_to_drop_off.filter
              (fun ml => (ml.result_package_id.map Package.name) = some item)).length),
          move_line_ids := (b.get_move_lines_to_drop_off.filter
            (fun ml => (ml.result_package_id.map Package.name) = some item)).map
              (fun ml => ml.id) } := by
      simp only [Batch.get_next_drop_off, if_neg hs, if_neg hlen, hpt, hcrit]
    refine ⟨_, heq, rfl, ?_⟩
    simp only [decide_eq_true_eq]
    rw [filter_eq_self_iff_length]
    exact eq_comm
  · intro hne hcrit
    have hlen : ¬ b.get_move_lines_to_drop_off.length = 0 := by
      simpa [List.length_eq_zero] using hne
    have heq : b.get_next_drop_off item = Except.ok
        { last := decide (b.get_move_lines_to_drop_off.length =
            (b.get_move_lines_to_drop_off.filter
              (fun ml => ml.picking_id.origin = item)).length),
          move_line_ids := (b.get_move_lines_to_drop_off.filter
            (fun ml => ml.picking_id.origin = item)).map (fun ml => ml.id) } := by
      simp only [Batch.get_next_drop_off, if_neg hs, if_neg hlen, hpt, hcrit]
    refine ⟨_, heq, rfl, ?_⟩
    simp only [decide_eq_true_eq]
    rw [filter_eq_self_iff_length]
    exact eq_comm

/-- witness for C3: a concrete in-progress batch with one picking of a
by_products picking type and no completed move lines yields
last = true with an empty selection. -/
theorem get_next_drop_off_spec_witness :
    ({ id := 3, state := BatchState.in_progress, picking_ids := [{ id := 4, state := PickState.assigned, picking_type_id := { id := 9, u_drop_criterion := DropCriterion.by_products } }] } : Batch).get_next_drop_off "X"
      = Except.ok { last := true, move_line_ids := [] } :=
  (get_next_drop_off_spec
    { id := 3, state := BatchState.in_progress, picking_ids := [{ id := 4, state := PickState.assigned, picking_type_id := { id := 9, u_drop_criterion := DropCriterion.by_products } }] }
    { id := 9, u_drop_criterion := DropCriterion.by_products } "X"
    (by decide) (by decide)).1 (by decide)


/-- claim C9: `confirm_picking` is atomic with respect to batch state on
error.  Called on batches that are not all draft it raises a
ValidationError leaving every batch unchanged; called on all-draft
batches it writes waiting and attempts the assignment, and if the
assignment raises, every batch state is written back to draft (so the
batches are exactly as before) and the exception is re-raised; on
success the batches are the waiting batches with reassigned pickings and
a recomputed state. -/
theorem confirm_picking_atomic (batches : List Batch)
    (assign : Except String (Batch → List Picking)) :
    ((∃ b ∈ batches, b.state ≠ BatchState.draft) →
      ∃ e, confirm_picking batches assign = (batches, some e)) ∧
    ((∀ b ∈ batches, b.state = BatchState.draft) →
      ∀ e, assign = Except.error e →
        confirm_picking batches assign = (batches, some e)) ∧
    ((∀ b ∈ batches, b.state = BatchState.draft) →
      ∀ f, assign = Except.ok f →
        confirm_picking batches assign =
          (batches.map (fun b =>
            { b with picking_ids := f { b with state := BatchState.waiting },
                     state := Batch.compute_state
                       { b with state := BatchState.waiting,
                                picking_ids := f { b with state := BatchState.waiting } } }),
           none)) := by
  refine ⟨?_, ?_, ?_⟩
  · rintro ⟨b, hb, hbs⟩
    have hany : batches.any (fun b => decide (b.state ≠ BatchState.draft)) = true := by
      rw [List.any_eq_true]
      exact ⟨b, hb, by simpa using hbs⟩
    exact ⟨"Batch is not in state draft can not perform confirm_picking",
      by simp only [confirm_picking, hany, if_true]⟩
  · intro hall e he
    have hany : batches.any (fun b => decide (b.state ≠ BatchState.draft)) = false := by
      rw [List.any_eq_false]
      intro b hb
      simp [hall b hb]
    have hlist : (batches.map (fun b => ({ b with state := BatchState.waiting } : Batch))).map
        (fun b => ({ b with state := BatchState.draft } : Batch)) = batches := by
      rw [List.map_map]
      have h2 : ∀ b ∈ batches,
          (((fun b => ({ b with state := BatchState.draft } : Batch)) ∘
            (fun b => ({ b with state := BatchState.waiting } : Batch))) b) = id b := by
        intro b hb
        have := hall b hb
        cases b
        simp_all
      rw [List.map_congr_left h2, List.map_id]
    simp only [confirm_picking, hany, Bool.false_eq_true, if_false, he, hlist]
  · intro hall f hf
    have hany : batches.any (fun b => decide (b.state ≠ BatchState.draft)) = false := by
      rw [List.any_eq_false]
      intro b hb
      simp [hall b hb]
    have hlist : (batches.map (fun b => ({ b with state := BatchState.waiting } : Batch))).map
        (fun b =>
          let b2 : Batch := { b with picking_ids := f b }
          ({ b2 with state := b2.compute_state } : Batch)) =
        batches.map (fun b =>
          { b with picking_ids := f { b with state := BatchState.waiting },
                   state := Batch.compute_state
                     { b with state := BatchState.waiting,
                              picking_ids := f { b with state := BatchState.waiting } } }) := by
      rw [List.map_map]
      apply List.map_congr_left
      intro b hb
      cases b
      rfl
    simp only [confirm_picking, hany, Bool.false_eq_true, if_false, hf, hlist]

/-- witness for C9: on a concrete single draft batch with a failing
assignment, the batch is left in draft and the exception is re-raised. -/
theorem confirm_picking_atomic_witness :
    confirm_picking [{ id := 5, state := BatchState.draft, picking_ids := [] }]
        (Except.error "assignment failed")
      = ([{ id := 5, state := BatchState.draft, picking_ids := [] }],
         some "assignment failed") :=
  (confirm_picking_atomic [{ id := 5, state := BatchState.draft, picking_ids := [] }]
    (Except.error "assignment failed")).2.1
    (by intro b hb; simp at hb; simp [hb]) "assignment failed" rfl


/-- The run holding the start element begins with the start element. -/
theorem chunkRunsCore_fst_cons {α : Type} (p : α → α → Bool) (x : α) (xs : List α) :
    ∃ t, (chunkRunsCore p x xs).1 = x :: t := by
  cases xs with
  | nil => exact ⟨[], rfl⟩
  | cons y ys =>
      simp only [chunkRunsCore]
      by_cases h : p x y
      · simp only [h, if_pos]
        exact ⟨_, rfl⟩
      · simp only [h]
        exact ⟨[], by simp [h]⟩

/-- Totality of the key-component order. -/
theorem optNatLe_total (a b : Option Nat) : optNatLe a b = true ∨ optNatLe b a = true := by
  cases a <;> cases b <;> simp [optNatLe] <;> omega

/-- Antisymmetry of the key-component order. -/
theorem optNatLe_antisymm (a b : Option Nat) (hab : optNatLe a b = true)
    (hba : optNatLe b a = true) : a = b := by
  cases a <;> cases b <;> simp_all [optNatLe] <;> omega

/-- Transitivity of the key-component order. -/
theorem optNatLe_trans (a b c : Option Nat) (hab : optNatLe a b = true)
    (hbc : optNatLe b c = true) : optNatLe a c = true := by
  cases a <;> cases b <;> cases c <;> simp_all [optNatLe] <;> omega

/-- Totality of the grouping-key order. -/
theorem keyLe_total (a b : GroupKey) : keyLe a b = true ∨ keyLe b a = true := by
  induction a generalizing b with
  | nil => left; rfl
  | cons x xs ih =>
      cases b with
      | nil => right; rfl
      | cons y ys =>
          by_cases hxy : x = y
          · subst hxy
            simpa [keyLe] using ih ys
          · have h2 : ¬ y = x := fun h => hxy h.symm
            simpa [keyLe, hxy, h2] using optNatLe_total x y

/-- Antisymmetry of the grouping-key order. -/
theorem keyLe_antisymm (a b : GroupKey) (hab : keyLe a b = true)
    (hba : keyLe b a = true) : a = b := by
  induction a generalizing b with
  | nil =>
      cases b with
      | nil => rfl
      | cons y ys => simp [keyLe] at hba
  | cons x xs ih =>
      cases b with
      | nil => simp [keyLe] at hab
      | cons y ys =>
          by_cases hxy : x = y
          · subst hxy
            simp only [keyLe, if_pos rfl] at hab hba
            rw [ih ys hab hba]
          · have h2 : ¬ y = x := fun h => hxy h.symm
            simp only [keyLe, if_neg hxy, if_neg h2] at hab hba
            exact absurd (optNatLe_antisymm x y hab hba) hxy

/-- Transitivity of the grouping-key order. -/
theorem keyLe_trans (a b c : GroupKey) (hab : keyLe a b = true)
    (hbc : keyLe b c = true) : keyLe a c = true := by
  induction a generalizing b c with
  | nil => rfl
  | cons x xs ih =>
      cases b with
      | nil => simp [keyLe] at hab
      | cons y ys =>
          cases c with
          | nil => simp [keyLe] at hbc
          | cons z zs =>
              by_cases hxy : x = y <;> by_cases hyz : y = z
              · subst hxy; subst hyz
                simp only [keyLe, if_pos rfl] at hab hbc ⊢
                exact ih ys zs hab hbc
              · subst hxy
                simp only [keyLe, if_pos rfl, if_neg hyz] at hab hbc ⊢
                exact hbc
              · subst hyz
                simp only [keyLe, if_neg hxy] at hab ⊢
                exact hab
              · have hxz : ¬ x = z := by
                  intro h
                  subst h
                  simp only [keyLe, if_neg hxy, if_neg hyz] at hab hbc
                  exact hyz (optNatLe_antisymm y x hbc hab)
                simp only [keyLe, if_neg hxy, if_neg hyz, if_neg hxz] at hab hbc ⊢
                exact optNatLe_trans x y z hab hbc

/-- The run holding the start element together with the later runs
reassemble the input list. -/
theorem chunkRunsCore_join {α : Type} (p : α → α → Bool) (x : α) (xs : List α) :
    (chunkRunsCore p x xs).1 ++ (chunkRunsCore p x xs).2.flatten = x :: xs := by
  induction xs generalizing x with
  | nil => rfl
  | cons y ys ih =>
      simp only [chunkRunsCore]
      by_cases h : p x y
      · simp only [h, if_pos]
        simpa using ih y
      · simp only [h]
        simpa [h] using ih y

/-- The later runs are never empty. -/
theorem chunkRunsCore_snd_ne_nil {α : Type} (p : α → α → Bool) (x : α) (xs : List α) :
    ∀ g ∈ (chunkRunsCore p x xs).2, g ≠ [] := by
  induction xs generalizing x with
  | nil => intro g hg; simp [chunkRunsCore] at hg
  | cons y ys ih =>
      intro g hg
      simp only [chunkRunsCore] at hg
      by_cases h : p x y
      · simp only [h, if_pos] at hg
        exact ih y g hg
      · simp only [h] at hg
        rcases List.mem_cons.mp (by simpa [h] using hg) with h1 | h1
        · subst h1
          rcases (chunkRunsCore_fst_cons p y ys) with ⟨t, ht⟩
          simp [ht]
        · exact ih y g h1

/-- Every element of every run is an element of the input list. -/
theorem chunkRuns_mem {α : Type} (p : α → α → Bool) (l : List α) :
    ∀ g ∈ chunkRuns p l, ∀ a ∈ g, a ∈ l := by
  cases l with
  | nil => intro g hg; simp [chunkRuns] at hg
  | cons x xs =>
      intro g hg a ha
      have hjoin := chunkRunsCore_join p x xs
      simp only [chunkRuns] at hg
      rcases List.mem_cons.mp hg with h1 | h1
      · subst h1
        rw [← hjoin]
        exact List.mem_append_left _ ha
      · rw [← hjoin]
        exact List.mem_append_right _ (List.mem_flatten.mpr ⟨g, h1, ha⟩)


/-- On a key-sorted list, the runs of equal key are exactly the key
classes: the run holding the start element is the filter at the start
element's key, and each later run is the filter at its own (different)
key. -/
theorem chunkRunsCore_classes {α κ : Type} [DecidableEq κ] (key : α → κ)
    (le : κ → κ → Bool)
    (hanti : ∀ a b, le a b = true → le b a = true → a = b)
    (x : α) (xs : List α)
    (hsort : (x :: xs).Pairwise (fun a b => le (key a) (key b) = true)) :
    (chunkRunsCore (fun a b => key a = key b) x xs).1
        = (x :: xs).filter (fun z => key z = key x) ∧
    ∀ g ∈ (chunkRunsCore (fun a b => key a = key b) x xs).2,
      ∃ k, k ≠ key x ∧ (∀ z ∈ g, key z = k) ∧
        g = (x :: xs).filter (fun z => key z = k) := by
  induction xs generalizing x with
  | nil =>
      constructor
      · simp [chunkRunsCore]
      · intro g hg
        simp [chunkRunsCore] at hg
  | cons y ys ih =>
      have htail : (y :: ys).Pairwise (fun a b => le (key a) (key b) = true) :=
        (List.pairwise_cons.mp hsort).2
      have hx : ∀ z ∈ y :: ys, le (key x) (key z) = true :=
        (List.pairwise_cons.mp hsort).1
      obtain ⟨ih1, ih2⟩ := ih y htail
      by_cases hxy : key x = key y
      · have hcond : (fun a b => decide (key a = key b)) x y = true := by simp [hxy]
        constructor
        · have e1 : (chunkRunsCore (fun a b => decide (key a = key b)) x (y :: ys)).1
              = x :: (chunkRunsCore (fun a b => decide (key a = key b)) y ys).1 := by
            simp [chunkRunsCore, hcond]
          rw [e1, ih1]
          conv_rhs => rw [List.filter_cons_of_pos (by simp)]
          congr 1
          apply List.filter_congr
          intro z _
          rw [hxy]
        · intro g hg
          have hg2 : g ∈ (chunkRunsCore (fun a b => decide (key a = key b)) y ys).2 := by
            simpa [chunkRunsCore, hcond] using hg
          obtain ⟨k, hk1, hk2, hk3⟩ := ih2 g hg2
          have hkx : k ≠ key x := by rw [hxy]; exact hk1
          refine ⟨k, hkx, hk2, ?_⟩
          rw [hk3]
          conv_rhs => rw [List.filter_cons_of_neg (by simpa using fun h => hkx h.symm)]
      · have hcond : (fun a b => decide (key a = key b)) x y = false := by simp [hxy]
        have hkeyfact : ∀ z ∈ y :: ys, ¬ key z = key x := by
          intro z hz hkz
          rcases List.mem_cons.mp hz with h1 | h1
          · subst h1
            exact hxy hkz.symm
          · have h2 : le (key y) (key z) = true :=
              (List.pairwise_cons.mp htail).1 z h1
            have h3 : le (key x) (key y) = true := hx y (List.mem_cons_self y ys)
            rw [hkz] at h2
            exact hxy (hanti (key x) (key y) h3 h2)
        constructor
        · have e1 : (chunkRunsCore (fun a b => decide (key a = key b)) x (y :: ys)).1
              = [x] := by
            simp [chunkRunsCore, hcond]
          rw [e1, List.filter_cons_of_pos (by simp),
            List.filter_eq_nil_iff.mpr (fun z hz => by simpa using hkeyfact z hz)]
        · intro g hg
          have hg2 : g ∈ (chunkRunsCore (fun a b => decide (key a = key b)) y ys).1 ::
              (chunkRunsCore (fun a b => decide (key a = key b)) y ys).2 := by
            simpa [chunkRunsCore, hcond] using hg
          rcases List.mem_cons.mp hg2 with h1 | h1
          · refine ⟨key y, fun h => hxy h.symm, ?_, ?_⟩
            · intro z hz
              rw [h1, ih1] at hz
              exact of_decide_eq_true (List.mem_filter.mp hz).2
            · rw [h1, ih1]
              conv_rhs => rw [List.filter_cons_of_neg (by simpa using hxy)]
          · obtain ⟨k, hk1, hk2, hk3⟩ := ih2 g h1
            have hkx : k ≠ key x := by
              intro h
              subst h
              have hgne := chunkRunsCore_snd_ne_nil
                (fun a b => decide (key a = key b)) y ys g h1
              rw [hk3, List.filter_eq_nil_iff.mpr
                (fun z hz => by simpa using hkeyfact z hz)] at hgne
              exact hgne rfl
            refine ⟨k, hkx, hk2, ?_⟩
            rw [hk3]
            conv_rhs => rw [List.filter_cons_of_neg (by simpa using fun h => hkx h.symm)]


/-- Each group produced by the modelled record-set `groupby` is the full
key class of its key, taken over the key-sorted list. -/
theorem groupbyKey_classes (key : MoveLine → GroupKey) (mls : List MoveLine) :
    ∀ g ∈ groupbyKey key mls, ∃ k, (∀ x ∈ g, key x = k) ∧
      g = (mls.insertionSort (fun a b => keyLe (key a) (key b) = true)).filter
        (fun z => key z = k) := by
  intro g hg
  have hsorted : (mls.insertionSort (fun a b => keyLe (key a) (key b) = true)).Pairwise
      (fun a b => keyLe (key a) (key b) = true) := by
    haveI : IsTotal MoveLine (fun a b => keyLe (key a) (key b) = true) :=
      ⟨fun a b => keyLe_total _ _⟩
    haveI : IsTrans MoveLine (fun a b => keyLe (key a) (key b) = true) :=
      ⟨fun a b c => keyLe_trans _ _ _⟩
    exact List.sorted_insertionSort _ _
  simp only [groupbyKey] at hg
  cases hseq : mls.insertionSort (fun a b => keyLe (key a) (key b) = true) with
  | nil =>
      rw [hseq] at hg
      simp [chunkRuns] at hg
  | cons x xs =>
      rw [hseq] at hg hsorted
      obtain ⟨c1, c2⟩ := chunkRunsCore_classes key keyLe keyLe_antisymm x xs hsorted
      simp only [chunkRuns] at hg
      rcases List.mem_cons.mp hg with h1 | h1
      · refine ⟨key x, ?_, ?_⟩
        · intro z hz
          rw [h1, c1] at hz
          exact of_decide_eq_true (List.mem_filter.mp hz).2
        · rw [h1, c1]
      · obtain ⟨k, _, hk2, hk3⟩ := c2 g h1
        exact ⟨k, hk2, hk3⟩

/-- Every member of every group is a member of the grouped move lines. -/
theorem groupbyKey_mem (key : MoveLine → GroupKey) (mls : List MoveLine) :
    ∀ g ∈ groupbyKey key mls, ∀ x ∈ g, x ∈ mls := by
  intro g hg x hx
  have h := chunkRuns_mem (fun a b => key a = key b)
    (mls.insertionSort (fun a b => keyLe (key a) (key b) = true)) g hg x hx
  exact (List.perm_insertionSort _ mls).mem_iff.mp h

/-- Groups considered by `_populate_next_task` are groups of the
grouping. -/
theorem next_task_groups_subset (crit : MoveLine → GroupKey)
    (move_lines : List MoveLine) (priority_ml : Option MoveLine) :
    ∀ g ∈ next_task_groups crit move_lines priority_ml,
      g ∈ groupbyKey crit move_lines := by
  intro g hg
  cases priority_ml with
  | none => exact hg
  | some p => exact (List.dropWhile_sublist _).mem hg

/-- Every move line id of a task built by `task_from_group` comes from
the work list or from the picked group. -/
theorem task_from_group_ids (task_mls : List MoveLine) (remaining : Nat)
    (move_lines : List MoveLine) :
    ∀ i ∈ (task_from_group task_mls remaining move_lines).move_line_ids,
      (∃ ml ∈ move_lines, ml.id = i) ∨ (∃ ml ∈ task_mls, ml.id = i) := by
  intro i hi
  cases task_mls with
  | nil => simp [task_from_group] at hi
  | cons first rest_mls =>
      simp only [task_from_group] at hi
      by_cases hscan : first.picking_id.picking_type_id.u_user_scans = UserScans.package ∨
          first.picking_id.picking_type_id.u_user_scans = UserScans.pallet
      · rw [if_pos hscan] at hi
        simp only [List.mem_map] at hi
        obtain ⟨ml, hml2, hmlid⟩ := hi
        exact Or.inl ⟨ml, List.mem_of_mem_filter hml2, hmlid⟩
      · rw [if_neg hscan] at hi
        simp only [List.mem_map] at hi
        obtain ⟨ml, hml2, hmlid⟩ := hi
        exact Or.inr ⟨ml, hml2, hmlid⟩

/-- Every move line id of a task produced by `_populate_next_task` comes
from a move line of the work list. -/
theorem populate_next_task_ids (crit : MoveLine → GroupKey)
    (move_lines : List MoveLine) (priority_ml : Option MoveLine) :
    ∀ i ∈ (populate_next_task crit move_lines priority_ml).move_line_ids,
      ∃ ml ∈ move_lines, ml.id = i := by
  intro i hi
  simp only [populate_next_task] at hi
  by_cases hml : move_lines = []
  · rw [if_pos hml] at hi
    simp [Task.move_line_ids] at hi
  · rw [if_neg hml] at hi
    cases hgr : next_task_groups crit move_lines priority_ml with
    | nil =>
        rw [hgr] at hi
        simp at hi
    | cons task_mls later =>
        rw [hgr] at hi
        have htm : task_mls ∈ groupbyKey crit move_lines :=
          next_task_groups_subset crit move_lines priority_ml task_mls
            (by rw [hgr]; exact List.mem_cons_self _ _)
        rcases task_from_group_ids task_mls later.length move_lines i hi with h | ⟨ml, hml2, hid⟩
        · exact h
        · exact ⟨ml, groupbyKey_mem crit move_lines _ htm ml hml2, hid⟩

/-- Every move line id of every task produced by the
`_populate_next_tasks` loop comes from a move line of the work list. -/
theorem populate_next_tasks_aux_ids (crit : MoveLine → GroupKey)
    (sp sml : List Nat) (hp : Bool) (limit : Option Int) :
    ∀ fuel count move_lines t,
      t ∈ populate_next_tasks_aux crit sp sml hp limit fuel count move_lines →
      ∀ i ∈ t.move_line_ids, ∃ ml ∈ move_lines, ml.id = i := by
  intro fuel
  induction fuel with
  | zero => intro count move_lines t ht; simp [populate_next_tasks_aux] at ht
  | succ fuel ih =>
      intro count move_lines t ht
      cases move_lines with
      | nil => simp [populate_next_tasks_aux] at ht
      | cons ml0 mls =>
          simp only [populate_next_tasks_aux] at ht
          by_cases hlim : limitReached limit (count + 1) = true
          · rw [if_pos hlim] at ht
            rcases List.mem_singleton.mp ht with rfl
            intro i hi
            exact populate_next_task_ids crit (ml0 :: mls) _ i hi
          · rw [if_neg hlim] at ht
            rcases List.mem_cons.mp ht with h1 | h1
            · subst h1
              intro i hi
              exact populate_next_task_ids crit (ml0 :: mls) _ i hi
            · intro i hi
              obtain ⟨ml, hml, hmlid⟩ := ih (count + 1) _ t h1 i hi
              exact ⟨ml, List.mem_of_mem_filter hml, hmlid⟩

/-- The `_populate_next_tasks` loop yields at least one task whenever
the work list is non-empty. -/
theorem populate_next_tasks_ne_nil (crit : MoveLine → GroupKey)
    (sp sml : List Nat) (hp : Bool) (limit : Option Int)
    (move_lines : List MoveLine) (hne : move_lines ≠ []) :
    populate_next_tasks crit sp sml hp limit move_lines ≠ [] := by
  cases move_lines with
  | nil => exact absurd rfl hne
  | cons ml0 mls =>
      simp only [populate_next_tasks, populate_next_tasks_aux, List.length_cons]
      by_cases hlim : limitReached limit 1 = true
      · simp [hlim]
      · simp [hlim]


/-- Sorting by location and product does not change membership. -/
theorem mem_sort_by_location_product (ml : MoveLine) (mls : List MoveLine) :
    ml ∈ sort_by_location_product mls ↔ ml ∈ mls :=
  (List.perm_insertionSort _ mls).mem_iff

/-- An ok result of the checked task population comes from an empty
work list or from resolved grouping criteria. -/
theorem populate_next_tasks_checked_ok (crit : Option (MoveLine → GroupKey))
    (sp sml : List Nat) (hp : Bool) (limit : Option Int)
    (mls : List MoveLine) (ts : List Task)
    (h : populate_next_tasks_checked crit sp sml hp limit mls = Except.ok ts) :
    (mls = [] ∧ ts = []) ∨
      ∃ c, crit = some c ∧ ts = populate_next_tasks c sp sml hp limit mls := by
  by_cases hm : mls = []
  · rw [populate_next_tasks_checked.eq_def, if_pos hm] at h
    rw [Except.ok.injEq] at h
    exact Or.inl ⟨hm, h.symm⟩
  · rw [populate_next_tasks_checked.eq_def, if_neg hm] at h
    cases hc : crit with
    | none =>
        rw [hc] at h
        exact Except.noConfusion h
    | some c =>
        rw [hc] at h
        have h2 : Except.ok (populate_next_tasks c sp sml hp limit mls) =
            (Except.ok ts : Except String (List Task)) := h
        rw [Except.ok.injEq] at h2
        exact Or.inr ⟨c, rfl, h2.symm⟩

/-- Resolved grouping criteria make the checked task population total. -/
theorem populate_next_tasks_checked_some (c : MoveLine → GroupKey)
    (sp sml : List Nat) (hp : Bool) (limit : Option Int)
    (mls : List MoveLine) :
    ∃ ts, populate_next_tasks_checked (some c) sp sml hp limit mls =
      Except.ok ts := by
  by_cases hm : mls = []
  · refine ⟨[], ?_⟩
    rw [populate_next_tasks_checked.eq_def, if_pos hm]
  · refine ⟨populate_next_tasks c sp sml hp limit mls, ?_⟩
    rw [populate_next_tasks_checked.eq_def, if_neg hm]

/-- Resolved grouping criteria make the checked task build total. -/
theorem populate_next_task_checked_some (c : MoveLine → GroupKey)
    (mls : List MoveLine) (pr : Option MoveLine) :
    ∃ t, populate_next_task_checked (some c) mls pr = Except.ok t := by
  by_cases hm : mls = []
  · refine ⟨{}, ?_⟩
    rw [populate_next_task_checked.eq_def, if_pos hm]
  · refine ⟨populate_next_task c mls pr, ?_⟩
    rw [populate_next_task_checked.eq_def, if_neg hm]

/-- claim C6: in `get_next_tasks`, available move lines of a skipped
product (or, when no products are skipped, of a skipped move-line id)
are excluded from the primary tasks; tasks are appended for skipped
lines only when their picking's picking type has `u_return_to_skipped`,
after the unskipped tasks; skipped lines whose picking type does not
return to skipped tasks produce no tasks. -/
theorem get_next_tasks_skipping (b : Batch) (sp sml : List Nat)
    (limit : Option Int) :
    (∀ ts, b.primary_tasks sp sml limit = Except.ok ts →
      ∀ t ∈ ts, ∀ ml ∈ b.skipped_mls sp sml, ¬ ml.id ∈ t.move_line_ids) ∧
    (∀ ts, b.skipped_tasks sp sml limit = Except.ok ts →
      ∀ t ∈ ts, ∀ i ∈ t.move_line_ids,
        ∃ ml ∈ b.skipped_mls sp sml, ml.id = i ∧
          ml.picking_id.picking_type_id.u_return_to_skipped = true) ∧
    ((∀ ml ∈ b.skipped_mls sp sml,
        ml.picking_id.picking_type_id.u_return_to_skipped = false) →
      ∀ ps, b.primary_tasks sp sml limit = Except.ok ps →
        b.skipped_tasks sp sml limit = Except.ok []) ∧
    (∀ ps ss, b.primary_tasks sp sml limit = Except.ok ps →
      b.skipped_tasks sp sml limit = Except.ok ss → ps ++ ss ≠ [] →
      b.get_next_tasks sp sml limit = Except.ok (ps ++ ss)) := by
  refine ⟨?_, ?_, ?_, ?_⟩
  · intro ts hts t ht ml hml hid
    rcases populate_next_tasks_checked_ok _ _ _ _ _ _ _ hts with ⟨_, rfl⟩ | ⟨c, _, rfl⟩
    · exact absurd ht (List.not_mem_nil t)
    · obtain ⟨ml', hml', hmlid⟩ := populate_next_tasks_aux_ids c [] []
        (b.have_tasks_been_picked sp sml) limit _ 0 _ t ht ml.id hid
      have h2 : ml' ∈ get_lines_todo (b.available_mls sp sml) :=
        (mem_sort_by_location_product ml' _).mp hml'
      have h3 : ml' ∈ b.available_mls sp sml := List.mem_of_mem_filter h2
      have h4 : ¬ ml'.id ∈ (b.skipped_mls sp sml).map (fun m => m.id) := by
        have := (List.mem_filter.mp h3).2
        simpa using this
      exact h4 (hmlid ▸ List.mem_map.mpr ⟨ml, hml, rfl⟩)
  · intro ts hts t ht i hi
    have hts2 : ∃ rl, populate_next_tasks_checked b.task_grouping_criteria sp sml
        (b.have_tasks_been_picked sp sml) rl (b.skipped_todo_mls sp sml) =
          Except.ok ts := by
      cases hp : b.primary_tasks sp sml limit with
      | error e =>
          rw [Batch.skipped_tasks, hp] at hts
          simp only [Except.bind] at hts
          exact Except.noConfusion hts
      | ok p =>
          rw [Batch.skipped_tasks, hp] at hts
          simp only [Except.bind] at hts
          exact ⟨_, hts⟩
    obtain ⟨rl, hts3⟩ := hts2
    rcases populate_next_tasks_checked_ok _ _ _ _ _ _ _ hts3 with ⟨_, rfl⟩ | ⟨c, _, rfl⟩
    · exact absurd ht (List.not_mem_nil t)
    · obtain ⟨ml', hml', hmlid⟩ := populate_next_tasks_aux_ids c sp sml
        (b.have_tasks_been_picked sp sml) rl _ 0 _ t ht i hi
      have h2 : ml' ∈ get_lines_todo ((b.skipped_mls sp sml).filter
          (fun ml => ml.picking_id.picking_type_id.u_return_to_skipped)) :=
        (mem_sort_by_location_product ml' _).mp hml'
      have h3 := List.mem_of_mem_filter h2
      exact ⟨ml', List.mem_of_mem_filter h3, hmlid,
        (List.mem_filter.mp h3).2⟩
  · intro hall ps hps
    have hfe : (b.skipped_mls sp sml).filter
        (fun ml => ml.picking_id.picking_type_id.u_return_to_skipped) = [] := by
      rw [List.filter_eq_nil_iff]
      intro ml hml
      simp [hall ml hml]
    rw [Batch.skipped_tasks, hps]
    simp only [Except.bind, Batch.skipped_todo_mls, hfe]
    rfl
  · intro ps ss hps hss hne
    rw [Batch.get_next_tasks, hps, hss]
    simp only [Except.bind]
    rw [if_neg hne]

/-- witness for C6: a concrete batch with one skipped-product line whose
picking type does not return to skipped tasks produces no skipped
tasks. -/
theorem get_next_tasks_skipping_witness :
    ({ id := 6, state := BatchState.in_progress, picking_ids := [{ id := 61, state := PickState.assigned, picking_type_id := { id := 62 } }], move_lines := [{ id := 63, picking_id := { id := 61, state := PickState.assigned, picking_type_id := { id := 62 } }, product_id := { id := 64 }, location_id := { id := 65 }, product_uom_qty := 2 }] } : Batch).skipped_tasks [64] [] (some 1) = Except.ok [] :=
  (get_next_tasks_skipping
    { id := 6, state := BatchState.in_progress, picking_ids := [{ id := 61, state := PickState.assigned, picking_type_id := { id := 62 } }], move_lines := [{ id := 63, picking_id := { id := 61, state := PickState.assigned, picking_type_id := { id := 62 } }, product_id := { id := 64 }, location_id := { id := 65 }, product_uom_qty := 2 }] }
    [64] [] (some 1)).2.2.1 (by decide) [] (by rfl)

/-- claim C10: whenever `get_next_tasks` returns (its only failure is
the grouping criteria's `ensure_one` raise, which a batch with a single
picking type never hits) the returned list is non-empty; when no viable
move lines exist — no available line still to do, or every such line
skipped and not eligible for return — it returns a single empty task
with `num_tasks_to_pick` zero, no move lines and no confirmations; so
`get_next_task`'s access to the first element never fails. -/
theorem get_next_tasks_never_empty (b : Batch) (sp sml : List Nat)
    (limit : Option Int) :
    (∀ ts, b.get_next_tasks sp sml limit = Except.ok ts → ts ≠ []) ∧
    (∀ pt, b.picking_type_ids = [pt] →
      ∃ ts, b.get_next_tasks sp sml limit = Except.ok ts ∧ ts ≠ []) ∧
    (get_lines_todo (b.available_mls sp sml) = [] →
      get_lines_todo ((b.skipped_mls sp sml).filter
        (fun ml => ml.picking_id.picking_type_id.u_return_to_skipped)) = [] →
      b.get_next_tasks sp sml limit = Except.ok
        [{ num_tasks_to_pick := 0, move_line_ids := [], confirmations := [],
           picking_id := none, tasks_picked := b.have_tasks_been_picked sp sml }]) ∧
    (∀ ts, b.get_next_tasks sp sml (some 1) = Except.ok ts →
      ∃ t, b.get_next_task sp sml = Except.ok t) := by
  have hmain : ∀ (limit' : Option Int) (ts : List Task),
      b.get_next_tasks sp sml limit' = Except.ok ts → ts ≠ [] := by
    intro limit' ts h
    cases hp : b.primary_tasks sp sml limit' with
    | error e =>
        rw [Batch.get_next_tasks, hp] at h
        simp only [Except.bind] at h
        exact Except.noConfusion h
    | ok p =>
        cases hs : b.skipped_tasks sp sml limit' with
        | error e =>
            rw [Batch.get_next_tasks, hp, hs] at h
            simp only [Except.bind] at h
            exact Except.noConfusion h
        | ok s =>
            rw [Batch.get_next_tasks, hp, hs] at h
            simp only [Except.bind] at h
            by_cases hrem : p ++ s = []
            · rw [if_pos hrem] at h
              cases hpt : populate_next_task_checked b.task_grouping_criteria
                  (b.skipped_todo_mls sp sml) none with
              | error e =>
                  rw [hpt] at h
                  simp only [Except.bind] at h
                  exact Except.noConfusion h
              | ok t0 =>
                  rw [hpt] at h
                  simp only [Except.bind] at h
                  rw [Except.ok.injEq] at h
                  rw [← h]
                  simp
            · rw [if_neg hrem] at h
              rw [Except.ok.injEq] at h
              rw [← h]
              exact hrem
  refine ⟨hmain limit, ?_, ?_, ?_⟩
  · intro pt hb
    have hcrit : b.task_grouping_criteria = some (get_task_grouping_criteria pt) := by
      simp [Batch.task_grouping_criteria, hb]
    obtain ⟨p, hp⟩ : ∃ p, b.primary_tasks sp sml limit = Except.ok p := by
      rw [Batch.primary_tasks, hcrit]
      exact populate_next_tasks_checked_some _ _ _ _ _ _
    obtain ⟨s, hs⟩ : ∃ s, b.skipped_tasks sp sml limit = Except.ok s := by
      rw [Batch.skipped_tasks, hp, hcrit]
      simp only [Except.bind]
      exact populate_next_tasks_checked_some _ _ _ _ _ _
    obtain ⟨t0, ht0⟩ : ∃ t0, populate_next_task_checked b.task_grouping_criteria
        (b.skipped_todo_mls sp sml) none = Except.ok t0 := by
      rw [hcrit]
      exact populate_next_task_checked_some _ _ _
    by_cases hrem : p ++ s = []
    · refine ⟨[{ t0 with tasks_picked := b.have_tasks_been_picked sp sml }], ?_, by simp⟩
      rw [Batch.get_next_tasks, hp, hs]
      simp only [Except.bind]
      rw [if_pos hrem, ht0]
    · refine ⟨p ++ s, ?_, hrem⟩
      rw [Batch.get_next_tasks, hp, hs]
      simp only [Except.bind]
      rw [if_neg hrem]
  · intro h1 h2
    have hsorted1 : sort_by_location_product
        (get_lines_todo (b.available_mls sp sml)) = [] := by
      rw [h1]
      rfl
    have hsk : b.skipped_todo_mls sp sml = [] := by
      rw [Batch.skipped_todo_mls, h2]
      rfl
    have hp : b.primary_tasks sp sml limit = Except.ok [] := by
      rw [Batch.primary_tasks, hsorted1]
      rfl
    have hs : b.skipped_tasks sp sml limit = Except.ok [] := by
      rw [Batch.skipped_tasks, hp, hsk]
      rfl
    rw [Batch.get_next_tasks, hp, hs, hsk]
    rfl
  · intro ts h
    have hne := hmain (some 1) ts h
    cases hts : ts with
    | nil => exact absurd hts hne
    | cons t rest =>
        refine ⟨t, ?_⟩
        rw [Batch.get_next_task, h, hts]
        rfl

/-- witness for C10: a concrete batch with no pickings yields the single
empty task. -/
theorem get_next_tasks_never_empty_witness :
    ({ id := 7, state := BatchState.draft, picking_ids := [] } : Batch).get_next_tasks [] [] (some 1) =
      Except.ok [{ num_tasks_to_pick := 0, move_line_ids := [], confirmations := [], picking_id := none, tasks_picked := ({ id := 7, state := BatchState.draft, picking_ids := [] } : Batch).have_tasks_been_picked [] [] }] :=
  (get_next_tasks_never_empty { id := 7, state := BatchState.draft, picking_ids := [] }
    [] [] (some 1)).2.2.1 (by decide) (by decide)


/-- No group of the grouping is empty. -/
theorem groupbyKey_ne_nil (key : MoveLine → GroupKey) (mls : List MoveLine) :
    ∀ g ∈ groupbyKey key mls, g ≠ [] := by
  intro g hg
  simp only [groupbyKey] at hg
  cases hseq : mls.insertionSort (fun a b => keyLe (key a) (key b) = true) with
  | nil =>
      rw [hseq] at hg
      simp [chunkRuns] at hg
  | cons x xs =>
      rw [hseq] at hg
      simp only [chunkRuns] at hg
      rcases List.mem_cons.mp hg with h1 | h1
      · obtain ⟨t, ht⟩ := chunkRunsCore_fst_cons (fun a b => decide (key a = key b)) x xs
        rw [h1, ht]
        simp
      · exact chunkRunsCore_snd_ne_nil _ x xs g h1

/-- The grouping of a non-empty list is non-empty. -/
theorem groupbyKey_nonempty (key : MoveLine → GroupKey) (mls : List MoveLine)
    (hne : mls ≠ []) : groupbyKey key mls ≠ [] := by
  simp only [groupbyKey]
  cases hseq : mls.insertionSort (fun a b => keyLe (key a) (key b) = true) with
  | nil =>
      have := (List.perm_insertionSort (fun a b => keyLe (key a) (key b) = true) mls)
      rw [hseq] at this
      exact absurd this.symm.eq_nil hne
  | cons x xs => simp [chunkRuns]

/-- With no skipped ids there is no priority move line. -/
theorem determine_priority_none (mls : List MoveLine) :
    determine_priority_skipped_moveline mls [] [] = none := by
  by_cases h : mls = [] <;> simp [determine_priority_skipped_moveline, h]

/-- With no skips and no limit, the `_populate_next_tasks` loop
partitions the work list into the key classes of the grouping criteria:
every produced task carries exactly the (non-empty) class of one key,
and together the tasks cover the work list. -/
theorem populate_tasks_classes (crit : MoveLine → GroupKey) (hp : Bool) :
    ∀ fuel count (mls : List MoveLine), mls.length ≤ fuel →
    (∀ ml ∈ mls, ml.picking_id.picking_type_id.u_user_scans = UserScans.product) →
    (mls.map (fun ml => ml.id)).Nodup →
    (∀ t ∈ populate_next_tasks_aux crit [] [] hp none fuel count mls,
      t.move_line_ids ≠ [] ∧
      ∃ k, t.move_line_ids.Perm
        ((mls.filter (fun ml => crit ml = k)).map (fun ml => ml.id))) ∧
    ((populate_next_tasks_aux crit [] [] hp none fuel count mls).map
      Task.move_line_ids).flatten.Perm (mls.map (fun ml => ml.id)) := by
  intro fuel
  induction fuel with
  | zero =>
      intro count mls hlen _ _
      have : mls = [] := List.length_eq_zero.mp (Nat.le_zero.mp hlen)
      subst this
      exact ⟨fun t ht => by simp [populate_next_tasks_aux] at ht, by simp [populate_next_tasks_aux]⟩
  | succ fuel ih =>
      intro count mls hlen hscans hnodup
      cases hmlseq : mls with
      | nil =>
          exact ⟨fun t ht => by simp [populate_next_tasks_aux] at ht,
            by simp [populate_next_tasks_aux]⟩
      | cons ml0 rest =>
          subst hmlseq
          have hne : (ml0 :: rest) ≠ [] := List.cons_ne_nil _ _
          cases hgr : groupbyKey crit (ml0 :: rest) with
          | nil => exact absurd hgr (groupbyKey_nonempty crit _ hne)
          | cons g1 later =>
              have hg1mem : g1 ∈ groupbyKey crit (ml0 :: rest) := by
                rw [hgr]; exact List.mem_cons_self _ _
              obtain ⟨k1, hk1all, hk1eq⟩ := groupbyKey_classes crit _ g1 hg1mem
              have hg1sub : ∀ x ∈ g1, x ∈ ml0 :: rest := groupbyKey_mem crit _ g1 hg1mem
              have hg1ne : g1 ≠ [] := groupbyKey_ne_nil crit _ g1 hg1mem
              have htask : populate_next_task crit (ml0 :: rest) none =
                  task_from_group g1 later.length (ml0 :: rest) := by
                simp only [populate_next_task, if_neg hne, next_task_groups, hgr]
              have hids : (task_from_group g1 later.length (ml0 :: rest)).move_line_ids
                  = g1.map (fun ml => ml.id) := by
                cases hg1c : g1 with
                | nil => exact absurd hg1c hg1ne
                | cons first g1rest =>
                    have hfirst : first ∈ ml0 :: rest := hg1sub first (by rw [hg1c]; exact List.mem_cons_self _ _)
                    have hfsc := hscans first hfirst
                    simp only [task_from_group]
                    rw [if_neg]
                    rw [hfsc]
                    simp
              have hg1perm : (g1.map (fun ml => ml.id)).Perm
                  (((ml0 :: rest).filter (fun ml => crit ml = k1)).map (fun ml => ml.id)) := by
                apply List.Perm.map
                rw [hk1eq]
                exact (List.perm_insertionSort _ _).filter _
              have hinj := List.inj_on_of_nodup_map hnodup
              have hmemiff : ∀ ml ∈ ml0 :: rest,
                  (ml.id ∈ g1.map (fun m => m.id) ↔ crit ml = k1) := by
                intro ml hml
                constructor
                · intro hmem
                  obtain ⟨z, hz, hzid⟩ := List.mem_map.mp hmem
                  have hzmem : z ∈ ml0 :: rest := hg1sub z hz
                  have : z = ml := hinj hzmem hml hzid
                  rw [← this]
                  exact hk1all z hz
                · intro hcrit
                  apply List.mem_map.mpr
                  refine ⟨ml, ?_, rfl⟩
                  rw [hk1eq]
                  apply List.mem_filter.mpr
                  exact ⟨(List.perm_insertionSort _ _).mem_iff.mpr hml, by simpa using hcrit⟩
              have hmls' : (ml0 :: rest).filter
                    (fun ml => ¬ ml.id ∈ (task_from_group g1 later.length (ml0 :: rest)).move_line_ids)
                  = (ml0 :: rest).filter (fun ml => ¬ crit ml = k1) := by
                apply List.filter_congr
                intro ml hml
                rw [hids]
                simp only [decide_eq_true_eq, decide_eq_decide]
                exact not_congr (hmemiff ml hml)
              have hlt : ((ml0 :: rest).filter (fun ml => ¬ crit ml = k1)).length
                  < (ml0 :: rest).length := by
                apply List.length_filter_lt_length_iff_exists.mpr
                cases hg1c : g1 with
                | nil => exact absurd hg1c hg1ne
                | cons a l =>
                    refine ⟨a, hg1sub a (by rw [hg1c]; exact List.mem_cons_self _ _), ?_⟩
                    have ha := hk1all a (by rw [hg1c]; exact List.mem_cons_self _ _)
                    simp [ha]
              have hlen' : ((ml0 :: rest).filter (fun ml => ¬ crit ml = k1)).length ≤ fuel := by
                have := hlen
                simp only [List.length_cons] at this
                omega
              have hscans' : ∀ ml ∈ (ml0 :: rest).filter (fun ml => ¬ crit ml = k1),
                  ml.picking_id.picking_type_id.u_user_scans = UserScans.product :=
                fun ml hml => hscans ml (List.mem_of_mem_filter hml)
              have hnodup' : (((ml0 :: rest).filter (fun ml => ¬ crit ml = k1)).map
                  (fun ml => ml.id)).Nodup :=
                ((List.filter_sublist _).map _).nodup hnodup
              obtain ⟨ih1, ih2⟩ := ih (count + 1) _ hlen' hscans' hnodup'
              have haux : populate_next_tasks_aux crit [] [] hp none (fuel + 1) count (ml0 :: rest)
                  = { task_from_group g1 later.length (ml0 :: rest) with tasks_picked := hp } ::
                    populate_next_tasks_aux crit [] [] hp none fuel (count + 1)
                      ((ml0 :: rest).filter (fun ml => ¬ crit ml = k1)) := by
                rw [← hmls']
                simp only [populate_next_tasks_aux, determine_priority_none, htask]
                rfl
              constructor
              · intro t ht
                rw [haux] at ht
                rcases List.mem_cons.mp ht with h1 | h1
                · subst h1
                  constructor
                  · show (task_from_group g1 later.length (ml0 :: rest)).move_line_ids ≠ []
                    rw [hids]
                    simpa using hg1ne
                  · refine ⟨k1, ?_⟩
                    show ((task_from_group g1 later.length (ml0 :: rest)).move_line_ids).Perm _
                    rw [hids]
                    exact hg1perm
                · obtain ⟨hne2, k, hkperm⟩ := ih1 t h1
                  refine ⟨hne2, ?_⟩
                  by_cases hkk : k = k1
                  · exfalso
                    subst hkk
                    rw [List.filter_filter] at hkperm
                    have hnil : ((ml0 :: rest).filter
                        (fun a => decide (crit a = k) && decide (¬ crit a = k))) = [] := by
                      rw [List.filter_eq_nil_iff]
                      intro a _
                      simp only [Bool.and_eq_true, decide_eq_true_eq]
                      rintro ⟨h1', h2'⟩
                      exact h2' h1'
                    rw [hnil] at hkperm
                    simp only [List.map_nil] at hkperm
                    exact hne2 hkperm.eq_nil
                  · refine ⟨k, ?_⟩
                    rw [List.filter_filter] at hkperm
                    have : ((ml0 :: rest).filter
                          (fun a => decide (crit a = k) && decide (¬ crit a = k1)))
                        = ((ml0 :: rest).filter (fun ml => crit ml = k)) := by
                      apply List.filter_congr
                      intro a _
                      by_cases hc : crit a = k
                      · simp [hc, hkk]
                      · simp [hc]
                    rw [this] at hkperm
                    exact hkperm
              · rw [haux]
                simp only [List.map_cons, List.flatten_cons]
                have hstep1 : (((task_from_group g1 later.length (ml0 :: rest)).move_line_ids) ++
                    (List.map Task.move_line_ids (populate_next_tasks_aux crit [] [] hp none fuel
                      (count + 1) ((ml0 :: rest).filter
                        (fun ml => ¬ crit ml = k1)))).flatten).Perm
                    ((ml0 :: rest).map (fun ml => ml.id)) := by
                  have happ : ((task_from_group g1 later.length (ml0 :: rest)).move_line_ids).Perm
                      (((ml0 :: rest).filter (fun ml => crit ml = k1)).map (fun ml => ml.id)) := by
                    rw [hids]
                    exact hg1perm
                  refine List.Perm.trans (List.Perm.append happ ih2) ?_
                  · rw [← List.map_append]
                    apply List.Perm.map
                    have hcong : (ml0 :: rest).filter (fun ml => ¬ crit ml = k1)
                        = (ml0 :: rest).filter (fun ml => !(decide (crit ml = k1))) := by
                      apply List.filter_congr
                      intro a _
                      simp [decide_not]
                    rw [hcong]
                    exact List.filter_append_perm _ _
                simpa using hstep1


/-- Move lines of available pickings are move lines of the batch. -/
theorem mem_available_mem_move_lines (b : Batch) (ml : MoveLine) :
    ml ∈ b.get_available_move_lines → ml ∈ b.move_lines := by
  simp only [Batch.get_available_move_lines]
  intro h
  obtain ⟨l, hl, hml⟩ := List.mem_flatten.mp h
  obtain ⟨p, _, hpl⟩ := List.mem_map.mp hl
  rw [← hpl] at hml
  exact List.mem_of_mem_filter hml

/-- With no skipped ids, every task of a `_populate_next_tasks` round is
built by `_populate_next_task` (with no priority line) on the round's
remaining work list, a non-empty sublist of the original work list. -/
theorem populate_next_tasks_aux_rounds (crit : MoveLine → GroupKey) (hp : Bool)
    (limit : Option Int) :
    ∀ fuel count work t,
      t ∈ populate_next_tasks_aux crit [] [] hp limit fuel count work →
      ∃ work2, work2.Sublist work ∧ work2 ≠ [] ∧
        t = { populate_next_task crit work2 none with tasks_picked := hp } := by
  intro fuel
  induction fuel with
  | zero => intro count work t ht; simp [populate_next_tasks_aux] at ht
  | succ fuel ih =>
      intro count work t ht
      cases work with
      | nil => simp [populate_next_tasks_aux] at ht
      | cons ml0 mls =>
          simp only [populate_next_tasks_aux, determine_priority_none] at ht
          by_cases hlim : limitReached limit (count + 1) = true
          · rw [if_pos hlim] at ht
            rcases List.mem_singleton.mp ht with rfl
            exact ⟨ml0 :: mls, List.Sublist.refl _, List.cons_ne_nil _ _, rfl⟩
          · rw [if_neg hlim] at ht
            rcases List.mem_cons.mp ht with h1 | h1
            · subst h1
              exact ⟨ml0 :: mls, List.Sublist.refl _, List.cons_ne_nil _ _, rfl⟩
            · obtain ⟨work2, hsub, hne2, heq⟩ := ih (count + 1) _ t h1
              exact ⟨work2, hsub.trans (List.filter_sublist _), hne2, heq⟩

/-- On a work list whose lines all scan by package or pallet,
`_populate_next_task` builds the task from the lines sharing the picked
group's first line's package. -/
theorem populate_next_task_package (crit : MoveLine → GroupKey)
    (work : List MoveLine) (hne : work ≠ [])
    (hscans : ∀ ml ∈ work,
      ml.picking_id.picking_type_id.u_user_scans = UserScans.package ∨
      ml.picking_id.picking_type_id.u_user_scans = UserScans.pallet) :
    ∃ first ∈ work, (populate_next_task crit work none).move_line_ids =
      (work.filter (fun ml => ml.package_id = first.package_id)).map
        (fun ml => ml.id) := by
  cases hgr : next_task_groups crit work none with
  | nil => exact absurd hgr (groupbyKey_nonempty crit work hne)
  | cons g later =>
      have hgmem : g ∈ groupbyKey crit work :=
        next_task_groups_subset crit work none g
          (by rw [hgr]; exact List.mem_cons_self _ _)
      have hgne : g ≠ [] := groupbyKey_ne_nil crit work g hgmem
      cases g with
      | nil => exact absurd rfl hgne
      | cons first grest =>
          have hfirst : first ∈ work :=
            groupbyKey_mem crit work _ hgmem first (List.mem_cons_self _ _)
          refine ⟨first, hfirst, ?_⟩
          have hstep : (populate_next_task crit work none).move_line_ids =
              (task_from_group (first :: grest) later.length work).move_line_ids := by
            simp only [populate_next_task]
            rw [if_neg hne, hgr]
          rw [hstep]
          simp only [task_from_group]
          rw [if_pos (hscans first hfirst)]

/-- counterexample for C2: on a package-scanning picking type, one
returned task carries two outstanding move lines with different
grouping keys, so the key groups do not each become one task (the two
groups here yield a single task). -/
theorem task_grouping_package_scan_counterexample :
    let pt : PickingType := { id := 1, u_user_scans := UserScans.package }
    let pik : Picking := { id := 21, state := PickState.assigned, picking_type_id := pt }
    let ml1 : MoveLine := { id := 1, picking_id := pik, product_id := { id := 101 }, package_id := some { id := 11, name := "PK" }, location_id := { id := 31, name := "A" }, product_uom_qty := 5 }
    let ml2 : MoveLine := { id := 2, picking_id := pik, product_id := { id := 102 }, package_id := some { id := 11, name := "PK" }, location_id := { id := 31, name := "A" }, product_uom_qty := 3 }
    let b : Batch := { id := 1, state := BatchState.in_progress, picking_ids := [pik], move_lines := [ml1, ml2] }
    (b.get_next_tasks [] [] none).map (fun ts => ts.map Task.move_line_ids) =
        Except.ok [[1, 2]] ∧
      get_task_grouping_criteria pt ml1 ≠ get_task_grouping_criteria pt ml2 := by
  exact ⟨rfl, by decide⟩

/-- claim C2 (amended): the grouping key of `_get_task_grouping_criteria`
is (picking, package, location, product), with the package component
omitted exactly when the picking type allows swapping packages and scans
by product; when the picking type scans by product, each group of
outstanding move lines under this key becomes one task returned to the
operator (each task carries exactly one key class of the outstanding
lines, and together the tasks cover them); and when the picking type
scans by package or pallet, each returned task instead carries the
then-outstanding lines sharing the picked group's first line's
package. -/
theorem task_grouping_amended :
    (∀ (pt : PickingType) (ml : MoveLine), get_task_grouping_criteria pt ml =
      (if pt.u_allow_swapping_packages ∧ pt.u_user_scans = UserScans.product then
        [some ml.picking_id.id, some ml.location_id.id, some ml.product_id.id]
      else
        [some ml.picking_id.id, ml.package_id.map Package.id,
          some ml.location_id.id, some ml.product_id.id])) ∧
    (∀ (b : Batch) (pt : PickingType), b.picking_type_ids = [pt] →
      pt.u_user_scans = UserScans.product →
      (∀ ml ∈ b.move_lines, ml.picking_id ∈ b.picking_ids) →
      (b.get_available_move_lines.map (fun ml => ml.id)).Nodup →
      ∀ ts, b.get_next_tasks [] [] none = Except.ok ts →
      (∀ t ∈ ts, ∃ k, t.move_line_ids.Perm
        (((get_lines_todo (b.available_mls [] [])).filter
          (fun ml => get_task_grouping_criteria pt ml = k)).map (fun ml => ml.id))) ∧
      (ts.map Task.move_line_ids).flatten.Perm
        ((get_lines_todo (b.available_mls [] [])).map (fun ml => ml.id))) ∧
    (∀ (b : Batch) (pt : PickingType), b.picking_type_ids = [pt] →
      (pt.u_user_scans = UserScans.package ∨ pt.u_user_scans = UserScans.pallet) →
      (∀ ml ∈ b.move_lines, ml.picking_id ∈ b.picking_ids) →
      ∀ ts, b.get_next_tasks [] [] none = Except.ok ts →
      ∀ t ∈ ts, t.move_line_ids = [] ∨
        ∃ (work2 : List MoveLine) (first : MoveLine), work2.Sublist
            (sort_by_location_product (get_lines_todo (b.available_mls [] []))) ∧
          first ∈ work2 ∧
          t.move_line_ids = (work2.filter
            (fun ml => ml.package_id = first.package_id)).map (fun ml => ml.id)) := by
  refine ⟨?_, ?_, ?_⟩
  · intro pt ml
    by_cases h : pt.u_allow_swapping_packages ∧ pt.u_user_scans = UserScans.product
    · simp [get_task_grouping_criteria, h]
    · simp [get_task_grouping_criteria, h]
  · intro b pt hb hscanspt hcons hnodup ts hts
    have hptall : ∀ p ∈ b.picking_ids, p.picking_type_id = pt := by
      intro p hp
      have h1 : p.picking_type_id ∈ b.picking_type_ids := by
        simp only [Batch.picking_type_ids]
        exact List.mem_dedup.mpr (List.mem_map.mpr ⟨p, hp, rfl⟩)
      rw [hb] at h1
      simpa using h1
    have hcrit : b.task_grouping_criteria = some (get_task_grouping_criteria pt) := by
      simp [Batch.task_grouping_criteria, hb]
    have hsk : b.skipped_mls [] [] = [] := by
      simp [Batch.skipped_mls]
    have hskt : b.skipped_todo_mls [] [] = [] := by
      simp only [Batch.skipped_todo_mls, hsk]
      rfl
    by_cases hwe : sort_by_location_product (get_lines_todo (b.available_mls [] [])) = []
    · have htodo_nil : get_lines_todo (b.available_mls [] []) = [] := by
        have hperm := List.perm_insertionSort (fun a b => locProdLe a b = true)
          (get_lines_todo (b.available_mls [] []))
        rw [show List.insertionSort (fun a b => locProdLe a b = true)
            (get_lines_todo (b.available_mls [] []))
            = sort_by_location_product (get_lines_todo (b.available_mls [] [])) from rfl,
          hwe] at hperm
        exact hperm.symm.eq_nil
      have hp : b.primary_tasks [] [] none = Except.ok [] := by
        rw [Batch.primary_tasks, hwe]
        rfl
      have hst : b.skipped_tasks [] [] none = Except.ok [] := by
        rw [Batch.skipped_tasks, hp]
        simp only [Except.bind]
        rw [hskt]
        rfl
      rw [Batch.get_next_tasks, hp, hst, hskt] at hts
      have h2 : (Except.ok [{ num_tasks_to_pick := 0, move_line_ids := [], confirmations := [], picking_id := none, tasks_picked := b.have_tasks_been_picked [] [] }] : Except String (List Task)) = Except.ok ts := hts
      rw [Except.ok.injEq] at h2
      rw [← h2]
      constructor
      · intro t ht
        rcases List.mem_singleton.mp ht with rfl
        exact ⟨[], by simp [htodo_nil]⟩
      · simp [htodo_nil]
    · have hp : b.primary_tasks [] [] none = Except.ok
          (populate_next_tasks (get_task_grouping_criteria pt) [] []
            (b.have_tasks_been_picked [] []) none
            (sort_by_location_product (get_lines_todo (b.available_mls [] [])))) := by
        rw [Batch.primary_tasks, hcrit, populate_next_tasks_checked.eq_def, if_neg hwe]
      have hst : b.skipped_tasks [] [] none = Except.ok [] := by
        rw [Batch.skipped_tasks, hp]
        simp only [Except.bind]
        rw [hskt]
        rfl
      have hpe : populate_next_tasks (get_task_grouping_criteria pt) [] []
          (b.have_tasks_been_picked [] []) none
          (sort_by_location_product (get_lines_todo (b.available_mls [] []))) ≠ [] :=
        populate_next_tasks_ne_nil _ [] [] _ none _ hwe
      rw [Batch.get_next_tasks, hp, hst] at hts
      simp only [Except.bind] at hts
      rw [List.append_nil, if_neg hpe] at hts
      rw [Except.ok.injEq] at hts
      rw [← hts]
      have hscans' : ∀ ml ∈ sort_by_location_product (get_lines_todo (b.available_mls [] [])),
          ml.picking_id.picking_type_id.u_user_scans = UserScans.product := by
        intro ml hml
        have h1 := (mem_sort_by_location_product ml _).mp hml
        have h2 := List.mem_of_mem_filter h1
        have h3 := List.mem_of_mem_filter h2
        have h4 := mem_available_mem_move_lines b ml h3
        rw [hptall ml.picking_id (hcons ml h4)]
        exact hscanspt
      have hnodup' : ((sort_by_location_product
          (get_lines_todo (b.available_mls [] []))).map (fun ml => ml.id)).Nodup := by
        have h1 : ((get_lines_todo (b.available_mls [] [])).map (fun ml => ml.id)).Nodup :=
          (((List.filter_sublist _).trans (List.filter_sublist _)).map _).nodup hnodup
        exact ((List.perm_insertionSort (fun a b => locProdLe a b = true)
          (get_lines_todo (b.available_mls [] []))).map (fun ml => ml.id)).symm.nodup h1
      obtain ⟨hcl1, hcl2⟩ := populate_tasks_classes (get_task_grouping_criteria pt)
        (b.have_tasks_been_picked [] [])
        (sort_by_location_product (get_lines_todo (b.available_mls [] []))).length 0
        (sort_by_location_product (get_lines_todo (b.available_mls [] [])))
        (le_refl _) hscans' hnodup'
      constructor
      · intro t ht
        simp only [populate_next_tasks] at ht
        obtain ⟨_, k, hkperm⟩ := hcl1 t ht
        refine ⟨k, hkperm.trans ?_⟩
        apply List.Perm.map
        exact (List.perm_insertionSort _ _).filter _
      · refine List.Perm.trans ?_ ((List.perm_insertionSort (fun a b => locProdLe a b = true)
          (get_lines_todo (b.available_mls [] []))).map (fun ml => ml.id))
        exact hcl2
  · intro b pt hb hscanspt hcons ts hts t ht
    have hptall : ∀ p ∈ b.picking_ids, p.picking_type_id = pt := by
      intro p hp
      have h1 : p.picking_type_id ∈ b.picking_type_ids := by
        simp only [Batch.picking_type_ids]
        exact List.mem_dedup.mpr (List.mem_map.mpr ⟨p, hp, rfl⟩)
      rw [hb] at h1
      simpa using h1
    have hcrit : b.task_grouping_criteria = some (get_task_grouping_criteria pt) := by
      simp [Batch.task_grouping_criteria, hb]
    have hsk : b.skipped_mls [] [] = [] := by
      simp [Batch.skipped_mls]
    have hskt : b.skipped_todo_mls [] [] = [] := by
      simp only [Batch.skipped_todo_mls, hsk]
      rfl
    by_cases hwe : sort_by_location_product (get_lines_todo (b.available_mls [] [])) = []
    · have hp : b.primary_tasks [] [] none = Except.ok [] := by
        rw [Batch.primary_tasks, hwe]
        rfl
      have hst : b.skipped_tasks [] [] none = Except.ok [] := by
        rw [Batch.skipped_tasks, hp]
        simp only [Except.bind]
        rw [hskt]
        rfl
      rw [Batch.get_next_tasks, hp, hst, hskt] at hts
      have h2 : (Except.ok [{ num_tasks_to_pick := 0, move_line_ids := [], confirmations := [], picking_id := none, tasks_picked := b.have_tasks_been_picked [] [] }] : Except String (List Task)) = Except.ok ts := hts
      rw [Except.ok.injEq] at h2
      rw [← h2] at ht
      rcases List.mem_singleton.mp ht with rfl
      exact Or.inl rfl
    · have hp : b.primary_tasks [] [] none = Except.ok
          (populate_next_tasks (get_task_grouping_criteria pt) [] []
            (b.have_tasks_been_picked [] []) none
            (sort_by_location_product (get_lines_todo (b.available_mls [] [])))) := by
        rw [Batch.primary_tasks, hcrit, populate_next_tasks_checked.eq_def, if_neg hwe]
      have hst : b.skipped_tasks [] [] none = Except.ok [] := by
        rw [Batch.skipped_tasks, hp]
        simp only [Except.bind]
        rw [hskt]
        rfl
      have hpe : populate_next_tasks (get_task_grouping_criteria pt) [] []
          (b.have_tasks_been_picked [] []) none
          (sort_by_location_product (get_lines_todo (b.available_mls [] []))) ≠ [] :=
        populate_next_tasks_ne_nil _ [] [] _ none _ hwe
      rw [Batch.get_next_tasks, hp, hst] at hts
      simp only [Except.bind] at hts
      rw [List.append_nil, if_neg hpe] at hts
      rw [Except.ok.injEq] at hts
      rw [← hts] at ht
      simp only [populate_next_tasks] at ht
      obtain ⟨work2, hsub, hne2, heq⟩ := populate_next_tasks_aux_rounds
        (get_task_grouping_criteria pt) (b.have_tasks_been_picked [] []) none _ 0 _ t ht
      have hscans2 : ∀ ml ∈ work2,
          ml.picking_id.picking_type_id.u_user_scans = UserScans.package ∨
          ml.picking_id.picking_type_id.u_user_scans = UserScans.pallet := by
        intro ml hml
        have h1 := (mem_sort_by_location_product ml _).mp (hsub.mem hml)
        have h2 := List.mem_of_mem_filter h1
        have h3 := List.mem_of_mem_filter h2
        have h4 := mem_available_mem_move_lines b ml h3
        rw [hptall ml.picking_id (hcons ml h4)]
        exact hscanspt
      obtain ⟨first, hfirst, heq2⟩ := populate_next_task_package
        (get_task_grouping_criteria pt) work2 hne2 hscans2
      refine Or.inr ⟨work2, first, hsub, hfirst, ?_⟩
      rw [heq]
      exact heq2

/-- witness for the amended C2: on a concrete product-scanning batch with
two outstanding lines of different products, each returned task carries
one key class and together they cover the outstanding lines. -/
theorem task_grouping_amended_witness :
    (([{ num_tasks_to_pick := 2, move_line_ids := [83], confirmations := [], picking_id := some 81, tasks_picked := false }, { num_tasks_to_pick := 1, move_line_ids := [84], confirmations := [], picking_id := some 81, tasks_picked := false }].map Task.move_line_ids).flatten.Perm
      ((get_lines_todo (({ id := 8, state := BatchState.in_progress, picking_ids := [{ id := 81, state := PickState.assigned, picking_type_id := { id := 82 } }], move_lines := [{ id := 83, picking_id := { id := 81, state := PickState.assigned, picking_type_id := { id := 82 } }, product_id := { id := 85 }, location_id := { id := 87, name := "A" }, product_uom_qty := 2 }, { id := 84, picking_id := { id := 81, state := PickState.assigned, picking_type_id := { id := 82 } }, product_id := { id := 86 }, location_id := { id := 87, name := "A" }, product_uom_qty := 3 }] } : Batch).available_mls [] [])).map (fun ml => ml.id))) :=
  (task_grouping_amended.2.1
    { id := 8, state := BatchState.in_progress, picking_ids := [{ id := 81, state := PickState.assigned, picking_type_id := { id := 82 } }], move_lines := [{ id := 83, picking_id := { id := 81, state := PickState.assigned, picking_type_id := { id := 82 } }, product_id := { id := 85 }, location_id := { id := 87, name := "A" }, product_uom_qty := 2 }, { id := 84, picking_id := { id := 81, state := PickState.assigned, picking_type_id := { id := 82 } }, product_id := { id := 86 }, location_id := { id := 87, name := "A" }, product_uom_qty := 3 }] }
    { id := 82 } (by decide) rfl (by decide) (by decide)
    [{ num_tasks_to_pick := 2, move_line_ids := [83], confirmations := [], picking_id := some 81, tasks_picked := false }, { num_tasks_to_pick := 1, move_line_ids := [84], confirmations := [], picking_id := some 81, tasks_picked := false }] rfl).2


/-- claim C5: for a picking whose picking type scans by package,
`maybe_swap(scanned, [expected])` raises a ValidationError when the
picking type does not allow swapping packages, when the expected package
has no outstanding move lines in the picking, when the packages are in
different locations, or when the scanned package does not have the same
content as the expected one; and every successful outcome (in
particular an entire-package swap) implies the contents match. -/
theorem maybe_swap_validation (env : SwapEnv) (picking : Picking)
    (scanned ep : Package)
    (hscans : picking.picking_type_id.u_user_scans = UserScans.package) :
    (¬ picking.picking_type_id.u_allow_swapping_packages →
      ∃ e, maybe_swap env picking scanned [ep] = Except.error e) ∧
    ((get_lines_todo (env.move_lines.filter
        (fun ml => ml.picking_id.id = picking.id))).filter
        (fun ml => match ml.package_id with
          | some p => p ∈ [ep]
          | none => False) = [] →
      ∃ e, maybe_swap env picking scanned [ep] = Except.error e) ∧
    (scanned.location_id ≠ ep.location_id →
      ∃ e, maybe_swap env picking scanned [ep] = Except.error e) ∧
    (has_same_content env scanned ep = false →
      ∃ e, maybe_swap env picking scanned [ep] = Except.error e) ∧
    (∀ o, maybe_swap env picking scanned [ep] = Except.ok o →
      has_same_content env scanned ep = true) := by
  by_cases hallow : picking.picking_type_id.u_allow_swapping_packages
  case neg =>
    have herr : maybe_swap env picking scanned [ep] =
        Except.error "Cannot swap packages of picking type" := by
      simp only [maybe_swap]
      rw [if_pos hallow]
    refine ⟨fun _ => ⟨_, herr⟩, fun _ => ⟨_, herr⟩, fun _ => ⟨_, herr⟩,
      fun _ => ⟨_, herr⟩, ?_⟩
    intro o ho
    rw [herr] at ho
    exact absurd ho (by simp)
  case pos =>
    have hg1 : ¬ ¬ picking.picking_type_id.u_allow_swapping_packages = true := by
      simpa using hallow
    by_cases hmls : (get_lines_todo (env.move_lines.filter
        (fun ml => ml.picking_id.id = picking.id))).filter
        (fun ml => match ml.package_id with
          | some p => p ∈ [ep]
          | none => False) = []
    case pos =>
      have herr : maybe_swap env picking scanned [ep] =
          Except.error "Expected package(s) cannot be found in picking" := by
        simp only [maybe_swap, if_neg hg1, if_pos hmls]
      refine ⟨fun _ => ⟨_, herr⟩, fun _ => ⟨_, herr⟩, fun _ => ⟨_, herr⟩,
        fun _ => ⟨_, herr⟩, ?_⟩
      intro o ho
      rw [herr] at ho
      exact absurd ho (by simp)
    case neg =>
      have hloc : ([ep].map (fun p => p.location_id)).dedup = [ep.location_id] := by
        simp
      by_cases hlocne : scanned.location_id = ep.location_id
      case neg =>
        have herr : maybe_swap env picking scanned [ep] =
            Except.error "Packages are in different locations and cannot be swapped" := by
          simp only [maybe_swap, if_neg hg1, if_neg hmls, hloc,
            if_pos (by simpa using hlocne)]
        refine ⟨fun _ => ⟨_, herr⟩, fun _ => ⟨_, herr⟩, fun _ => ⟨_, herr⟩,
          fun _ => ⟨_, herr⟩, ?_⟩
        intro o ho
        rw [herr] at ho
        exact absurd ho (by simp)
      case pos =>
        have hnl : ¬ scanned.location_id ≠ ep.location_id := by simpa using hlocne
        have hns : ¬ picking.picking_type_id.u_user_scans = UserScans.product := by
          rw [hscans]
          intro h
          exact absurd h (by simp)
        have hcase : ∀ hcf : has_same_content env scanned ep = false,
            maybe_swap env picking scanned [ep] =
              Except.error "The contents do not match what you have been asked to pick." := by
          intro hcf
          simp only [maybe_swap, if_neg hg1, if_neg hmls, hloc, if_neg hnl,
            if_neg hns, get_mls_for_entire_package_swap, hcf]
          simp
        refine ⟨fun h => absurd hallow h, fun h => absurd h hmls,
          fun h => absurd hlocne h, fun h => ⟨_, hcase h⟩, ?_⟩
        intro o ho
        by_cases hcontent : has_same_content env scanned ep = true
        · exact hcontent
        · have hcf : has_same_content env scanned ep = false := by
            simpa using hcontent
          rw [hcase hcf] at ho
          exact absurd ho (by simp)

/-- witness for C5: a concrete successful entire-package swap (matching
contents, unreserved scanned package) has matching contents. -/
theorem maybe_swap_validation_witness :
    has_same_content
      { quants := [{ id := 1, product_id := { id := 40 }, package_id := some 2, location_id := 5, quantity := 4, reserved_quantity := 4 }, { id := 2, product_id := { id := 40 }, package_id := some 3, location_id := 5, quantity := 4, reserved_quantity := 0 }],
        move_lines := [{ id := 9, picking_id := { id := 7, state := PickState.assigned, picking_type_id := { id := 8, u_allow_swapping_packages := true, u_user_scans := UserScans.package } }, product_id := { id := 40 }, package_id := some { id := 2, name := "EP", location_id := 5 }, location_id := { id := 5 }, product_uom_qty := 4 }] }
      { id := 3, name := "SP", location_id := 5 } { id := 2, name := "EP", location_id := 5 } = true :=
  (maybe_swap_validation
    { quants := [{ id := 1, product_id := { id := 40 }, package_id := some 2, location_id := 5, quantity := 4, reserved_quantity := 4 }, { id := 2, product_id := { id := 40 }, package_id := some 3, location_id := 5, quantity := 4, reserved_quantity := 0 }],
      move_lines := [{ id := 9, picking_id := { id := 7, state := PickState.assigned, picking_type_id := { id := 8, u_allow_swapping_packages := true, u_user_scans := UserScans.package } }, product_id := { id := 40 }, package_id := some { id := 2, name := "EP", location_id := 5 }, location_id := { id := 5 }, product_uom_qty := 4 }] }
    { id := 7, state := PickState.assigned, picking_type_id := { id := 8, u_allow_swapping_packages := true, u_user_scans := UserScans.package } }
    { id := 3, name := "SP", location_id := 5 } { id := 2, name := "EP", location_id := 5 }
    rfl).2.2.2.2 (SwapOutcome.entire_swap [9]) (by rfl)


/-- Refining the filter cannot increase the reserved total. -/
theorem res_sum_and_le (c d : Quant → Bool) (l : List Quant) :
    res_sum (fun q => c q && d q) l ≤ res_sum c l := by
  induction l with
  | nil => exact Nat.le_refl _
  | cons q qs ih =>
      simp only [res_sum, List.filter_cons] at *
      cases hc : c q <;> cases hd : d q <;>
        simp [hc, hd] <;> omega

/-- The reserved total splits along any second predicate. -/
theorem res_sum_split (c d : Quant → Bool) (l : List Quant) :
    res_sum c l = res_sum (fun q => c q && d q) l +
      res_sum (fun q => c q && !(d q)) l := by
  induction l with
  | nil => rfl
  | cons q qs ih =>
      simp only [res_sum, List.filter_cons] at *
      cases hc : c q <;> cases hd : d q <;>
        simp [hc, hd] <;> omega

/-- A reserved total over all-zero quants is zero. -/
theorem res_sum_zero (c : Quant → Bool) (l : List Quant)
    (h : ∀ q ∈ l, c q → q.reserved_quantity = 0) : res_sum c l = 0 := by
  induction l with
  | nil => rfl
  | cons q qs ih =>
      have ih2 := ih (fun a ha hc2 => h a (List.mem_cons_of_mem _ ha) hc2)
      simp only [res_sum, List.filter_cons] at *
      cases hc : c q
      · simpa [hc] using ih2
      · simp [hc, h q (List.mem_cons_self _ _) (by simp [hc]), ih2]

/-- Reserved never exceeds physical stock, so neither do the totals. -/
theorem res_sum_le_qty_sum (c : Quant → Bool) (l : List Quant)
    (h : ∀ q ∈ l, q.reserved_quantity ≤ q.quantity) :
    res_sum c l ≤ qty_sum c l := by
  induction l with
  | nil => exact Nat.le_refl _
  | cons q qs ih =>
      have ih2 := ih (fun a ha => h a (List.mem_cons_of_mem _ ha))
      have hq := h q (List.mem_cons_self _ _)
      simp only [res_sum, qty_sum, List.filter_cons] at *
      cases hc : c q
      · simpa [hc] using ih2
      · simp only [hc, if_pos, List.map_cons, List.sum_cons]
        omega

/-- Reserved total over a pre-filtered table. -/
theorem res_sum_filter (c d : Quant → Bool) (l : List Quant) :
    res_sum c (l.filter d) = res_sum (fun q => c q && d q) l := by
  simp only [res_sum, List.filter_filter]

/-- Congruence for reserved totals. -/
theorem res_sum_congr (c d : Quant → Bool) (l : List Quant)
    (h : ∀ q ∈ l, c q = d q) : res_sum c l = res_sum d l := by
  simp only [res_sum, List.filter_congr h]

/-- Congruence for quantity totals. -/
theorem qty_sum_congr (c d : Quant → Bool) (l : List Quant)
    (h : ∀ q ∈ l, c q = d q) : qty_sum c l = qty_sum d l := by
  simp only [qty_sum, List.filter_congr h]


/-- Full specification of one product round of
`_swap_adjust_reserved_quantity`: ids are unchanged; every result quant
is its input quant with at most the reserved quantity rewritten;
quantity totals are unchanged; reserved totals over quants outside the
written set are unchanged; the remainder is what the considered quants'
stock cannot absorb; the written quants absorb exactly the distributed
amount; untouched quants keep their reserved quantity. -/
theorem write_reserved_spec (pred : Quant → Bool) (hpred : ResIgnoring pred)
    (pid : Nat) : ∀ (amount : Nat) (l : List Quant),
    ((write_reserved_for_product pred pid amount l).1.map (fun q => q.id)
        = l.map (fun q => q.id)) ∧
    (∀ q' ∈ (write_reserved_for_product pred pid amount l).1, ∃ q ∈ l,
        q' = { q with reserved_quantity := q'.reserved_quantity }) ∧
    (∀ c : Quant → Bool, ResIgnoring c →
        qty_sum c (write_reserved_for_product pred pid amount l).1 = qty_sum c l) ∧
    (∀ c : Quant → Bool, ResIgnoring c →
        (∀ q ∈ l, c q → ¬(pred q = true ∧ q.product_id.id = pid)) →
        res_sum c (write_reserved_for_product pred pid amount l).1 = res_sum c l) ∧
    ((write_reserved_for_product pred pid amount l).2.1 =
        amount - qty_sum (fun q => pred q && decide (q.product_id.id = pid)) l) ∧
    (∀ i ∈ (write_reserved_for_product pred pid amount l).2.2,
        i ∈ (l.filter (fun q => pred q && decide (q.product_id.id = pid))).map
          (fun q => q.id)) ∧
    ((l.map (fun q => q.id)).Nodup →
        res_sum (fun q => (pred q && decide (q.product_id.id = pid)) &&
            decide (q.id ∈ (write_reserved_for_product pred pid amount l).2.2))
          (write_reserved_for_product pred pid amount l).1
          = amount - (write_reserved_for_product pred pid amount l).2.1) ∧
    ((l.map (fun q => q.id)).Nodup → ∀ c : Quant → Bool, ResIgnoring c →
        res_sum (fun q => c q &&
            !decide (q.id ∈ (write_reserved_for_product pred pid amount l).2.2))
          (write_reserved_for_product pred pid amount l).1
          = res_sum (fun q => c q &&
            !decide (q.id ∈ (write_reserved_for_product pred pid amount l).2.2)) l) := by
  intro amount l
  induction l generalizing amount with
  | nil =>
      refine ⟨rfl, by simp [write_reserved_for_product], fun c _ => rfl,
        fun c _ _ => rfl, by simp [write_reserved_for_product, qty_sum],
        by simp [write_reserved_for_product], fun _ => by simp [write_reserved_for_product, res_sum],
        fun _ c _ => rfl⟩
  | cons q qs ih =>
      by_cases hq : pred q = true ∧ q.product_id.id = pid
      · by_cases hamount : amount = 0
        · subst hamount
          have hr : write_reserved_for_product pred pid 0 (q :: qs) = (q :: qs, 0, []) := by
            simp [write_reserved_for_product, if_pos hq]
          refine ⟨by rw [hr], ?_, ?_, ?_, ?_, ?_, ?_, ?_⟩
          · rw [hr]
            intro q' hq'
            exact ⟨q', hq', by cases q'; rfl⟩
          · intro c _
            rw [hr]
          · intro c _ _
            rw [hr]
          · rw [hr]
            simp
          · rw [hr]
            simp
          · intro _
            rw [hr]
            refine Eq.trans (res_sum_zero _ _ ?_) (by simp)
            intro a _ hca
            simp at hca
          · intro _ c _
            rw [hr]
        · have hr : write_reserved_for_product pred pid amount (q :: qs) =
              ({ q with reserved_quantity := min amount q.quantity } ::
                (write_reserved_for_product pred pid (amount - min amount q.quantity) qs).1,
               (write_reserved_for_product pred pid (amount - min amount q.quantity) qs).2.1,
               q.id :: (write_reserved_for_product pred pid (amount - min amount q.quantity) qs).2.2) := by
            simp only [write_reserved_for_product, if_pos hq, if_neg hamount]
          obtain ⟨ih1, ih2, ih3, ih4, ih5, ih6, ih7, ih8⟩ := ih (amount - min amount q.quantity)
          have hPPq : (pred { q with reserved_quantity := min amount q.quantity } &&
              decide (({ q with reserved_quantity := min amount q.quantity } : Quant).product_id.id = pid)) = true := by
            rw [hpred]
            simp [hq.1, hq.2]
          refine ⟨?_, ?_, ?_, ?_, ?_, ?_, ?_, ?_⟩
          · rw [hr]
            simpa using ih1
          · rw [hr]
            intro q' hq'
            rcases List.mem_cons.mp hq' with h1 | h1
            · exact ⟨q, List.mem_cons_self _ _, by rw [h1]⟩
            · obtain ⟨q2, hq2, he⟩ := ih2 q' h1
              exact ⟨q2, List.mem_cons_of_mem _ hq2, he⟩
          · intro c hc
            rw [hr]
            simp only [qty_sum, List.filter_cons, hc q]
            cases hcq : c q
            · simpa [hcq, qty_sum] using ih3 c hc
            · simp only [hcq, if_pos, List.map_cons, List.sum_cons]
              have := ih3 c hc
              simp only [qty_sum] at this
              simp [this]
          · intro c hc hdisj
            rw [hr]
            cases hcq : c q
            · simp only [res_sum, List.filter_cons, hc q, hcq, Bool.false_eq_true, if_false]
              have := ih4 c hc (fun a ha hca => hdisj a (List.mem_cons_of_mem _ ha) hca)
              simpa [res_sum] using this
            · exact absurd hq (hdisj q (List.mem_cons_self _ _) hcq)
          · rw [hr]
            have hPP : (pred q && decide (q.product_id.id = pid)) = true := by
              simp [hq.1, hq.2]
            simp only [ih5, qty_sum, List.filter_cons]
            rw [if_pos hPP]
            simp only [List.map_cons, List.sum_cons]
            rcases Nat.le_total amount q.quantity with h | h
            · rw [Nat.min_eq_left h]
              omega
            · rw [Nat.min_eq_right h]
              omega
          · rw [hr]
            intro i hi
            rcases List.mem_cons.mp hi with h1 | h1
            · subst h1
              apply List.mem_map.mpr
              exact ⟨q, List.mem_filter.mpr ⟨List.mem_cons_self _ _, by simpa using hq⟩, rfl⟩
            · have := ih6 i h1
              simp only [List.mem_map] at this ⊢
              obtain ⟨a, ha, hai⟩ := this
              exact ⟨a, List.mem_filter.mpr ⟨List.mem_cons_of_mem _ (List.mem_of_mem_filter ha),
                (List.mem_filter.mp ha).2⟩, hai⟩
          · intro hnodup
            rw [hr]
            simp only [List.map_cons, List.nodup_cons] at hnodup
            have hnd := hnodup
            simp only [res_sum, List.filter_cons]
            rw [if_pos (by simp only [hPPq, Bool.true_and]; simp)]
            simp only [List.map_cons, List.sum_cons]
            have hcong : (write_reserved_for_product pred pid (amount - min amount q.quantity) qs).1.filter
                (fun q2 => (pred q2 && decide (q2.product_id.id = pid)) &&
                  decide (q2.id ∈ q.id ::
                    (write_reserved_for_product pred pid (amount - min amount q.quantity) qs).2.2)) =
                (write_reserved_for_product pred pid (amount - min amount q.quantity) qs).1.filter
                (fun q2 => (pred q2 && decide (q2.product_id.id = pid)) &&
                  decide (q2.id ∈
                    (write_reserved_for_product pred pid (amount - min amount q.quantity) qs).2.2)) := by
              apply List.filter_congr
              intro a ha
              have haid : a.id ∈ qs.map (fun q2 => q2.id) := by
                rw [← ih1]
                exact List.mem_map.mpr ⟨a, ha, rfl⟩
              have hne : a.id ≠ q.id := by
                intro h
                rw [h] at haid
                exact hnd.1 haid
              simp [List.mem_cons, hne]
            rw [hcong]
            have hmain := ih7 hnd.2
            simp only [res_sum] at hmain
            rw [hmain, ih5]
            have hle : (amount - min amount q.quantity) -
                qty_sum (fun q2 => pred q2 && decide (q2.product_id.id = pid)) qs ≤
                amount - min amount q.quantity := Nat.sub_le _ _
            rcases Nat.le_total amount q.quantity with h | h
            · rw [Nat.min_eq_left h]
              omega
            · rw [Nat.min_eq_right h]
              omega
          · intro hnodup c hc
            rw [hr]
            simp only [List.map_cons, List.nodup_cons] at hnodup
            have hnd := hnodup
            simp only [res_sum, List.filter_cons]
            have hqex : decide (q.id ∈ q.id ::
                (write_reserved_for_product pred pid (amount - min amount q.quantity) qs).2.2) = true := by
              simp
            rw [hc q]
            cases hcq : c q
            · simp only [Bool.false_and, Bool.false_eq_true, if_false]
              have h8 := ih8 hnd.2 c hc
              have hcong2 : ∀ (lx : List Quant), lx.map (fun q2 => q2.id) = qs.map (fun q2 => q2.id) →
                  lx.filter (fun q2 => c q2 && !decide (q2.id ∈ q.id ::
                    (write_reserved_for_product pred pid (amount - min amount q.quantity) qs).2.2)) =
                  lx.filter (fun q2 => c q2 && !decide (q2.id ∈
                    (write_reserved_for_product pred pid (amount - min amount q.quantity) qs).2.2)) := by
                intro lx hlx
                apply List.filter_congr
                intro a ha
                have haid : a.id ∈ qs.map (fun q2 => q2.id) := by
                  rw [← hlx]
                  exact List.mem_map.mpr ⟨a, ha, rfl⟩
                have hne : a.id ≠ q.id := by
                  intro h
                  rw [h] at haid
                  exact hnd.1 haid
                simp [List.mem_cons, hne]
              rw [hcong2 _ ih1, hcong2 qs rfl]
              simpa [res_sum] using h8
            · simp only [hqex, Bool.not_true, Bool.and_false, Bool.false_eq_true, if_false]
              have h8 := ih8 hnd.2 c hc
              have hcong2 : ∀ (lx : List Quant), lx.map (fun q2 => q2.id) = qs.map (fun q2 => q2.id) →
                  lx.filter (fun q2 => c q2 && !decide (q2.id ∈ q.id ::
                    (write_reserved_for_product pred pid (amount - min amount q.quantity) qs).2.2)) =
                  lx.filter (fun q2 => c q2 && !decide (q2.id ∈
                    (write_reserved_for_product pred pid (amount - min amount q.quantity) qs).2.2)) := by
                intro lx hlx
                apply List.filter_congr
                intro a ha
                have haid : a.id ∈ qs.map (fun q2 => q2.id) := by
                  rw [← hlx]
                  exact List.mem_map.mpr ⟨a, ha, rfl⟩
                have hne : a.id ≠ q.id := by
                  intro h
                  rw [h] at haid
                  exact hnd.1 haid
                simp [List.mem_cons, hne]
              rw [hcong2 _ ih1, hcong2 qs rfl]
              simpa [res_sum] using h8
      · have hr : write_reserved_for_product pred pid amount (q :: qs) =
            (q :: (write_reserved_for_product pred pid amount qs).1,
             (write_reserved_for_product pred pid amount qs).2.1,
             (write_reserved_for_product pred pid amount qs).2.2) := by
          simp only [write_reserved_for_product, if_neg hq]
        obtain ⟨ih1, ih2, ih3, ih4, ih5, ih6, ih7, ih8⟩ := ih amount
        have hPPq : (pred q && decide (q.product_id.id = pid)) = false := by
          cases hp : pred q
          · simp
          · simp only [Bool.true_and, decide_eq_false_iff_not]
            intro h2
            exact hq ⟨hp, h2⟩
        refine ⟨?_, ?_, ?_, ?_, ?_, ?_, ?_, ?_⟩
        · rw [hr]
          simpa using ih1
        · rw [hr]
          intro q' hq'
          rcases List.mem_cons.mp hq' with h1 | h1
          · exact ⟨q, List.mem_cons_self _ _, by rw [h1]⟩
          · obtain ⟨q2, hq2, he⟩ := ih2 q' h1
            exact ⟨q2, List.mem_cons_of_mem _ hq2, he⟩
        · intro c hc
          rw [hr]
          simp only [qty_sum, List.filter_cons]
          cases hcq : c q
          · simpa [hcq, qty_sum] using ih3 c hc
          · simp only [hcq, if_pos, List.map_cons, List.sum_cons]
            have := ih3 c hc
            simp only [qty_sum] at this
            simp [this]
        · intro c hc hdisj
          rw [hr]
          simp only [res_sum, List.filter_cons]
          cases hcq : c q
          · simpa [hcq, res_sum] using
              ih4 c hc (fun a ha hca => hdisj a (List.mem_cons_of_mem _ ha) hca)
          · simp only [hcq, if_pos, List.map_cons, List.sum_cons]
            have := ih4 c hc (fun a ha hca => hdisj a (List.mem_cons_of_mem _ ha) hca)
            simp only [res_sum] at this
            simp [this]
        · rw [hr]
          simp only [ih5, qty_sum, List.filter_cons, hPPq, Bool.false_eq_true, if_false]
        · rw [hr]
          intro i hi
          have := ih6 i hi
          simp only [List.mem_map] at this ⊢
          obtain ⟨a, ha, hai⟩ := this
          exact ⟨a, List.mem_filter.mpr ⟨List.mem_cons_of_mem _ (List.mem_of_mem_filter ha),
            (List.mem_filter.mp ha).2⟩, hai⟩
        · intro hnodup
          rw [hr]
          simp only [List.map_cons, List.nodup_cons] at hnodup
          have hnd := hnodup
          simp only [res_sum, List.filter_cons, hPPq, Bool.false_and, Bool.false_eq_true, if_false]
          have := ih7 hnd.2
          simpa [res_sum] using this
        · intro hnodup c hc
          rw [hr]
          simp only [List.map_cons, List.nodup_cons] at hnodup
          have hnd := hnodup
          simp only [res_sum, List.filter_cons]
          cases hcq : c q
          · simpa [hcq, res_sum] using ih8 hnd.2 c hc
          · simp only [hcq, Bool.true_and]
            cases hqin : decide (q.id ∈ (write_reserved_for_product pred pid amount qs).2.2)
            · simp only [Bool.not_false, if_pos, List.map_cons, List.sum_cons]
              have := ih8 hnd.2 c hc
              simp only [res_sum] at this
              simp [this]
            · simp only [Bool.not_true, Bool.false_eq_true, if_false]
              have := ih8 hnd.2 c hc
              simpa [res_sum] using this


/-- The `_swap_adjust_reserved_quantity` fold only appends touched ids
to its accumulator. -/
theorem swap_adjust_acc (pred : Quant → Bool) (pqs : List (Nat × Nat)) :
    ∀ (l : List Quant) (ids : List Nat),
    pqs.foldl (fun acc pq =>
        let r := write_reserved_for_product pred pq.1 pq.2 acc.1
        (r.1, acc.2 ++ r.2.2)) (l, ids) =
      ((swap_adjust_reserved_quantity pred l pqs).1,
       ids ++ (swap_adjust_reserved_quantity pred l pqs).2) := by
  induction pqs with
  | nil =>
      intro l ids
      simp [swap_adjust_reserved_quantity]
  | cons pq rest ih =>
      intro l ids
      simp only [swap_adjust_reserved_quantity, List.foldl_cons]
      rw [ih, ih]
      simp

/-- Unfolding equation of `_swap_adjust_reserved_quantity` on a
product-quantity cons. -/
theorem swap_adjust_cons (pred : Quant → Bool) (pq : Nat × Nat)
    (rest : List (Nat × Nat)) (l : List Quant) :
    swap_adjust_reserved_quantity pred l (pq :: rest) =
      ((swap_adjust_reserved_quantity pred
          (write_reserved_for_product pred pq.1 pq.2 l).1 rest).1,
        (write_reserved_for_product pred pq.1 pq.2 l).2.2 ++
          (swap_adjust_reserved_quantity pred
            (write_reserved_for_product pred pq.1 pq.2 l).1 rest).2) := by
  show (pq :: rest).foldl (fun acc pq =>
      let r := write_reserved_for_product pred pq.1 pq.2 acc.1
      (r.1, acc.2 ++ r.2.2)) (l, []) = _
  rw [List.foldl_cons, swap_adjust_acc]
  simp

/-- Zeroing untouched considered quants keeps every quant id. -/
theorem zero_map_ids (pred : Quant → Bool) (ids : List Nat) (l : List Quant) :
    (l.map (fun q => if pred q ∧ ¬ q.id ∈ ids then
        { q with reserved_quantity := 0 } else q)).map (fun q => q.id)
      = l.map (fun q => q.id) := by
  induction l with
  | nil => rfl
  | cons q qs ih =>
      simp only [List.map_cons, ih]
      by_cases h : pred q ∧ ¬ q.id ∈ ids
      · rw [if_pos h]
      · rw [if_neg h]

/-- Zeroing untouched considered quants alters at most the reserved
quantity of each quant. -/
theorem zero_map_corr (pred : Quant → Bool) (ids : List Nat) (l : List Quant) :
    ∀ q' ∈ l.map (fun q => if pred q ∧ ¬ q.id ∈ ids then
        { q with reserved_quantity := 0 } else q),
      ∃ q ∈ l, q' = { q with reserved_quantity := q'.reserved_quantity } := by
  intro q' hq'
  obtain ⟨q, hq, he⟩ := List.mem_map.mp hq'
  refine ⟨q, hq, ?_⟩
  by_cases h : pred q ∧ ¬ q.id ∈ ids
  · rw [if_pos h] at he
    rw [← he]
  · rw [if_neg h] at he
    rw [← he]

/-- Zeroing untouched considered quants keeps quantity totals. -/
theorem zero_map_qty (pred c : Quant → Bool) (hc : ResIgnoring c)
    (ids : List Nat) (l : List Quant) :
    qty_sum c (l.map (fun q => if pred q ∧ ¬ q.id ∈ ids then
        { q with reserved_quantity := 0 } else q)) = qty_sum c l := by
  induction l with
  | nil => rfl
  | cons q qs ih =>
      simp only [List.map_cons, qty_sum, List.filter_cons] at *
      by_cases h : pred q ∧ ¬ q.id ∈ ids
      · rw [if_pos h, hc q 0]
        cases hcq : c q
        · simpa using ih
        · simp only [if_pos, List.map_cons, List.sum_cons]
          simp [ih]
      · rw [if_neg h]
        cases hcq : c q
        · simpa using ih
        · simp only [if_pos, List.map_cons, List.sum_cons]
          simp [ih]

/-- Reserved totals across the zeroing of untouched considered quants:
only quants outside the considered set or among the touched ids
contribute afterwards. -/
theorem zero_map_res (pred c : Quant → Bool) (hc : ResIgnoring c)
    (ids : List Nat) (l : List Quant) :
    res_sum c (l.map (fun q => if pred q ∧ ¬ q.id ∈ ids then
        { q with reserved_quantity := 0 } else q)) =
      res_sum (fun q => c q && !(pred q && !decide (q.id ∈ ids))) l := by
  induction l with
  | nil => rfl
  | cons q qs ih =>
      simp only [List.map_cons, res_sum, List.filter_cons] at *
      by_cases h : pred q ∧ ¬ q.id ∈ ids
      · have h1 : (pred q && !decide (q.id ∈ ids)) = true := by
          simp [h.1, h.2]
        rw [if_pos h, hc q 0]
        cases hcq : c q
        · simp only [hcq, Bool.false_and, Bool.false_eq_true, if_false]
          exact ih
        · simp only [hcq, h1, Bool.not_true, Bool.and_false, Bool.false_eq_true,
            if_false, if_pos, List.map_cons, List.sum_cons]
          simp [ih]
      · have h1 : (pred q && !decide (q.id ∈ ids)) = false := by
          simp only [not_and, not_not] at h
          cases hp : pred q
          · simp
          · simp [h hp]
        rw [if_neg h]
        cases hcq : c q
        · simp only [hcq, Bool.false_and, Bool.false_eq_true, if_false]
          exact ih
        · simp only [hcq, h1, Bool.not_false, Bool.and_true, if_pos,
            List.map_cons, List.sum_cons]
          simp [ih]


/-- Conjunction of reserved-ignoring conditions is reserved-ignoring. -/
theorem resIgnoring_and (c d : Quant → Bool) (hc : ResIgnoring c)
    (hd : ResIgnoring d) : ResIgnoring (fun q => c q && d q) := by
  intro q w
  show (c { q with reserved_quantity := w } && d { q with reserved_quantity := w }) = _
  rw [hc q w, hd q w]

/-- Negation of a reserved-ignoring condition is reserved-ignoring. -/
theorem resIgnoring_not (c : Quant → Bool) (hc : ResIgnoring c) :
    ResIgnoring (fun q => !(c q)) := by
  intro q w
  show (!(c { q with reserved_quantity := w })) = _
  rw [hc q w]

/-- Product membership is reserved-ignoring. -/
theorem resIgnoring_pid (pid : Nat) :
    ResIgnoring (fun q => decide (q.product_id.id = pid)) :=
  fun _ _ => rfl

/-- Id membership is reserved-ignoring. -/
theorem resIgnoring_mem (ids : List Nat) :
    ResIgnoring (fun q => decide (q.id ∈ ids)) :=
  fun _ _ => rfl

/-- Package membership is reserved-ignoring. -/
theorem resIgnoring_package (v : Option Nat) :
    ResIgnoring (fun q => decide (q.package_id = v)) :=
  fun _ _ => rfl

/-- The `_gather` condition is reserved-ignoring. -/
theorem resIgnoring_gathers (mls : List MoveLine) :
    ResIgnoring (gathers mls) :=
  fun _ _ => rfl

/-- A reserved-ignoring condition evaluates equally on a quant and on
any reserved-quantity rewrite of it. -/
theorem corr_eval (c : Quant → Bool) (hc : ResIgnoring c) (q2 q : Quant)
    (he : q2 = { q with reserved_quantity := q2.reserved_quantity }) :
    c q2 = c q := by
  conv_lhs => rw [he]
  exact hc q q2.reserved_quantity

/-- A reserved-quantity rewrite keeps the quant id. -/
theorem corr_id (q2 q : Quant)
    (he : q2 = { q with reserved_quantity := q2.reserved_quantity }) :
    q2.id = q.id := by
  conv_lhs => rw [he]

/-- A reserved-quantity rewrite keeps the product. -/
theorem corr_product (q2 q : Quant)
    (he : q2 = { q with reserved_quantity := q2.reserved_quantity }) :
    q2.product_id = q.product_id := by
  conv_lhs => rw [he]

/-- A reserved-quantity rewrite keeps the package. -/
theorem corr_package (q2 q : Quant)
    (he : q2 = { q with reserved_quantity := q2.reserved_quantity }) :
    q2.package_id = q.package_id := by
  conv_lhs => rw [he]

/-- Composing two reserved-quantity rewrites. -/
theorem corr_trans (q3 q2 q : Quant)
    (h32 : q3 = { q2 with reserved_quantity := q3.reserved_quantity })
    (h21 : q2 = { q with reserved_quantity := q2.reserved_quantity }) :
    q3 = { q with reserved_quantity := q3.reserved_quantity } := by
  conv_lhs => rw [h32, h21]

/-- Ids of a filtered quant list embed through a reserved-quantity
correspondence. -/
theorem corr_filter_ids_sub (c : Quant → Bool) (hc : ResIgnoring c)
    (l1 l2 : List Quant)
    (hcorr : ∀ q2 ∈ l1, ∃ q ∈ l2,
        q2 = { q with reserved_quantity := q2.reserved_quantity }) :
    ∀ i ∈ (l1.filter c).map (fun q => q.id),
      i ∈ (l2.filter c).map (fun q => q.id) := by
  intro i hi
  obtain ⟨q2, hq2, hqi⟩ := List.mem_map.mp hi
  obtain ⟨hq2m, hq2c⟩ := List.mem_filter.mp hq2
  obtain ⟨q, hqm, he⟩ := hcorr q2 hq2m
  refine List.mem_map.mpr ⟨q, List.mem_filter.mpr ⟨hqm, ?_⟩, ?_⟩
  · rw [← corr_eval c hc q2 q he]
    exact hq2c
  · rw [← corr_id q2 q he]
    exact hqi


/-- Full specification of the `_swap_adjust_reserved_quantity` fold:
ids kept, quants altered only in reserved quantity, quantity totals
kept, reserved totals kept outside the written products, touched ids
scoped to the considered quants of the written products, each written
product's touched quants absorb exactly its distributed amount (when the
considered stock covers it), and untouched quants keep their reserved
quantity. -/
theorem swap_adjust_spec (pred : Quant → Bool) (hpred : ResIgnoring pred) :
    ∀ (pqs : List (Nat × Nat)) (l : List Quant),
    ((swap_adjust_reserved_quantity pred l pqs).1.map (fun q => q.id)
        = l.map (fun q => q.id)) ∧
    (∀ q' ∈ (swap_adjust_reserved_quantity pred l pqs).1, ∃ q ∈ l,
        q' = { q with reserved_quantity := q'.reserved_quantity }) ∧
    (∀ c : Quant → Bool, ResIgnoring c →
        qty_sum c (swap_adjust_reserved_quantity pred l pqs).1 = qty_sum c l) ∧
    (∀ c : Quant → Bool, ResIgnoring c →
        (∀ q ∈ l, c q = true → ∀ pq ∈ pqs,
          ¬(pred q = true ∧ q.product_id.id = pq.1)) →
        res_sum c (swap_adjust_reserved_quantity pred l pqs).1 = res_sum c l) ∧
    (∀ i ∈ (swap_adjust_reserved_quantity pred l pqs).2, ∃ pq ∈ pqs,
        i ∈ (l.filter (fun q => pred q && decide (q.product_id.id = pq.1))).map
          (fun q => q.id)) ∧
    ((l.map (fun q => q.id)).Nodup → (pqs.map Prod.fst).Nodup →
        (∀ pq ∈ pqs, pq.2 ≤
          qty_sum (fun q => pred q && decide (q.product_id.id = pq.1)) l) →
        ∀ pq ∈ pqs,
          res_sum (fun q => (pred q && decide (q.product_id.id = pq.1)) &&
              decide (q.id ∈ (swap_adjust_reserved_quantity pred l pqs).2))
            (swap_adjust_reserved_quantity pred l pqs).1 = pq.2) ∧
    ((l.map (fun q => q.id)).Nodup → ∀ c : Quant → Bool, ResIgnoring c →
        res_sum (fun q => c q &&
            !decide (q.id ∈ (swap_adjust_reserved_quantity pred l pqs).2))
          (swap_adjust_reserved_quantity pred l pqs).1
          = res_sum (fun q => c q &&
            !decide (q.id ∈ (swap_adjust_reserved_quantity pred l pqs).2)) l) := by
  intro pqs
  induction pqs with
  | nil =>
      intro l
      refine ⟨rfl, ?_, fun c _ => rfl, fun c _ _ => rfl, ?_, ?_, fun _ c _ => rfl⟩
      · intro q' hq'
        exact ⟨q', hq', rfl⟩
      · intro i hi
        simp [swap_adjust_reserved_quantity] at hi
      · intro _ _ _ pq hpq
        simp at hpq
  | cons pq rest ih =>
      intro l
      obtain ⟨w1, w2, w3, w4, w5, w6, w7, w8⟩ :=
        write_reserved_spec pred hpred pq.1 pq.2 l
      rw [swap_adjust_cons]
      set W := write_reserved_for_product pred pq.1 pq.2 l with hWdef
      obtain ⟨i1, i2, i3, i4, i5, i6, i7⟩ := ih W.1
      set R2 := swap_adjust_reserved_quantity pred W.1 rest with hRdef
      refine ⟨?_, ?_, ?_, ?_, ?_, ?_, ?_⟩
      · exact i1.trans w1
      · intro q' hq'
        obtain ⟨q2, hq2, he2⟩ := i2 q' hq'
        obtain ⟨q3, hq3, he3⟩ := w2 q2 hq2
        exact ⟨q3, hq3, corr_trans q' q2 q3 he2 he3⟩
      · intro c hc
        exact (i3 c hc).trans (w3 c hc)
      · intro c hc hdisj
        have hdisj2 : ∀ q2 ∈ W.1, c q2 = true → ∀ pq2 ∈ rest,
            ¬(pred q2 = true ∧ q2.product_id.id = pq2.1) := by
          intro q2 hq2 hc2 pq2 hpq2
          obtain ⟨q3, hq3, he⟩ := w2 q2 hq2
          have hc3 : c q3 = true := by
            rw [← corr_eval c hc q2 q3 he]
            exact hc2
          have hd := hdisj q3 hq3 hc3 pq2 (List.mem_cons_of_mem _ hpq2)
          intro hcon
          apply hd
          constructor
          · rw [← corr_eval pred hpred q2 q3 he]
            exact hcon.1
          · rw [← corr_product q2 q3 he]
            exact hcon.2
        exact (i4 c hc hdisj2).trans
          (w4 c hc (fun q hq hcq => hdisj q hq hcq pq (List.mem_cons_self _ _)))
      · intro i hi
        rcases List.mem_append.mp hi with h1 | h1
        · exact ⟨pq, List.mem_cons_self _ _, w6 i h1⟩
        · obtain ⟨pq2, hpq2, hi2⟩ := i5 i h1
          refine ⟨pq2, List.mem_cons_of_mem _ hpq2, ?_⟩
          exact corr_filter_ids_sub _
            (resIgnoring_and _ _ hpred (resIgnoring_pid pq2.1)) _ l w2 i hi2
      · intro hnodup hkeys hcover pq2 hpq2
        have hWnodup : (W.1.map (fun q => q.id)).Nodup := by
          rw [w1]
          exact hnodup
        have hinjl := List.inj_on_of_nodup_map hnodup
        have hkeys2 : (pq.1 :: rest.map Prod.fst).Nodup := by
          rw [← List.map_cons]
          exact hkeys
        have hkeysc := List.nodup_cons.mp hkeys2
        rcases List.mem_cons.mp hpq2 with rfl | hmem
        · have hD1 : ∀ q' ∈ R2.1,
              (pred q' && decide (q'.product_id.id = pq2.1)) = true →
              ¬ q'.id ∈ R2.2 := by
            intro q' hq' hcond hmem2
            obtain ⟨pq3, hpq3, hi2⟩ := i5 q'.id hmem2
            obtain ⟨q4, hq4f, hq4i⟩ := List.mem_map.mp hi2
            have hq4 := List.mem_filter.mp hq4f
            obtain ⟨q2, hq2, he2⟩ := i2 q' hq'
            have hinjW := List.inj_on_of_nodup_map hWnodup
            have heq : q4 = q2 := hinjW hq4.1 hq2
              (by rw [hq4i, (corr_id q' q2 he2).symm])
            simp only [Bool.and_eq_true, decide_eq_true_eq] at hcond
            have hq4cond := hq4.2
            simp only [Bool.and_eq_true, decide_eq_true_eq] at hq4cond
            apply hkeysc.1
            have hpp : pq2.1 = pq3.1 := by
              rw [← hcond.2, corr_product q' q2 he2, ← heq, hq4cond.2]
            rw [hpp]
            exact List.mem_map.mpr ⟨pq3, hpq3, rfl⟩
          have hstep1 : res_sum (fun q =>
              (pred q && decide (q.product_id.id = pq2.1)) &&
                decide (q.id ∈ W.2.2 ++ R2.2)) R2.1 =
              res_sum (fun q =>
              (pred q && decide (q.product_id.id = pq2.1)) &&
                decide (q.id ∈ W.2.2)) R2.1 := by
            apply res_sum_congr
            intro q' hq'
            by_cases hcond : (pred q' && decide (q'.product_id.id = pq2.1)) = true
            · have hnot := hD1 q' hq' hcond
              simp [hcond, List.mem_append, hnot]
            · have hf : (pred q' && decide (q'.product_id.id = pq2.1)) = false := by
                cases h : (pred q' && decide (q'.product_id.id = pq2.1))
                · rfl
                · exact absurd h hcond
              simp [hf]
          have hstep2 : res_sum (fun q =>
              (pred q && decide (q.product_id.id = pq2.1)) &&
                decide (q.id ∈ W.2.2)) R2.1 =
              res_sum (fun q =>
              (pred q && decide (q.product_id.id = pq2.1)) &&
                decide (q.id ∈ W.2.2)) W.1 := by
            apply i4
            · exact resIgnoring_and _ _
                (resIgnoring_and _ _ hpred (resIgnoring_pid pq2.1))
                (resIgnoring_mem W.2.2)
            · intro q2 hq2 hc2 pq3 hpq3 hcon
              simp only [Bool.and_eq_true, decide_eq_true_eq] at hc2
              apply hkeysc.1
              have hpp : pq2.1 = pq3.1 := by
                rw [← hc2.1.2, hcon.2]
              rw [hpp]
              exact List.mem_map.mpr ⟨pq3, hpq3, rfl⟩
          have hstep3 : res_sum (fun q =>
              (pred q && decide (q.product_id.id = pq2.1)) &&
                decide (q.id ∈ W.2.2)) W.1 = pq2.2 := by
            rw [w7 hnodup, w5]
            have hcov := hcover pq2 (List.mem_cons_self _ _)
            omega
          exact hstep1.trans (hstep2.trans hstep3)
        · have hD2 : ∀ q' ∈ R2.1,
              (pred q' && decide (q'.product_id.id = pq2.1)) = true →
              ¬ q'.id ∈ W.2.2 := by
            intro q' hq' hcond hmem2
            have h6 := w6 q'.id hmem2
            obtain ⟨q4, hq4f, hq4i⟩ := List.mem_map.mp h6
            have hq4 := List.mem_filter.mp hq4f
            obtain ⟨q2, hq2, he2⟩ := i2 q' hq'
            obtain ⟨q3, hq3, he3⟩ := w2 q2 hq2
            have he := corr_trans q' q2 q3 he2 he3
            have heq : q4 = q3 := hinjl hq4.1 hq3
              (by rw [hq4i, (corr_id q' q3 he).symm])
            simp only [Bool.and_eq_true, decide_eq_true_eq] at hcond
            have hq4cond := hq4.2
            simp only [Bool.and_eq_true, decide_eq_true_eq] at hq4cond
            apply hkeysc.1
            have hpp : pq.1 = pq2.1 := by
              rw [← hq4cond.2, heq, ← corr_product q' q3 he, hcond.2]
            rw [hpp]
            exact List.mem_map.mpr ⟨pq2, hmem, rfl⟩
          have hstep1 : res_sum (fun q =>
              (pred q && decide (q.product_id.id = pq2.1)) &&
                decide (q.id ∈ W.2.2 ++ R2.2)) R2.1 =
              res_sum (fun q =>
              (pred q && decide (q.product_id.id = pq2.1)) &&
                decide (q.id ∈ R2.2)) R2.1 := by
            apply res_sum_congr
            intro q' hq'
            by_cases hcond : (pred q' && decide (q'.product_id.id = pq2.1)) = true
            · have hnot := hD2 q' hq' hcond
              simp [hcond, List.mem_append, hnot]
            · have hf : (pred q' && decide (q'.product_id.id = pq2.1)) = false := by
                cases h : (pred q' && decide (q'.product_id.id = pq2.1))
                · rfl
                · exact absurd h hcond
              simp [hf]
          have hcover2 : ∀ pq3 ∈ rest, pq3.2 ≤
              qty_sum (fun q => pred q && decide (q.product_id.id = pq3.1)) W.1 := by
            intro pq3 hpq3
            rw [w3 _ (resIgnoring_and _ _ hpred (resIgnoring_pid pq3.1))]
            exact hcover pq3 (List.mem_cons_of_mem _ hpq3)
          exact hstep1.trans (i6 hWnodup hkeysc.2 hcover2 pq2 hmem)
      · intro hnodup c hc
        have hWnodup : (W.1.map (fun q => q.id)).Nodup := by
          rw [w1]
          exact hnodup
        have hc1 : ResIgnoring (fun q => c q && !decide (q.id ∈ W.2.2)) :=
          resIgnoring_and _ _ hc (resIgnoring_not _ (resIgnoring_mem _))
        have hc2 : ResIgnoring (fun q => c q && !decide (q.id ∈ R2.2)) :=
          resIgnoring_and _ _ hc (resIgnoring_not _ (resIgnoring_mem _))
        calc res_sum (fun q => c q && !decide (q.id ∈ W.2.2 ++ R2.2)) R2.1
            = res_sum (fun q =>
                (c q && !decide (q.id ∈ W.2.2)) && !decide (q.id ∈ R2.2)) R2.1 :=
              res_sum_congr _ _ _ (fun q _ => by
                by_cases h1 : q.id ∈ W.2.2 <;> by_cases h2 : q.id ∈ R2.2 <;>
                  simp [h1, h2, List.mem_append])
          _ = res_sum (fun q =>
                (c q && !decide (q.id ∈ W.2.2)) && !decide (q.id ∈ R2.2)) W.1 :=
              i7 hWnodup _ hc1
          _ = res_sum (fun q =>
                (c q && !decide (q.id ∈ R2.2)) && !decide (q.id ∈ W.2.2)) W.1 :=
              res_sum_congr _ _ _ (fun q _ => by
                by_cases h1 : q.id ∈ W.2.2 <;> by_cases h2 : q.id ∈ R2.2 <;>
                  simp [h1, h2])
          _ = res_sum (fun q =>
                (c q && !decide (q.id ∈ R2.2)) && !decide (q.id ∈ W.2.2)) l :=
              w8 hnodup _ hc2
          _ = res_sum (fun q => c q && !decide (q.id ∈ W.2.2 ++ R2.2)) l :=
              res_sum_congr _ _ _ (fun q _ => by
                by_cases h1 : q.id ∈ W.2.2 <;> by_cases h2 : q.id ∈ R2.2 <;>
                  simp [h1, h2, List.mem_append])


/-- The adjusted-quantity table has one row per product. -/
theorem adj_keys_nodup (quants : List Quant) (mls : List MoveLine) :
    ((get_adjusted_quantities quants mls).map Prod.fst).Nodup := by
  have h1 : List.Sublist (get_adjusted_quantities quants mls)
      (((quants.map (fun q => q.product_id.id)).dedup).map
        (fun pid =>
          (pid, ((quants.filter (fun q => q.product_id.id = pid)).map
              (fun q => q.reserved_quantity)).sum -
            ((mls.filter (fun ml => ml.product_id.id = pid)).map
              (fun ml => ml.product_uom_qty)).sum))) :=
    List.filter_sublist _
  have h2 := h1.map Prod.fst
  have h3 : (((quants.map (fun q => q.product_id.id)).dedup).map
      (fun pid =>
        (pid, ((quants.filter (fun q => q.product_id.id = pid)).map
            (fun q => q.reserved_quantity)).sum -
          ((mls.filter (fun ml => ml.product_id.id = pid)).map
            (fun ml => ml.product_uom_qty)).sum))).map Prod.fst =
      (quants.map (fun q => q.product_id.id)).dedup := by
    rw [List.map_map]
    exact List.map_id _
  exact ((h3 ▸ h2 : List.Sublist _
      ((quants.map (fun q => q.product_id.id)).dedup))).nodup
    (List.nodup_dedup _)

/-- Each adjusted-quantity row is the product's reserved total over the
given quants minus the move lines' quantity to do, and is nonzero. -/
theorem adj_mem_val (quants : List Quant) (mls : List MoveLine) :
    ∀ pq ∈ get_adjusted_quantities quants mls,
      pq.2 = res_sum (fun q => decide (q.product_id.id = pq.1)) quants -
          mls_qty_sum pq.1 mls ∧ pq.2 ≠ 0 := by
  intro pq hpq
  have h1 := List.mem_filter.mp hpq
  obtain ⟨pid, _, he⟩ := List.mem_map.mp h1.1
  constructor
  · rw [← he]
    rfl
  · have := h1.2
    simpa using this

/-- A product absent from the adjusted-quantity table has no surplus:
its reserved total is at most the move lines' quantity to do. -/
theorem adj_absent (quants : List Quant) (mls : List MoveLine) (pid : Nat)
    (h : ∀ pq ∈ get_adjusted_quantities quants mls, pq.1 ≠ pid) :
    res_sum (fun q => decide (q.product_id.id = pid)) quants -
      mls_qty_sum pid mls = 0 := by
  by_cases hex : pid ∈ quants.map (fun q => q.product_id.id)
  · have hded : pid ∈ (quants.map (fun q => q.product_id.id)).dedup :=
      List.mem_dedup.mpr hex
    have hmem : (pid, res_sum (fun q => decide (q.product_id.id = pid)) quants -
        mls_qty_sum pid mls) ∈
        ((quants.map (fun q => q.product_id.id)).dedup).map
          (fun pid =>
            (pid, ((quants.filter (fun q => q.product_id.id = pid)).map
                (fun q => q.reserved_quantity)).sum -
              ((mls.filter (fun ml => ml.product_id.id = pid)).map
                (fun ml => ml.product_uom_qty)).sum)) :=
      List.mem_map.mpr ⟨pid, hded, rfl⟩
    by_contra hne
    have hfil : (pid, res_sum (fun q => decide (q.product_id.id = pid)) quants -
        mls_qty_sum pid mls) ∈ get_adjusted_quantities quants mls := by
      apply List.mem_filter.mpr
      exact ⟨hmem, by simpa using hne⟩
    exact h _ hfil rfl
  · have hfil : quants.filter (fun q => decide (q.product_id.id = pid)) = [] := by
      rw [List.filter_eq_nil_iff]
      intro q hq hc
      apply hex
      exact List.mem_map.mpr ⟨q, hq, by simpa using hc⟩
    simp [res_sum, hfil]

/-- The product-quantity table of a set of move lines has one row per
product. -/
theorem aps_keys_nodup (mls : List MoveLine) :
    ((all_products_quantities mls).map Prod.fst).Nodup := by
  have h3 : (all_products_quantities mls).map Prod.fst =
      (mls.map (fun ml => ml.product_id.id)).dedup := by
    show (((mls.map (fun ml => ml.product_id.id)).dedup).map _).map Prod.fst = _
    rw [List.map_map]
    exact List.map_id _
  rw [h3]
  exact List.nodup_dedup _

/-- Each product-quantity row is the move lines' total to do for that
product. -/
theorem aps_mem_val (mls : List MoveLine) :
    ∀ pq ∈ all_products_quantities mls, pq.2 = mls_qty_sum pq.1 mls := by
  intro pq hpq
  simp only [all_products_quantities] at hpq
  obtain ⟨pid, _, he⟩ := List.mem_map.mp hpq
  rw [← he]
  rfl

/-- Every product of the move lines has its row in the product-quantity
table. -/
theorem aps_mem_of_pid (mls : List MoveLine) (pid : Nat)
    (h : pid ∈ mls.map (fun ml => ml.product_id.id)) :
    (pid, mls_qty_sum pid mls) ∈ all_products_quantities mls :=
  List.mem_map.mpr ⟨pid, List.mem_dedup.mpr h, rfl⟩

/-- A product with no move line has zero quantity to do. -/
theorem mls_qty_zero_of_absent (mls : List MoveLine) (pid : Nat)
    (h : ¬ pid ∈ mls.map (fun ml => ml.product_id.id)) :
    mls_qty_sum pid mls = 0 := by
  have hfil : mls.filter (fun ml => decide (ml.product_id.id = pid)) = [] := by
    rw [List.filter_eq_nil_iff]
    intro ml hml hc
    apply h
    exact List.mem_map.mpr ⟨ml, hml, by simpa using hc⟩
  simp [mls_qty_sum, hfil]

/-- A product absent from the distributed table keeps no reserved stock
on touched quants: no touched quant carries it. -/
theorem swap_adjust_untouched_product (pred : Quant → Bool)
    (hpred : ResIgnoring pred) (pqs : List (Nat × Nat)) (l : List Quant)
    (pid : Nat) (hnodup : (l.map (fun q => q.id)).Nodup)
    (habs : ∀ pq ∈ pqs, pq.1 ≠ pid) :
    res_sum (fun q => (pred q && decide (q.product_id.id = pid)) &&
        decide (q.id ∈ (swap_adjust_reserved_quantity pred l pqs).2))
      (swap_adjust_reserved_quantity pred l pqs).1 = 0 := by
  obtain ⟨_, s2, _, _, s5, _, _⟩ := swap_adjust_spec pred hpred pqs l
  apply res_sum_zero
  intro q' hq' hc
  exfalso
  simp only [Bool.and_eq_true, decide_eq_true_eq] at hc
  obtain ⟨pq, hpq, hi⟩ := s5 q'.id hc.2
  obtain ⟨q4, hq4f, hq4i⟩ := List.mem_map.mp hi
  have hq4 := List.mem_filter.mp hq4f
  obtain ⟨q3, hq3, he⟩ := s2 q' hq'
  have heq : q4 = q3 :=
    List.inj_on_of_nodup_map hnodup hq4.1 hq3
      (by rw [hq4i, (corr_id q' q3 he).symm])
  have hq4cond := hq4.2
  simp only [Bool.and_eq_true, decide_eq_true_eq] at hq4cond
  apply habs pq hpq
  rw [← hq4cond.2, heq, ← corr_product q' q3 he, hc.1.2]


/-- Per-product reserved-quantity conservation of `_swap_unreserved`:
under the stock invariants (reserved within quantity, unique quant ids,
the expected lines' quants disjoint from the scanned package, the
scanned package unreserved, the lines' demand covered by the expected
reservation and by the scanned package's stock), the total reserved
quantity of each product over the quant table is unchanged. -/
theorem swap_unreserved_conserves (quants : List Quant) (scanned : Package)
    (mls : List MoveLine) (pid : Nat)
    (hrq : ∀ q ∈ quants, q.reserved_quantity ≤ q.quantity)
    (hnodup : (quants.map (fun q => q.id)).Nodup)
    (hdisj : ∀ q ∈ quants, gathers mls q = true →
        ¬ q.package_id = some scanned.id)
    (hscan0 : ∀ q ∈ quants, q.package_id = some scanned.id →
        q.reserved_quantity = 0)
    (hresle : mls_qty_sum pid mls ≤
        res_sum (fun q => decide (q.product_id.id = pid) && gathers mls q) quants)
    (hscancover : ∀ pid2 ∈ mls.map (fun ml => ml.product_id.id),
        mls_qty_sum pid2 mls ≤
        qty_sum (fun q => decide (q.package_id = some scanned.id) &&
          decide (q.product_id.id = pid2)) quants) :
    res_sum (fun q => decide (q.product_id.id = pid)) (swap_unreserved quants scanned mls).1 =
      res_sum (fun q => decide (q.product_id.id = pid)) quants := by
  show res_sum (fun q => decide (q.product_id.id = pid)) (swap_adjust_reserved_quantity (fun q => decide (q.package_id = some scanned.id)) ((swap_adjust_reserved_quantity (gathers mls) quants (get_adjusted_quantities (quants.filter (gathers mls)) mls)).1.map (fun q => if gathers mls q ∧ ¬ q.id ∈ (swap_adjust_reserved_quantity (gathers mls) quants (get_adjusted_quantities (quants.filter (gathers mls)) mls)).2 then { q with reserved_quantity := 0 } else q)) (all_products_quantities mls)).1 = res_sum (fun q => decide (q.product_id.id = pid)) quants
  have hPRI : ResIgnoring (gathers mls) := resIgnoring_gathers mls
  have hSCRI : ResIgnoring (fun q => decide (q.package_id = some scanned.id)) := resIgnoring_package (some scanned.id)
  have hpidcRI : ResIgnoring (fun q => decide (q.product_id.id = pid)) := resIgnoring_pid pid
  obtain ⟨a1, a2, a3, a4, a5, a6, a7⟩ :=
    swap_adjust_spec (gathers mls) hPRI (get_adjusted_quantities (quants.filter (gathers mls)) mls) quants
  obtain ⟨b1, b2, b3, b4, b5, b6, b7⟩ :=
    swap_adjust_spec (fun q => decide (q.package_id = some scanned.id)) hSCRI (all_products_quantities mls) ((swap_adjust_reserved_quantity (gathers mls) quants (get_adjusted_quantities (quants.filter (gathers mls)) mls)).1.map (fun q => if gathers mls q ∧ ¬ q.id ∈ (swap_adjust_reserved_quantity (gathers mls) quants (get_adjusted_quantities (quants.filter (gathers mls)) mls)).2 then { q with reserved_quantity := 0 } else q))
  have hids3 : ((swap_adjust_reserved_quantity (gathers mls) quants (get_adjusted_quantities (quants.filter (gathers mls)) mls)).1.map (fun q => if gathers mls q ∧ ¬ q.id ∈ (swap_adjust_reserved_quantity (gathers mls) quants (get_adjusted_quantities (quants.filter (gathers mls)) mls)).2 then { q with reserved_quantity := 0 } else q)).map (fun q => q.id) = quants.map (fun q => q.id) :=
    (zero_map_ids (gathers mls) (swap_adjust_reserved_quantity (gathers mls) quants (get_adjusted_quantities (quants.filter (gathers mls)) mls)).2 (swap_adjust_reserved_quantity (gathers mls) quants (get_adjusted_quantities (quants.filter (gathers mls)) mls)).1).trans a1
  have hnodup3 : (((swap_adjust_reserved_quantity (gathers mls) quants (get_adjusted_quantities (quants.filter (gathers mls)) mls)).1.map (fun q => if gathers mls q ∧ ¬ q.id ∈ (swap_adjust_reserved_quantity (gathers mls) quants (get_adjusted_quantities (quants.filter (gathers mls)) mls)).2 then { q with reserved_quantity := 0 } else q)).map (fun q => q.id)).Nodup := by
    rw [hids3]
    exact hnodup
  have hcorr3 : ∀ q' ∈ ((swap_adjust_reserved_quantity (gathers mls) quants (get_adjusted_quantities (quants.filter (gathers mls)) mls)).1.map (fun q => if gathers mls q ∧ ¬ q.id ∈ (swap_adjust_reserved_quantity (gathers mls) quants (get_adjusted_quantities (quants.filter (gathers mls)) mls)).2 then { q with reserved_quantity := 0 } else q)), ∃ q ∈ quants,
      q' = { q with reserved_quantity := q'.reserved_quantity } := by
    intro q' hq'
    obtain ⟨q2, hq2, he2⟩ := zero_map_corr (gathers mls) (swap_adjust_reserved_quantity (gathers mls) quants (get_adjusted_quantities (quants.filter (gathers mls)) mls)).2 (swap_adjust_reserved_quantity (gathers mls) quants (get_adjusted_quantities (quants.filter (gathers mls)) mls)).1 q' hq'
    obtain ⟨q, hq, he⟩ := a2 q2 hq2
    exact ⟨q, hq, corr_trans q' q2 q he2 he⟩
  have hcorr2 : ∀ q' ∈ (swap_adjust_reserved_quantity (fun q => decide (q.package_id = some scanned.id)) ((swap_adjust_reserved_quantity (gathers mls) quants (get_adjusted_quantities (quants.filter (gathers mls)) mls)).1.map (fun q => if gathers mls q ∧ ¬ q.id ∈ (swap_adjust_reserved_quantity (gathers mls) quants (get_adjusted_quantities (quants.filter (gathers mls)) mls)).2 then { q with reserved_quantity := 0 } else q)) (all_products_quantities mls)).1, ∃ q ∈ quants,
      q' = { q with reserved_quantity := q'.reserved_quantity } := by
    intro q' hq'
    obtain ⟨q2, hq2, he2⟩ := b2 q' hq'
    obtain ⟨q, hq, he⟩ := hcorr3 q2 hq2
    exact ⟨q, hq, corr_trans q' q2 q he2 he⟩
  have hPSC3 : ∀ q' ∈ ((swap_adjust_reserved_quantity (gathers mls) quants (get_adjusted_quantities (quants.filter (gathers mls)) mls)).1.map (fun q => if gathers mls q ∧ ¬ q.id ∈ (swap_adjust_reserved_quantity (gathers mls) quants (get_adjusted_quantities (quants.filter (gathers mls)) mls)).2 then { q with reserved_quantity := 0 } else q)), gathers mls q' = true →
      decide (q'.package_id = some scanned.id) = false := by
    intro q' hq' hp
    obtain ⟨q, hq, he⟩ := hcorr3 q' hq'
    have hp0 : gathers mls q = true := by
      rw [← corr_eval _ hPRI q' q he]
      exact hp
    rw [decide_eq_false_iff_not, corr_package q' q he]
    exact hdisj q hq hp0
  have hPSC2 : ∀ q' ∈ (swap_adjust_reserved_quantity (fun q => decide (q.package_id = some scanned.id)) ((swap_adjust_reserved_quantity (gathers mls) quants (get_adjusted_quantities (quants.filter (gathers mls)) mls)).1.map (fun q => if gathers mls q ∧ ¬ q.id ∈ (swap_adjust_reserved_quantity (gathers mls) quants (get_adjusted_quantities (quants.filter (gathers mls)) mls)).2 then { q with reserved_quantity := 0 } else q)) (all_products_quantities mls)).1, gathers mls q' = true →
      decide (q'.package_id = some scanned.id) = false := by
    intro q' hq' hp
    obtain ⟨q, hq, he⟩ := hcorr2 q' hq'
    have hp0 : gathers mls q = true := by
      rw [← corr_eval _ hPRI q' q he]
      exact hp
    rw [decide_eq_false_iff_not, corr_package q' q he]
    exact hdisj q hq hp0
  have hc1RI : ResIgnoring (fun q => decide (q.product_id.id = pid) && gathers mls q) :=
    resIgnoring_and _ _ hpidcRI hPRI
  have hc2RI : ResIgnoring (fun q => (decide (q.product_id.id = pid) && !(gathers mls q)) && decide (q.package_id = some scanned.id)) :=
    resIgnoring_and _ _ (resIgnoring_and _ _ hpidcRI (resIgnoring_not _ hPRI))
      hSCRI
  have hc3RI : ResIgnoring (fun q => (decide (q.product_id.id = pid) && !(gathers mls q)) && !(decide (q.package_id = some scanned.id))) :=
    resIgnoring_and _ _ (resIgnoring_and _ _ hpidcRI (resIgnoring_not _ hPRI))
      (resIgnoring_not _ hSCRI)
  have hC : res_sum (fun q => (decide (q.product_id.id = pid) && !(gathers mls q)) && !(decide (q.package_id = some scanned.id))) (swap_adjust_reserved_quantity (fun q => decide (q.package_id = some scanned.id)) ((swap_adjust_reserved_quantity (gathers mls) quants (get_adjusted_quantities (quants.filter (gathers mls)) mls)).1.map (fun q => if gathers mls q ∧ ¬ q.id ∈ (swap_adjust_reserved_quantity (gathers mls) quants (get_adjusted_quantities (quants.filter (gathers mls)) mls)).2 then { q with reserved_quantity := 0 } else q)) (all_products_quantities mls)).1 = res_sum (fun q => (decide (q.product_id.id = pid) && !(gathers mls q)) && !(decide (q.package_id = some scanned.id))) quants := by
    have s1 : res_sum (fun q => (decide (q.product_id.id = pid) && !(gathers mls q)) && !(decide (q.package_id = some scanned.id))) (swap_adjust_reserved_quantity (fun q => decide (q.package_id = some scanned.id)) ((swap_adjust_reserved_quantity (gathers mls) quants (get_adjusted_quantities (quants.filter (gathers mls)) mls)).1.map (fun q => if gathers mls q ∧ ¬ q.id ∈ (swap_adjust_reserved_quantity (gathers mls) quants (get_adjusted_quantities (quants.filter (gathers mls)) mls)).2 then { q with reserved_quantity := 0 } else q)) (all_products_quantities mls)).1 = res_sum (fun q => (decide (q.product_id.id = pid) && !(gathers mls q)) && !(decide (q.package_id = some scanned.id))) ((swap_adjust_reserved_quantity (gathers mls) quants (get_adjusted_quantities (quants.filter (gathers mls)) mls)).1.map (fun q => if gathers mls q ∧ ¬ q.id ∈ (swap_adjust_reserved_quantity (gathers mls) quants (get_adjusted_quantities (quants.filter (gathers mls)) mls)).2 then { q with reserved_quantity := 0 } else q)) := by
      apply b4 _ hc3RI
      intro q hq hc pq hpq hcon
      simp only [Bool.and_eq_true, Bool.not_eq_true'] at hc
      rw [hc.2] at hcon
      exact Bool.false_ne_true hcon.1
    have s2 : res_sum (fun q => (decide (q.product_id.id = pid) && !(gathers mls q)) && !(decide (q.package_id = some scanned.id))) ((swap_adjust_reserved_quantity (gathers mls) quants (get_adjusted_quantities (quants.filter (gathers mls)) mls)).1.map (fun q => if gathers mls q ∧ ¬ q.id ∈ (swap_adjust_reserved_quantity (gathers mls) quants (get_adjusted_quantities (quants.filter (gathers mls)) mls)).2 then { q with reserved_quantity := 0 } else q)) =
        res_sum (fun q => (fun q => (decide (q.product_id.id = pid) && !(gathers mls q)) && !(decide (q.package_id = some scanned.id))) q &&
          !(gathers mls q && !decide (q.id ∈ (swap_adjust_reserved_quantity (gathers mls) quants (get_adjusted_quantities (quants.filter (gathers mls)) mls)).2))) (swap_adjust_reserved_quantity (gathers mls) quants (get_adjusted_quantities (quants.filter (gathers mls)) mls)).1 :=
      zero_map_res (gathers mls) (fun q => (decide (q.product_id.id = pid) && !(gathers mls q)) && !(decide (q.package_id = some scanned.id))) hc3RI (swap_adjust_reserved_quantity (gathers mls) quants (get_adjusted_quantities (quants.filter (gathers mls)) mls)).2 (swap_adjust_reserved_quantity (gathers mls) quants (get_adjusted_quantities (quants.filter (gathers mls)) mls)).1
    have s3 : res_sum (fun q => (fun q => (decide (q.product_id.id = pid) && !(gathers mls q)) && !(decide (q.package_id = some scanned.id))) q &&
        !(gathers mls q && !decide (q.id ∈ (swap_adjust_reserved_quantity (gathers mls) quants (get_adjusted_quantities (quants.filter (gathers mls)) mls)).2))) (swap_adjust_reserved_quantity (gathers mls) quants (get_adjusted_quantities (quants.filter (gathers mls)) mls)).1 =
        res_sum (fun q => (decide (q.product_id.id = pid) && !(gathers mls q)) && !(decide (q.package_id = some scanned.id))) (swap_adjust_reserved_quantity (gathers mls) quants (get_adjusted_quantities (quants.filter (gathers mls)) mls)).1 := by
      apply res_sum_congr
      intro q _
      cases hp : gathers mls q <;> cases hm : decide (q.id ∈ (swap_adjust_reserved_quantity (gathers mls) quants (get_adjusted_quantities (quants.filter (gathers mls)) mls)).2) <;>
        simp [hp, hm]
    have s4 : res_sum (fun q => (decide (q.product_id.id = pid) && !(gathers mls q)) && !(decide (q.package_id = some scanned.id))) (swap_adjust_reserved_quantity (gathers mls) quants (get_adjusted_quantities (quants.filter (gathers mls)) mls)).1 = res_sum (fun q => (decide (q.product_id.id = pid) && !(gathers mls q)) && !(decide (q.package_id = some scanned.id))) quants := by
      apply a4 _ hc3RI
      intro q hq hc pq hpq hcon
      simp only [Bool.and_eq_true, Bool.not_eq_true'] at hc
      rw [hc.1.2] at hcon
      exact Bool.false_ne_true hcon.1
    exact s1.trans (s2.trans (s3.trans s4))
  have hscanzero3 : res_sum (fun q => (decide (q.product_id.id = pid) && !(gathers mls q)) && decide (q.package_id = some scanned.id)) ((swap_adjust_reserved_quantity (gathers mls) quants (get_adjusted_quantities (quants.filter (gathers mls)) mls)).1.map (fun q => if gathers mls q ∧ ¬ q.id ∈ (swap_adjust_reserved_quantity (gathers mls) quants (get_adjusted_quantities (quants.filter (gathers mls)) mls)).2 then { q with reserved_quantity := 0 } else q)) = 0 := by
    have s2 : res_sum (fun q => (decide (q.product_id.id = pid) && !(gathers mls q)) && decide (q.package_id = some scanned.id)) ((swap_adjust_reserved_quantity (gathers mls) quants (get_adjusted_quantities (quants.filter (gathers mls)) mls)).1.map (fun q => if gathers mls q ∧ ¬ q.id ∈ (swap_adjust_reserved_quantity (gathers mls) quants (get_adjusted_quantities (quants.filter (gathers mls)) mls)).2 then { q with reserved_quantity := 0 } else q)) =
        res_sum (fun q => (fun q => (decide (q.product_id.id = pid) && !(gathers mls q)) && decide (q.package_id = some scanned.id)) q &&
          !(gathers mls q && !decide (q.id ∈ (swap_adjust_reserved_quantity (gathers mls) quants (get_adjusted_quantities (quants.filter (gathers mls)) mls)).2))) (swap_adjust_reserved_quantity (gathers mls) quants (get_adjusted_quantities (quants.filter (gathers mls)) mls)).1 :=
      zero_map_res (gathers mls) (fun q => (decide (q.product_id.id = pid) && !(gathers mls q)) && decide (q.package_id = some scanned.id)) hc2RI (swap_adjust_reserved_quantity (gathers mls) quants (get_adjusted_quantities (quants.filter (gathers mls)) mls)).2 (swap_adjust_reserved_quantity (gathers mls) quants (get_adjusted_quantities (quants.filter (gathers mls)) mls)).1
    have s3 : res_sum (fun q => (fun q => (decide (q.product_id.id = pid) && !(gathers mls q)) && decide (q.package_id = some scanned.id)) q &&
        !(gathers mls q && !decide (q.id ∈ (swap_adjust_reserved_quantity (gathers mls) quants (get_adjusted_quantities (quants.filter (gathers mls)) mls)).2))) (swap_adjust_reserved_quantity (gathers mls) quants (get_adjusted_quantities (quants.filter (gathers mls)) mls)).1 =
        res_sum (fun q => (decide (q.product_id.id = pid) && !(gathers mls q)) && decide (q.package_id = some scanned.id)) (swap_adjust_reserved_quantity (gathers mls) quants (get_adjusted_quantities (quants.filter (gathers mls)) mls)).1 := by
      apply res_sum_congr
      intro q _
      cases hp : gathers mls q <;> cases hm : decide (q.id ∈ (swap_adjust_reserved_quantity (gathers mls) quants (get_adjusted_quantities (quants.filter (gathers mls)) mls)).2) <;>
        simp [hp, hm]
    have s4 : res_sum (fun q => (decide (q.product_id.id = pid) && !(gathers mls q)) && decide (q.package_id = some scanned.id)) (swap_adjust_reserved_quantity (gathers mls) quants (get_adjusted_quantities (quants.filter (gathers mls)) mls)).1 = res_sum (fun q => (decide (q.product_id.id = pid) && !(gathers mls q)) && decide (q.package_id = some scanned.id)) quants := by
      apply a4 _ hc2RI
      intro q hq hc pq hpq hcon
      simp only [Bool.and_eq_true, Bool.not_eq_true'] at hc
      rw [hc.1.2] at hcon
      exact Bool.false_ne_true hcon.1
    have s5 : res_sum (fun q => (decide (q.product_id.id = pid) && !(gathers mls q)) && decide (q.package_id = some scanned.id)) quants = 0 := by
      apply res_sum_zero
      intro q hq hc
      simp only [Bool.and_eq_true, decide_eq_true_eq] at hc
      exact hscan0 q hq hc.2
    exact s2.trans (s3.trans (s4.trans s5))
  have hA : res_sum (fun q => decide (q.product_id.id = pid) && gathers mls q) (swap_adjust_reserved_quantity (fun q => decide (q.package_id = some scanned.id)) ((swap_adjust_reserved_quantity (gathers mls) quants (get_adjusted_quantities (quants.filter (gathers mls)) mls)).1.map (fun q => if gathers mls q ∧ ¬ q.id ∈ (swap_adjust_reserved_quantity (gathers mls) quants (get_adjusted_quantities (quants.filter (gathers mls)) mls)).2 then { q with reserved_quantity := 0 } else q)) (all_products_quantities mls)).1 =
      res_sum (fun q => decide (q.product_id.id = pid) && gathers mls q) quants - mls_qty_sum pid mls := by
    have s1 : res_sum (fun q => decide (q.product_id.id = pid) && gathers mls q) (swap_adjust_reserved_quantity (fun q => decide (q.package_id = some scanned.id)) ((swap_adjust_reserved_quantity (gathers mls) quants (get_adjusted_quantities (quants.filter (gathers mls)) mls)).1.map (fun q => if gathers mls q ∧ ¬ q.id ∈ (swap_adjust_reserved_quantity (gathers mls) quants (get_adjusted_quantities (quants.filter (gathers mls)) mls)).2 then { q with reserved_quantity := 0 } else q)) (all_products_quantities mls)).1 = res_sum (fun q => decide (q.product_id.id = pid) && gathers mls q) ((swap_adjust_reserved_quantity (gathers mls) quants (get_adjusted_quantities (quants.filter (gathers mls)) mls)).1.map (fun q => if gathers mls q ∧ ¬ q.id ∈ (swap_adjust_reserved_quantity (gathers mls) quants (get_adjusted_quantities (quants.filter (gathers mls)) mls)).2 then { q with reserved_quantity := 0 } else q)) := by
      apply b4 _ hc1RI
      intro q hq hc pq hpq hcon
      simp only [Bool.and_eq_true] at hc
      have := hPSC3 q hq hc.2
      rw [this] at hcon
      exact Bool.false_ne_true hcon.1
    have s2 : res_sum (fun q => decide (q.product_id.id = pid) && gathers mls q) ((swap_adjust_reserved_quantity (gathers mls) quants (get_adjusted_quantities (quants.filter (gathers mls)) mls)).1.map (fun q => if gathers mls q ∧ ¬ q.id ∈ (swap_adjust_reserved_quantity (gathers mls) quants (get_adjusted_quantities (quants.filter (gathers mls)) mls)).2 then { q with reserved_quantity := 0 } else q)) =
        res_sum (fun q => (fun q => decide (q.product_id.id = pid) && gathers mls q) q &&
          !(gathers mls q && !decide (q.id ∈ (swap_adjust_reserved_quantity (gathers mls) quants (get_adjusted_quantities (quants.filter (gathers mls)) mls)).2))) (swap_adjust_reserved_quantity (gathers mls) quants (get_adjusted_quantities (quants.filter (gathers mls)) mls)).1 :=
      zero_map_res (gathers mls) (fun q => decide (q.product_id.id = pid) && gathers mls q) hc1RI (swap_adjust_reserved_quantity (gathers mls) quants (get_adjusted_quantities (quants.filter (gathers mls)) mls)).2 (swap_adjust_reserved_quantity (gathers mls) quants (get_adjusted_quantities (quants.filter (gathers mls)) mls)).1
    have s3 : res_sum (fun q => (fun q => decide (q.product_id.id = pid) && gathers mls q) q &&
        !(gathers mls q && !decide (q.id ∈ (swap_adjust_reserved_quantity (gathers mls) quants (get_adjusted_quantities (quants.filter (gathers mls)) mls)).2))) (swap_adjust_reserved_quantity (gathers mls) quants (get_adjusted_quantities (quants.filter (gathers mls)) mls)).1 =
        res_sum (fun q => (gathers mls q && decide (q.product_id.id = pid)) && decide (q.id ∈ (swap_adjust_reserved_quantity (gathers mls) quants (get_adjusted_quantities (quants.filter (gathers mls)) mls)).2)) (swap_adjust_reserved_quantity (gathers mls) quants (get_adjusted_quantities (quants.filter (gathers mls)) mls)).1 := by
      apply res_sum_congr
      intro q _
      cases hp : gathers mls q <;> cases hm : decide (q.id ∈ (swap_adjust_reserved_quantity (gathers mls) quants (get_adjusted_quantities (quants.filter (gathers mls)) mls)).2) <;>
        simp [hp, hm]
    have s4 : res_sum (fun q => (gathers mls q && decide (q.product_id.id = pid)) && decide (q.id ∈ (swap_adjust_reserved_quantity (gathers mls) quants (get_adjusted_quantities (quants.filter (gathers mls)) mls)).2)) (swap_adjust_reserved_quantity (gathers mls) quants (get_adjusted_quantities (quants.filter (gathers mls)) mls)).1 =
        res_sum (fun q => decide (q.product_id.id = pid) && gathers mls q) quants - mls_qty_sum pid mls := by
      by_cases hkey : pid ∈ (get_adjusted_quantities (quants.filter (gathers mls)) mls).map Prod.fst
      · obtain ⟨pq, hpq, hfst⟩ := List.mem_map.mp hkey
        have hcover1 : ∀ pq2 ∈ (get_adjusted_quantities (quants.filter (gathers mls)) mls), pq2.2 ≤
            qty_sum (fun q => gathers mls q &&
              decide (q.product_id.id = pq2.1)) quants := by
          intro pq2 hpq2
          have hval := (adj_mem_val _ _ pq2 hpq2).1
          have h1 : res_sum (fun q => decide (q.product_id.id = pq2.1))
              (quants.filter (gathers mls)) =
              res_sum (fun q => decide (q.product_id.id = pq2.1) &&
                gathers mls q) quants :=
            res_sum_filter _ _ _
          have h2 : res_sum (fun q => decide (q.product_id.id = pq2.1) &&
              gathers mls q) quants =
              res_sum (fun q => gathers mls q &&
                decide (q.product_id.id = pq2.1)) quants :=
            res_sum_congr _ _ _ (fun q _ => Bool.and_comm _ _)
          have h3 := res_sum_le_qty_sum (fun q => gathers mls q &&
            decide (q.product_id.id = pq2.1)) quants hrq
          omega
        have h6 := a6 hnodup (adj_keys_nodup _ _) hcover1 pq hpq
        rw [hfst] at h6
        have hval := (adj_mem_val _ _ pq hpq).1
        rw [hfst] at hval
        have h1 : res_sum (fun q => decide (q.product_id.id = pid))
            (quants.filter (gathers mls)) =
            res_sum (fun q => decide (q.product_id.id = pid) && gathers mls q) quants :=
          res_sum_filter _ _ _
        rw [h6, hval, h1]
      · have habs : ∀ pq ∈ (get_adjusted_quantities (quants.filter (gathers mls)) mls), pq.1 ≠ pid := by
          intro pq hpq h
          exact hkey (List.mem_map.mpr ⟨pq, hpq, h⟩)
        have h0 := swap_adjust_untouched_product (gathers mls) hPRI
          (get_adjusted_quantities (quants.filter (gathers mls)) mls) quants pid hnodup habs
        have hza := adj_absent (quants.filter (gathers mls)) mls pid habs
        have h1 : res_sum (fun q => decide (q.product_id.id = pid))
            (quants.filter (gathers mls)) =
            res_sum (fun q => decide (q.product_id.id = pid) && gathers mls q) quants :=
          res_sum_filter _ _ _
        rw [h1] at hza
        rw [h0, hza]
    exact s1.trans (s2.trans (s3.trans s4))
  have hB : res_sum (fun q => (decide (q.product_id.id = pid) && !(gathers mls q)) && decide (q.package_id = some scanned.id)) (swap_adjust_reserved_quantity (fun q => decide (q.package_id = some scanned.id)) ((swap_adjust_reserved_quantity (gathers mls) quants (get_adjusted_quantities (quants.filter (gathers mls)) mls)).1.map (fun q => if gathers mls q ∧ ¬ q.id ∈ (swap_adjust_reserved_quantity (gathers mls) quants (get_adjusted_quantities (quants.filter (gathers mls)) mls)).2 then { q with reserved_quantity := 0 } else q)) (all_products_quantities mls)).1 = mls_qty_sum pid mls := by
    have hsplit : res_sum (fun q => (decide (q.product_id.id = pid) && !(gathers mls q)) && decide (q.package_id = some scanned.id)) (swap_adjust_reserved_quantity (fun q => decide (q.package_id = some scanned.id)) ((swap_adjust_reserved_quantity (gathers mls) quants (get_adjusted_quantities (quants.filter (gathers mls)) mls)).1.map (fun q => if gathers mls q ∧ ¬ q.id ∈ (swap_adjust_reserved_quantity (gathers mls) quants (get_adjusted_quantities (quants.filter (gathers mls)) mls)).2 then { q with reserved_quantity := 0 } else q)) (all_products_quantities mls)).1 =
        res_sum (fun q => (fun q => (decide (q.product_id.id = pid) && !(gathers mls q)) && decide (q.package_id = some scanned.id)) q && decide (q.id ∈ (swap_adjust_reserved_quantity (fun q => decide (q.package_id = some scanned.id)) ((swap_adjust_reserved_quantity (gathers mls) quants (get_adjusted_quantities (quants.filter (gathers mls)) mls)).1.map (fun q => if gathers mls q ∧ ¬ q.id ∈ (swap_adjust_reserved_quantity (gathers mls) quants (get_adjusted_quantities (quants.filter (gathers mls)) mls)).2 then { q with reserved_quantity := 0 } else q)) (all_products_quantities mls)).2)) (swap_adjust_reserved_quantity (fun q => decide (q.package_id = some scanned.id)) ((swap_adjust_reserved_quantity (gathers mls) quants (get_adjusted_quantities (quants.filter (gathers mls)) mls)).1.map (fun q => if gathers mls q ∧ ¬ q.id ∈ (swap_adjust_reserved_quantity (gathers mls) quants (get_adjusted_quantities (quants.filter (gathers mls)) mls)).2 then { q with reserved_quantity := 0 } else q)) (all_products_quantities mls)).1 +
          res_sum (fun q => (fun q => (decide (q.product_id.id = pid) && !(gathers mls q)) && decide (q.package_id = some scanned.id)) q && !(decide (q.id ∈ (swap_adjust_reserved_quantity (fun q => decide (q.package_id = some scanned.id)) ((swap_adjust_reserved_quantity (gathers mls) quants (get_adjusted_quantities (quants.filter (gathers mls)) mls)).1.map (fun q => if gathers mls q ∧ ¬ q.id ∈ (swap_adjust_reserved_quantity (gathers mls) quants (get_adjusted_quantities (quants.filter (gathers mls)) mls)).2 then { q with reserved_quantity := 0 } else q)) (all_products_quantities mls)).2))) (swap_adjust_reserved_quantity (fun q => decide (q.package_id = some scanned.id)) ((swap_adjust_reserved_quantity (gathers mls) quants (get_adjusted_quantities (quants.filter (gathers mls)) mls)).1.map (fun q => if gathers mls q ∧ ¬ q.id ∈ (swap_adjust_reserved_quantity (gathers mls) quants (get_adjusted_quantities (quants.filter (gathers mls)) mls)).2 then { q with reserved_quantity := 0 } else q)) (all_products_quantities mls)).1 :=
      res_sum_split (fun q => (decide (q.product_id.id = pid) && !(gathers mls q)) && decide (q.package_id = some scanned.id)) (fun q => decide (q.id ∈ (swap_adjust_reserved_quantity (fun q => decide (q.package_id = some scanned.id)) ((swap_adjust_reserved_quantity (gathers mls) quants (get_adjusted_quantities (quants.filter (gathers mls)) mls)).1.map (fun q => if gathers mls q ∧ ¬ q.id ∈ (swap_adjust_reserved_quantity (gathers mls) quants (get_adjusted_quantities (quants.filter (gathers mls)) mls)).2 then { q with reserved_quantity := 0 } else q)) (all_products_quantities mls)).2)) (swap_adjust_reserved_quantity (fun q => decide (q.package_id = some scanned.id)) ((swap_adjust_reserved_quantity (gathers mls) quants (get_adjusted_quantities (quants.filter (gathers mls)) mls)).1.map (fun q => if gathers mls q ∧ ¬ q.id ∈ (swap_adjust_reserved_quantity (gathers mls) quants (get_adjusted_quantities (quants.filter (gathers mls)) mls)).2 then { q with reserved_quantity := 0 } else q)) (all_products_quantities mls)).1
    have huntouched : res_sum (fun q => (fun q => (decide (q.product_id.id = pid) && !(gathers mls q)) && decide (q.package_id = some scanned.id)) q &&
        !(decide (q.id ∈ (swap_adjust_reserved_quantity (fun q => decide (q.package_id = some scanned.id)) ((swap_adjust_reserved_quantity (gathers mls) quants (get_adjusted_quantities (quants.filter (gathers mls)) mls)).1.map (fun q => if gathers mls q ∧ ¬ q.id ∈ (swap_adjust_reserved_quantity (gathers mls) quants (get_adjusted_quantities (quants.filter (gathers mls)) mls)).2 then { q with reserved_quantity := 0 } else q)) (all_products_quantities mls)).2))) (swap_adjust_reserved_quantity (fun q => decide (q.package_id = some scanned.id)) ((swap_adjust_reserved_quantity (gathers mls) quants (get_adjusted_quantities (quants.filter (gathers mls)) mls)).1.map (fun q => if gathers mls q ∧ ¬ q.id ∈ (swap_adjust_reserved_quantity (gathers mls) quants (get_adjusted_quantities (quants.filter (gathers mls)) mls)).2 then { q with reserved_quantity := 0 } else q)) (all_products_quantities mls)).1 = 0 := by
      have u1 : res_sum (fun q => (fun q => (decide (q.product_id.id = pid) && !(gathers mls q)) && decide (q.package_id = some scanned.id)) q &&
          !(decide (q.id ∈ (swap_adjust_reserved_quantity (fun q => decide (q.package_id = some scanned.id)) ((swap_adjust_reserved_quantity (gathers mls) quants (get_adjusted_quantities (quants.filter (gathers mls)) mls)).1.map (fun q => if gathers mls q ∧ ¬ q.id ∈ (swap_adjust_reserved_quantity (gathers mls) quants (get_adjusted_quantities (quants.filter (gathers mls)) mls)).2 then { q with reserved_quantity := 0 } else q)) (all_products_quantities mls)).2))) (swap_adjust_reserved_quantity (fun q => decide (q.package_id = some scanned.id)) ((swap_adjust_reserved_quantity (gathers mls) quants (get_adjusted_quantities (quants.filter (gathers mls)) mls)).1.map (fun q => if gathers mls q ∧ ¬ q.id ∈ (swap_adjust_reserved_quantity (gathers mls) quants (get_adjusted_quantities (quants.filter (gathers mls)) mls)).2 then { q with reserved_quantity := 0 } else q)) (all_products_quantities mls)).1 =
          res_sum (fun q => (fun q => (decide (q.product_id.id = pid) && !(gathers mls q)) && decide (q.package_id = some scanned.id)) q &&
          !(decide (q.id ∈ (swap_adjust_reserved_quantity (fun q => decide (q.package_id = some scanned.id)) ((swap_adjust_reserved_quantity (gathers mls) quants (get_adjusted_quantities (quants.filter (gathers mls)) mls)).1.map (fun q => if gathers mls q ∧ ¬ q.id ∈ (swap_adjust_reserved_quantity (gathers mls) quants (get_adjusted_quantities (quants.filter (gathers mls)) mls)).2 then { q with reserved_quantity := 0 } else q)) (all_products_quantities mls)).2))) ((swap_adjust_reserved_quantity (gathers mls) quants (get_adjusted_quantities (quants.filter (gathers mls)) mls)).1.map (fun q => if gathers mls q ∧ ¬ q.id ∈ (swap_adjust_reserved_quantity (gathers mls) quants (get_adjusted_quantities (quants.filter (gathers mls)) mls)).2 then { q with reserved_quantity := 0 } else q)) := b7 hnodup3 (fun q => (decide (q.product_id.id = pid) && !(gathers mls q)) && decide (q.package_id = some scanned.id)) hc2RI
      have u2 : res_sum (fun q => (fun q => (decide (q.product_id.id = pid) && !(gathers mls q)) && decide (q.package_id = some scanned.id)) q && !(decide (q.id ∈ (swap_adjust_reserved_quantity (fun q => decide (q.package_id = some scanned.id)) ((swap_adjust_reserved_quantity (gathers mls) quants (get_adjusted_quantities (quants.filter (gathers mls)) mls)).1.map (fun q => if gathers mls q ∧ ¬ q.id ∈ (swap_adjust_reserved_quantity (gathers mls) quants (get_adjusted_quantities (quants.filter (gathers mls)) mls)).2 then { q with reserved_quantity := 0 } else q)) (all_products_quantities mls)).2))) ((swap_adjust_reserved_quantity (gathers mls) quants (get_adjusted_quantities (quants.filter (gathers mls)) mls)).1.map (fun q => if gathers mls q ∧ ¬ q.id ∈ (swap_adjust_reserved_quantity (gathers mls) quants (get_adjusted_quantities (quants.filter (gathers mls)) mls)).2 then { q with reserved_quantity := 0 } else q)) ≤
          res_sum (fun q => (decide (q.product_id.id = pid) && !(gathers mls q)) && decide (q.package_id = some scanned.id)) ((swap_adjust_reserved_quantity (gathers mls) quants (get_adjusted_quantities (quants.filter (gathers mls)) mls)).1.map (fun q => if gathers mls q ∧ ¬ q.id ∈ (swap_adjust_reserved_quantity (gathers mls) quants (get_adjusted_quantities (quants.filter (gathers mls)) mls)).2 then { q with reserved_quantity := 0 } else q)) :=
        res_sum_and_le (fun q => (decide (q.product_id.id = pid) && !(gathers mls q)) && decide (q.package_id = some scanned.id)) (fun q => !(decide (q.id ∈ (swap_adjust_reserved_quantity (fun q => decide (q.package_id = some scanned.id)) ((swap_adjust_reserved_quantity (gathers mls) quants (get_adjusted_quantities (quants.filter (gathers mls)) mls)).1.map (fun q => if gathers mls q ∧ ¬ q.id ∈ (swap_adjust_reserved_quantity (gathers mls) quants (get_adjusted_quantities (quants.filter (gathers mls)) mls)).2 then { q with reserved_quantity := 0 } else q)) (all_products_quantities mls)).2))) ((swap_adjust_reserved_quantity (gathers mls) quants (get_adjusted_quantities (quants.filter (gathers mls)) mls)).1.map (fun q => if gathers mls q ∧ ¬ q.id ∈ (swap_adjust_reserved_quantity (gathers mls) quants (get_adjusted_quantities (quants.filter (gathers mls)) mls)).2 then { q with reserved_quantity := 0 } else q))
      omega
    have htouched : res_sum (fun q => (fun q => (decide (q.product_id.id = pid) && !(gathers mls q)) && decide (q.package_id = some scanned.id)) q &&
        decide (q.id ∈ (swap_adjust_reserved_quantity (fun q => decide (q.package_id = some scanned.id)) ((swap_adjust_reserved_quantity (gathers mls) quants (get_adjusted_quantities (quants.filter (gathers mls)) mls)).1.map (fun q => if gathers mls q ∧ ¬ q.id ∈ (swap_adjust_reserved_quantity (gathers mls) quants (get_adjusted_quantities (quants.filter (gathers mls)) mls)).2 then { q with reserved_quantity := 0 } else q)) (all_products_quantities mls)).2)) (swap_adjust_reserved_quantity (fun q => decide (q.package_id = some scanned.id)) ((swap_adjust_reserved_quantity (gathers mls) quants (get_adjusted_quantities (quants.filter (gathers mls)) mls)).1.map (fun q => if gathers mls q ∧ ¬ q.id ∈ (swap_adjust_reserved_quantity (gathers mls) quants (get_adjusted_quantities (quants.filter (gathers mls)) mls)).2 then { q with reserved_quantity := 0 } else q)) (all_products_quantities mls)).1 = mls_qty_sum pid mls := by
      have t1 : res_sum (fun q => (fun q => (decide (q.product_id.id = pid) && !(gathers mls q)) && decide (q.package_id = some scanned.id)) q &&
          decide (q.id ∈ (swap_adjust_reserved_quantity (fun q => decide (q.package_id = some scanned.id)) ((swap_adjust_reserved_quantity (gathers mls) quants (get_adjusted_quantities (quants.filter (gathers mls)) mls)).1.map (fun q => if gathers mls q ∧ ¬ q.id ∈ (swap_adjust_reserved_quantity (gathers mls) quants (get_adjusted_quantities (quants.filter (gathers mls)) mls)).2 then { q with reserved_quantity := 0 } else q)) (all_products_quantities mls)).2)) (swap_adjust_reserved_quantity (fun q => decide (q.package_id = some scanned.id)) ((swap_adjust_reserved_quantity (gathers mls) quants (get_adjusted_quantities (quants.filter (gathers mls)) mls)).1.map (fun q => if gathers mls q ∧ ¬ q.id ∈ (swap_adjust_reserved_quantity (gathers mls) quants (get_adjusted_quantities (quants.filter (gathers mls)) mls)).2 then { q with reserved_quantity := 0 } else q)) (all_products_quantities mls)).1 =
          res_sum (fun q => (decide (q.package_id = some scanned.id) && decide (q.product_id.id = pid)) && decide (q.id ∈ (swap_adjust_reserved_quantity (fun q => decide (q.package_id = some scanned.id)) ((swap_adjust_reserved_quantity (gathers mls) quants (get_adjusted_quantities (quants.filter (gathers mls)) mls)).1.map (fun q => if gathers mls q ∧ ¬ q.id ∈ (swap_adjust_reserved_quantity (gathers mls) quants (get_adjusted_quantities (quants.filter (gathers mls)) mls)).2 then { q with reserved_quantity := 0 } else q)) (all_products_quantities mls)).2)) (swap_adjust_reserved_quantity (fun q => decide (q.package_id = some scanned.id)) ((swap_adjust_reserved_quantity (gathers mls) quants (get_adjusted_quantities (quants.filter (gathers mls)) mls)).1.map (fun q => if gathers mls q ∧ ¬ q.id ∈ (swap_adjust_reserved_quantity (gathers mls) quants (get_adjusted_quantities (quants.filter (gathers mls)) mls)).2 then { q with reserved_quantity := 0 } else q)) (all_products_quantities mls)).1 := by
        apply res_sum_congr
        intro q' hq'
        by_cases hsc : decide (q'.package_id = some scanned.id) = true
        · have hpq' : gathers mls q' = false := by
            cases hp : gathers mls q'
            · rfl
            · have := hPSC2 q' hq' hp
              rw [this] at hsc
              exact absurd hsc (by simp)
          simp [hsc, hpq']
        · have hsc' : decide (q'.package_id = some scanned.id) = false := by
            cases h : decide (q'.package_id = some scanned.id)
            · rfl
            · exact absurd h hsc
          simp [hsc']
      by_cases hkey2 : pid ∈ mls.map (fun ml => ml.product_id.id)
      · have hmem := aps_mem_of_pid mls pid hkey2
        have hcover2 : ∀ pq ∈ (all_products_quantities mls), pq.2 ≤
            qty_sum (fun q => decide (q.package_id = some scanned.id) &&
              decide (q.product_id.id = pq.1)) ((swap_adjust_reserved_quantity (gathers mls) quants (get_adjusted_quantities (quants.filter (gathers mls)) mls)).1.map (fun q => if gathers mls q ∧ ¬ q.id ∈ (swap_adjust_reserved_quantity (gathers mls) quants (get_adjusted_quantities (quants.filter (gathers mls)) mls)).2 then { q with reserved_quantity := 0 } else q)) := by
          intro pq hpq
          have hval := aps_mem_val mls pq hpq
          have hRI : ResIgnoring (fun q =>
              decide (q.package_id = some scanned.id) &&
              decide (q.product_id.id = pq.1)) :=
            resIgnoring_and _ _ (resIgnoring_package _) (resIgnoring_pid _)
          have g1 : qty_sum (fun q =>
              decide (q.package_id = some scanned.id) &&
              decide (q.product_id.id = pq.1)) ((swap_adjust_reserved_quantity (gathers mls) quants (get_adjusted_quantities (quants.filter (gathers mls)) mls)).1.map (fun q => if gathers mls q ∧ ¬ q.id ∈ (swap_adjust_reserved_quantity (gathers mls) quants (get_adjusted_quantities (quants.filter (gathers mls)) mls)).2 then { q with reserved_quantity := 0 } else q)) =
              qty_sum (fun q =>
              decide (q.package_id = some scanned.id) &&
              decide (q.product_id.id = pq.1)) (swap_adjust_reserved_quantity (gathers mls) quants (get_adjusted_quantities (quants.filter (gathers mls)) mls)).1 :=
            zero_map_qty (gathers mls) _ hRI (swap_adjust_reserved_quantity (gathers mls) quants (get_adjusted_quantities (quants.filter (gathers mls)) mls)).2 (swap_adjust_reserved_quantity (gathers mls) quants (get_adjusted_quantities (quants.filter (gathers mls)) mls)).1
          have g2 : qty_sum (fun q =>
              decide (q.package_id = some scanned.id) &&
              decide (q.product_id.id = pq.1)) (swap_adjust_reserved_quantity (gathers mls) quants (get_adjusted_quantities (quants.filter (gathers mls)) mls)).1 =
              qty_sum (fun q =>
              decide (q.package_id = some scanned.id) &&
              decide (q.product_id.id = pq.1)) quants := a3 _ hRI
          rw [hval, g1, g2]
          have hkey : pq.1 ∈ mls.map (fun ml => ml.product_id.id) := by
            obtain ⟨pid2, hpid2, he⟩ := List.mem_map.mp hpq
            have h1 : pq.1 = pid2 := (congrArg Prod.fst he).symm
            rw [h1]
            exact List.mem_dedup.mp hpid2
          exact hscancover pq.1 hkey
        have h6 := b6 hnodup3 (aps_keys_nodup mls) hcover2
          (pid, mls_qty_sum pid mls) hmem
        have t2 : res_sum (fun q => (decide (q.package_id = some scanned.id) && decide (q.product_id.id = pid)) && decide (q.id ∈ (swap_adjust_reserved_quantity (fun q => decide (q.package_id = some scanned.id)) ((swap_adjust_reserved_quantity (gathers mls) quants (get_adjusted_quantities (quants.filter (gathers mls)) mls)).1.map (fun q => if gathers mls q ∧ ¬ q.id ∈ (swap_adjust_reserved_quantity (gathers mls) quants (get_adjusted_quantities (quants.filter (gathers mls)) mls)).2 then { q with reserved_quantity := 0 } else q)) (all_products_quantities mls)).2)) (swap_adjust_reserved_quantity (fun q => decide (q.package_id = some scanned.id)) ((swap_adjust_reserved_quantity (gathers mls) quants (get_adjusted_quantities (quants.filter (gathers mls)) mls)).1.map (fun q => if gathers mls q ∧ ¬ q.id ∈ (swap_adjust_reserved_quantity (gathers mls) quants (get_adjusted_quantities (quants.filter (gathers mls)) mls)).2 then { q with reserved_quantity := 0 } else q)) (all_products_quantities mls)).1 = mls_qty_sum pid mls := h6
        exact t1.trans t2
      · have hM0 := mls_qty_zero_of_absent mls pid hkey2
        have habs2 : ∀ pq ∈ (all_products_quantities mls), pq.1 ≠ pid := by
          intro pq hpq h
          apply hkey2
          obtain ⟨pid2, hpid2, he⟩ := List.mem_map.mp hpq
          have : pq.1 = pid2 := by rw [← he]
          rw [← h, this]
          exact List.mem_dedup.mp hpid2
        have h0 := swap_adjust_untouched_product (fun q => decide (q.package_id = some scanned.id)) hSCRI
          (all_products_quantities mls) ((swap_adjust_reserved_quantity (gathers mls) quants (get_adjusted_quantities (quants.filter (gathers mls)) mls)).1.map (fun q => if gathers mls q ∧ ¬ q.id ∈ (swap_adjust_reserved_quantity (gathers mls) quants (get_adjusted_quantities (quants.filter (gathers mls)) mls)).2 then { q with reserved_quantity := 0 } else q)) pid hnodup3 habs2
        have t2 : res_sum (fun q => (decide (q.package_id = some scanned.id) && decide (q.product_id.id = pid)) && decide (q.id ∈ (swap_adjust_reserved_quantity (fun q => decide (q.package_id = some scanned.id)) ((swap_adjust_reserved_quantity (gathers mls) quants (get_adjusted_quantities (quants.filter (gathers mls)) mls)).1.map (fun q => if gathers mls q ∧ ¬ q.id ∈ (swap_adjust_reserved_quantity (gathers mls) quants (get_adjusted_quantities (quants.filter (gathers mls)) mls)).2 then { q with reserved_quantity := 0 } else q)) (all_products_quantities mls)).2)) (swap_adjust_reserved_quantity (fun q => decide (q.package_id = some scanned.id)) ((swap_adjust_reserved_quantity (gathers mls) quants (get_adjusted_quantities (quants.filter (gathers mls)) mls)).1.map (fun q => if gathers mls q ∧ ¬ q.id ∈ (swap_adjust_reserved_quantity (gathers mls) quants (get_adjusted_quantities (quants.filter (gathers mls)) mls)).2 then { q with reserved_quantity := 0 } else q)) (all_products_quantities mls)).1 = 0 := h0
        rw [t1, t2, hM0]
    omega
  have hB0 : res_sum (fun q => (decide (q.product_id.id = pid) && !(gathers mls q)) && decide (q.package_id = some scanned.id)) quants = 0 := by
    apply res_sum_zero
    intro q hq hc
    simp only [Bool.and_eq_true, decide_eq_true_eq] at hc
    exact hscan0 q hq hc.2
  have hsplitA : res_sum (fun q => decide (q.product_id.id = pid)) (swap_adjust_reserved_quantity (fun q => decide (q.package_id = some scanned.id)) ((swap_adjust_reserved_quantity (gathers mls) quants (get_adjusted_quantities (quants.filter (gathers mls)) mls)).1.map (fun q => if gathers mls q ∧ ¬ q.id ∈ (swap_adjust_reserved_quantity (gathers mls) quants (get_adjusted_quantities (quants.filter (gathers mls)) mls)).2 then { q with reserved_quantity := 0 } else q)) (all_products_quantities mls)).1 =
      res_sum (fun q => decide (q.product_id.id = pid) && gathers mls q) (swap_adjust_reserved_quantity (fun q => decide (q.package_id = some scanned.id)) ((swap_adjust_reserved_quantity (gathers mls) quants (get_adjusted_quantities (quants.filter (gathers mls)) mls)).1.map (fun q => if gathers mls q ∧ ¬ q.id ∈ (swap_adjust_reserved_quantity (gathers mls) quants (get_adjusted_quantities (quants.filter (gathers mls)) mls)).2 then { q with reserved_quantity := 0 } else q)) (all_products_quantities mls)).1 +
        (res_sum (fun q => (decide (q.product_id.id = pid) && !(gathers mls q)) && decide (q.package_id = some scanned.id)) (swap_adjust_reserved_quantity (fun q => decide (q.package_id = some scanned.id)) ((swap_adjust_reserved_quantity (gathers mls) quants (get_adjusted_quantities (quants.filter (gathers mls)) mls)).1.map (fun q => if gathers mls q ∧ ¬ q.id ∈ (swap_adjust_reserved_quantity (gathers mls) quants (get_adjusted_quantities (quants.filter (gathers mls)) mls)).2 then { q with reserved_quantity := 0 } else q)) (all_products_quantities mls)).1 + res_sum (fun q => (decide (q.product_id.id = pid) && !(gathers mls q)) && !(decide (q.package_id = some scanned.id))) (swap_adjust_reserved_quantity (fun q => decide (q.package_id = some scanned.id)) ((swap_adjust_reserved_quantity (gathers mls) quants (get_adjusted_quantities (quants.filter (gathers mls)) mls)).1.map (fun q => if gathers mls q ∧ ¬ q.id ∈ (swap_adjust_reserved_quantity (gathers mls) quants (get_adjusted_quantities (quants.filter (gathers mls)) mls)).2 then { q with reserved_quantity := 0 } else q)) (all_products_quantities mls)).1) := by
    rw [res_sum_split (fun q => decide (q.product_id.id = pid)) (gathers mls) (swap_adjust_reserved_quantity (fun q => decide (q.package_id = some scanned.id)) ((swap_adjust_reserved_quantity (gathers mls) quants (get_adjusted_quantities (quants.filter (gathers mls)) mls)).1.map (fun q => if gathers mls q ∧ ¬ q.id ∈ (swap_adjust_reserved_quantity (gathers mls) quants (get_adjusted_quantities (quants.filter (gathers mls)) mls)).2 then { q with reserved_quantity := 0 } else q)) (all_products_quantities mls)).1,
      res_sum_split (fun q => decide (q.product_id.id = pid) &&
        !(gathers mls q)) (fun q => decide (q.package_id = some scanned.id)) (swap_adjust_reserved_quantity (fun q => decide (q.package_id = some scanned.id)) ((swap_adjust_reserved_quantity (gathers mls) quants (get_adjusted_quantities (quants.filter (gathers mls)) mls)).1.map (fun q => if gathers mls q ∧ ¬ q.id ∈ (swap_adjust_reserved_quantity (gathers mls) quants (get_adjusted_quantities (quants.filter (gathers mls)) mls)).2 then { q with reserved_quantity := 0 } else q)) (all_products_quantities mls)).1]
  have hsplitB : res_sum (fun q => decide (q.product_id.id = pid)) quants =
      res_sum (fun q => decide (q.product_id.id = pid) && gathers mls q) quants +
        (res_sum (fun q => (decide (q.product_id.id = pid) && !(gathers mls q)) && decide (q.package_id = some scanned.id)) quants + res_sum (fun q => (decide (q.product_id.id = pid) && !(gathers mls q)) && !(decide (q.package_id = some scanned.id))) quants) := by
    rw [res_sum_split (fun q => decide (q.product_id.id = pid)) (gathers mls) quants,
      res_sum_split (fun q => decide (q.product_id.id = pid) &&
        !(gathers mls q)) (fun q => decide (q.package_id = some scanned.id)) quants]
  rw [hsplitA, hsplitB, hA, hB, hC, hB0]
  omega


/-- Swapping quant fields leaves id, product, quantity and reserved
quantity untouched. -/
theorem foldl_set_quant_field (g : QuantField → Option Nat) :
    ∀ (fields : List QuantField) (q : Quant),
    (fields.foldl (fun acc f => set_quant_field acc f (g f)) q).reserved_quantity
        = q.reserved_quantity ∧
    (fields.foldl (fun acc f => set_quant_field acc f (g f)) q).quantity
        = q.quantity ∧
    (fields.foldl (fun acc f => set_quant_field acc f (g f)) q).product_id
        = q.product_id := by
  intro fields
  induction fields with
  | nil => exact fun q => ⟨rfl, rfl, rfl⟩
  | cons f fs ih =>
      intro q
      have h := ih (set_quant_field q f (g f))
      have hres : (set_quant_field q f (g f)).reserved_quantity =
          q.reserved_quantity := by
        cases f <;> rfl
      have hqty : (set_quant_field q f (g f)).quantity = q.quantity := by
        cases f <;> rfl
      have hprod : (set_quant_field q f (g f)).product_id = q.product_id := by
        cases f <;> rfl
      exact ⟨h.1.trans hres, h.2.1.trans hqty, h.2.2.trans hprod⟩

/-- Quantity-to-do totals add over list append. -/
theorem mls_qty_sum_append (pid : Nat) (l1 l2 : List MoveLine) :
    mls_qty_sum pid (l1 ++ l2) = mls_qty_sum pid l1 + mls_qty_sum pid l2 := by
  simp [mls_qty_sum, List.filter_append]

/-- Moving lines onto another package keeps per-product quantity-to-do
totals. -/
theorem mls_qty_sum_pack_write (pid : Nat) (mls : List MoveLine) (p : Package) :
    mls_qty_sum pid (mls.map (fun ml =>
        { ml with package_id := some p, result_package_id := some p })) =
      mls_qty_sum pid mls := by
  induction mls with
  | nil => rfl
  | cons ml mls ih =>
      simp only [List.map_cons, mls_qty_sum, List.filter_cons] at *
      cases hc : decide (ml.product_id.id = pid)
      · simpa [hc] using ih
      · simp only [hc, if_pos, List.map_cons, List.sum_cons]
        simp [ih]

/-- Moving lines onto another package via `_update_move_lines_and_log_swap`
keeps per-product quantity-to-do totals. -/
theorem mls_qty_sum_update_swap (pid : Nat) (mls : List MoveLine) (p : Package) :
    mls_qty_sum pid (update_move_lines_swap mls p) = mls_qty_sum pid mls :=
  mls_qty_sum_pack_write pid mls p

/-- One line's contribution to the per-product quantity total. -/
theorem mls_qty_sum_cons (pid : Nat) (ml : MoveLine) (l : List MoveLine) :
    mls_qty_sum pid (ml :: l) =
      (if ml.product_id.id = pid then ml.product_uom_qty else 0) +
        mls_qty_sum pid l := by
  simp only [mls_qty_sum, List.filter_cons]
  by_cases h : ml.product_id.id = pid
  · simp [h]
  · simp [h]

/-- `mls_can_fulfil` step equation: an exhausted product's line is
skipped. -/
theorem mls_can_fulfil_core_zero (caps : List (Nat × Nat)) (nid : Nat)
    (ml : MoveLine) (rest : List MoveLine)
    (h0 : cap_lookup caps ml.product_id.id = 0) :
    mls_can_fulfil_core caps nid (ml :: rest) =
      mls_can_fulfil_core caps nid rest := by
  simp only [mls_can_fulfil_core]
  rw [if_pos h0]

/-- `mls_can_fulfil` step equation: a line within the remaining capacity
is fulfilled whole. -/
theorem mls_can_fulfil_core_take (caps : List (Nat × Nat)) (nid : Nat)
    (ml : MoveLine) (rest : List MoveLine)
    (h0 : ¬ cap_lookup caps ml.product_id.id = 0)
    (h1 : ml.product_uom_qty ≤ cap_lookup caps ml.product_id.id) :
    mls_can_fulfil_core caps nid (ml :: rest) =
      (ml :: (mls_can_fulfil_core (cap_update caps ml.product_id.id (cap_lookup caps ml.product_id.id - ml.product_uom_qty)) nid rest).1,
       (mls_can_fulfil_core (cap_update caps ml.product_id.id (cap_lookup caps ml.product_id.id - ml.product_uom_qty)) nid rest).2.1,
       (mls_can_fulfil_core (cap_update caps ml.product_id.id (cap_lookup caps ml.product_id.id - ml.product_uom_qty)) nid rest).2.2) := by
  simp only [mls_can_fulfil_core]
  rw [if_neg h0, if_pos h1]

/-- `mls_can_fulfil` step equation: a line over the remaining capacity
is split. -/
theorem mls_can_fulfil_core_split (caps : List (Nat × Nat)) (nid : Nat)
    (ml : MoveLine) (rest : List MoveLine)
    (h0 : ¬ cap_lookup caps ml.product_id.id = 0)
    (h1 : ¬ ml.product_uom_qty ≤ cap_lookup caps ml.product_id.id) :
    mls_can_fulfil_core caps nid (ml :: rest) =
      ({ ml with product_uom_qty := cap_lookup caps ml.product_id.id } ::
          (mls_can_fulfil_core (cap_update caps ml.product_id.id 0) (nid + 1) rest).1,
       { ml with id := nid, product_uom_qty := ml.product_uom_qty - cap_lookup caps ml.product_id.id, qty_done := 0 } ::
          (mls_can_fulfil_core (cap_update caps ml.product_id.id 0) (nid + 1) rest).2.1,
       (mls_can_fulfil_core (cap_update caps ml.product_id.id 0) (nid + 1) rest).2.2) := by
  simp only [mls_can_fulfil_core]
  rw [if_neg h0, if_neg h1]

/-- Fulfilled component of the take step. -/
theorem mls_can_fulfil_core_take_fst (caps : List (Nat × Nat)) (nid : Nat)
    (ml : MoveLine) (rest : List MoveLine)
    (h0 : ¬ cap_lookup caps ml.product_id.id = 0)
    (h1 : ml.product_uom_qty ≤ cap_lookup caps ml.product_id.id) :
    (mls_can_fulfil_core caps nid (ml :: rest)).1 =
      ml :: (mls_can_fulfil_core (cap_update caps ml.product_id.id (cap_lookup caps ml.product_id.id - ml.product_uom_qty)) nid rest).1 := by
  rw [mls_can_fulfil_core_take caps nid ml rest h0 h1]

/-- Excess component of the take step. -/
theorem mls_can_fulfil_core_take_exc (caps : List (Nat × Nat)) (nid : Nat)
    (ml : MoveLine) (rest : List MoveLine)
    (h0 : ¬ cap_lookup caps ml.product_id.id = 0)
    (h1 : ml.product_uom_qty ≤ cap_lookup caps ml.product_id.id) :
    (mls_can_fulfil_core caps nid (ml :: rest)).2.1 =
      (mls_can_fulfil_core (cap_update caps ml.product_id.id (cap_lookup caps ml.product_id.id - ml.product_uom_qty)) nid rest).2.1 := by
  rw [mls_can_fulfil_core_take caps nid ml rest h0 h1]

/-- Counter component of the take step. -/
theorem mls_can_fulfil_core_take_nid (caps : List (Nat × Nat)) (nid : Nat)
    (ml : MoveLine) (rest : List MoveLine)
    (h0 : ¬ cap_lookup caps ml.product_id.id = 0)
    (h1 : ml.product_uom_qty ≤ cap_lookup caps ml.product_id.id) :
    (mls_can_fulfil_core caps nid (ml :: rest)).2.2 =
      (mls_can_fulfil_core (cap_update caps ml.product_id.id (cap_lookup caps ml.product_id.id - ml.product_uom_qty)) nid rest).2.2 := by
  rw [mls_can_fulfil_core_take caps nid ml rest h0 h1]

/-- Fulfilled component of the split step. -/
theorem mls_can_fulfil_core_split_fst (caps : List (Nat × Nat)) (nid : Nat)
    (ml : MoveLine) (rest : List MoveLine)
    (h0 : ¬ cap_lookup caps ml.product_id.id = 0)
    (h1 : ¬ ml.product_uom_qty ≤ cap_lookup caps ml.product_id.id) :
    (mls_can_fulfil_core caps nid (ml :: rest)).1 =
      { ml with product_uom_qty := cap_lookup caps ml.product_id.id } ::
        (mls_can_fulfil_core (cap_update caps ml.product_id.id 0) (nid + 1) rest).1 := by
  rw [mls_can_fulfil_core_split caps nid ml rest h0 h1]

/-- Excess component of the split step. -/
theorem mls_can_fulfil_core_split_exc (caps : List (Nat × Nat)) (nid : Nat)
    (ml : MoveLine) (rest : List MoveLine)
    (h0 : ¬ cap_lookup caps ml.product_id.id = 0)
    (h1 : ¬ ml.product_uom_qty ≤ cap_lookup caps ml.product_id.id) :
    (mls_can_fulfil_core caps nid (ml :: rest)).2.1 =
      { ml with id := nid, product_uom_qty := ml.product_uom_qty - cap_lookup caps ml.product_id.id, qty_done := 0 } ::
        (mls_can_fulfil_core (cap_update caps ml.product_id.id 0) (nid + 1) rest).2.1 := by
  rw [mls_can_fulfil_core_split caps nid ml rest h0 h1]

/-- Counter component of the split step. -/
theorem mls_can_fulfil_core_split_nid (caps : List (Nat × Nat)) (nid : Nat)
    (ml : MoveLine) (rest : List MoveLine)
    (h0 : ¬ cap_lookup caps ml.product_id.id = 0)
    (h1 : ¬ ml.product_uom_qty ≤ cap_lookup caps ml.product_id.id) :
    (mls_can_fulfil_core caps nid (ml :: rest)).2.2 =
      (mls_can_fulfil_core (cap_update caps ml.product_id.id 0) (nid + 1) rest).2.2 := by
  rw [mls_can_fulfil_core_split caps nid ml rest h0 h1]

/-- A fulfilled line keeps an input line's id. -/
theorem mls_can_fulfil_core_fst_ids (mls : List MoveLine) :
    ∀ caps nid, ∀ m ∈ (mls_can_fulfil_core caps nid mls).1,
      m.id ∈ mls.map (fun x => x.id) := by
  induction mls with
  | nil => intro caps nid m hm; simp [mls_can_fulfil_core] at hm
  | cons ml rest ih =>
      intro caps nid m hm
      rw [List.map_cons]
      by_cases h0 : cap_lookup caps ml.product_id.id = 0
      · rw [mls_can_fulfil_core_zero caps nid ml rest h0] at hm
        exact List.mem_cons_of_mem _ (ih caps nid m hm)
      · by_cases h1 : ml.product_uom_qty ≤ cap_lookup caps ml.product_id.id
        · rw [mls_can_fulfil_core_take_fst caps nid ml rest h0 h1] at hm
          rcases List.mem_cons.mp hm with heq | hm2
          · rw [heq]
            exact List.mem_cons_self _ _
          · exact List.mem_cons_of_mem _ (ih _ nid m hm2)
        · rw [mls_can_fulfil_core_split_fst caps nid ml rest h0 h1] at hm
          rcases List.mem_cons.mp hm with heq | hm2
          · rw [heq]
            exact List.mem_cons_self _ _
          · exact List.mem_cons_of_mem _ (ih _ (nid + 1) m hm2)

/-- The excess lines of `mls_can_fulfil` carry fresh, distinct ids drawn
from the counter, which never decreases. -/
theorem mls_can_fulfil_core_excess (mls : List MoveLine) :
    ∀ caps nid,
      nid ≤ (mls_can_fulfil_core caps nid mls).2.2 ∧
      ((mls_can_fulfil_core caps nid mls).2.1.map (fun m => m.id)).Nodup ∧
      ∀ m ∈ (mls_can_fulfil_core caps nid mls).2.1,
        nid ≤ m.id ∧ m.id < (mls_can_fulfil_core caps nid mls).2.2 := by
  induction mls with
  | nil =>
      intro caps nid
      refine ⟨le_refl _, by simp [mls_can_fulfil_core], ?_⟩
      intro m hm
      simp [mls_can_fulfil_core] at hm
  | cons ml rest ih =>
      intro caps nid
      by_cases h0 : cap_lookup caps ml.product_id.id = 0
      · rw [mls_can_fulfil_core_zero caps nid ml rest h0]
        exact ih caps nid
      · by_cases h1 : ml.product_uom_qty ≤ cap_lookup caps ml.product_id.id
        · rw [mls_can_fulfil_core_take_exc caps nid ml rest h0 h1,
            mls_can_fulfil_core_take_nid caps nid ml rest h0 h1]
          exact ih _ nid
        · rw [mls_can_fulfil_core_split_exc caps nid ml rest h0 h1,
            mls_can_fulfil_core_split_nid caps nid ml rest h0 h1]
          obtain ⟨hle, hnd, hbd⟩ := ih (cap_update caps ml.product_id.id 0) (nid + 1)
          refine ⟨le_trans (Nat.le_succ nid) hle, ?_, ?_⟩
          · rw [List.map_cons, List.nodup_cons]
            refine ⟨?_, hnd⟩
            intro hin
            rcases List.mem_map.mp hin with ⟨m, hm, hmid⟩
            have h2 := (hbd m hm).1
            have h3 : m.id = nid := hmid
            omega
          · intro m hm
            rcases List.mem_cons.mp hm with heq | hm2
            · rw [heq]
              exact ⟨le_refl _, hle⟩
            · have h3 := hbd m hm2
              exact ⟨le_trans (Nat.le_succ nid) h3.1, h3.2⟩

/-- `mls_can_fulfil` conserves per-product quantity to do: the fulfilled
lines, the candidates left over (input lines not fulfilled) and the
excess lines together carry the input's total. -/
theorem mls_can_fulfil_core_conserves (pid : Nat) (mls : List MoveLine) :
    ∀ caps nid, (mls.map (fun m => m.id)).Nodup →
      mls_qty_sum pid (mls_can_fulfil_core caps nid mls).1 +
        mls_qty_sum pid (mls.filter (fun x =>
          ¬ x.id ∈ (mls_can_fulfil_core caps nid mls).1.map (fun m => m.id))) +
        mls_qty_sum pid (mls_can_fulfil_core caps nid mls).2.1 =
      mls_qty_sum pid mls := by
  induction mls with
  | nil => intro caps nid _; simp [mls_can_fulfil_core, mls_qty_sum]
  | cons ml rest ih =>
      intro caps nid hnodup
      have hnotin : ¬ ml.id ∈ rest.map (fun m => m.id) := by
        simp only [List.map_cons, List.nodup_cons] at hnodup
        simpa using hnodup.1
      have hnd : (rest.map (fun m => m.id)).Nodup := by
        simp only [List.map_cons, List.nodup_cons] at hnodup
        exact hnodup.2
      by_cases h0 : cap_lookup caps ml.product_id.id = 0
      · rw [mls_can_fulfil_core_zero caps nid ml rest h0]
        have hkept : ¬ ml.id ∈ (mls_can_fulfil_core caps nid rest).1.map
            (fun m => m.id) := by
          intro hin
          rcases List.mem_map.mp hin with ⟨m, hm, hmid⟩
          exact hnotin (hmid ▸ mls_can_fulfil_core_fst_ids rest caps nid m hm)
        rw [List.filter_cons, if_pos (by simpa using hkept)]
        rw [mls_qty_sum_cons, mls_qty_sum_cons]
        have hih := ih caps nid hnd
        omega
      · by_cases h1 : ml.product_uom_qty ≤ cap_lookup caps ml.product_id.id
        · rw [mls_can_fulfil_core_take_fst caps nid ml rest h0 h1,
            mls_can_fulfil_core_take_exc caps nid ml rest h0 h1]
          rw [List.filter_cons, if_neg (by simp)]
          have hcong : rest.filter (fun x =>
              ¬ x.id ∈ (ml :: (mls_can_fulfil_core (cap_update caps ml.product_id.id (cap_lookup caps ml.product_id.id - ml.product_uom_qty)) nid rest).1).map
                (fun m => m.id)) =
              rest.filter (fun x =>
                ¬ x.id ∈ ((mls_can_fulfil_core (cap_update caps ml.product_id.id (cap_lookup caps ml.product_id.id - ml.product_uom_qty)) nid rest).1).map
                  (fun m => m.id)) := by
            apply List.filter_congr
            intro x hx
            have hxne : ¬ x.id = ml.id := by
              intro he
              exact hnotin (he ▸ List.mem_map.mpr ⟨x, hx, rfl⟩)
            simp [List.map_cons, List.mem_cons, hxne]
          rw [hcong]
          rw [mls_qty_sum_cons, mls_qty_sum_cons]
          have hih := ih (cap_update caps ml.product_id.id (cap_lookup caps ml.product_id.id - ml.product_uom_qty)) nid hnd
          omega
        · rw [mls_can_fulfil_core_split_fst caps nid ml rest h0 h1,
            mls_can_fulfil_core_split_exc caps nid ml rest h0 h1]
          rw [List.filter_cons, if_neg (by simp)]
          have hcong : rest.filter (fun x =>
              ¬ x.id ∈ ({ ml with product_uom_qty := cap_lookup caps ml.product_id.id } ::
                (mls_can_fulfil_core (cap_update caps ml.product_id.id 0) (nid + 1) rest).1).map
                (fun m => m.id)) =
              rest.filter (fun x =>
                ¬ x.id ∈ ((mls_can_fulfil_core (cap_update caps ml.product_id.id 0) (nid + 1) rest).1).map
                  (fun m => m.id)) := by
            apply List.filter_congr
            intro x hx
            have hxne : ¬ x.id = ml.id := by
              intro he
              exact hnotin (he ▸ List.mem_map.mpr ⟨x, hx, rfl⟩)
            simp [List.map_cons, List.mem_cons, hxne]
          rw [hcong]
          simp only [mls_qty_sum_cons]
          have hih := ih (cap_update caps ml.product_id.id 0) (nid + 1) hnd
          by_cases hpp : ml.product_id.id = pid
          · rw [if_pos hpp, if_pos hpp, if_pos hpp]
            omega
          · rw [if_neg hpp, if_neg hpp, if_neg hpp]
            omega

/-- The `_swap_package_contents` distribution loop conserves per-product
quantity to do over the swapped and candidate lines, given candidate
ids distinct and below the fresh-id counter. -/
theorem swap_contents_fold_conserves (pid : Nat) (quants : List Quant)
    (packs : List Package) :
    ∀ acc : List MoveLine × List MoveLine × Nat,
      (acc.2.1.map (fun m => m.id)).Nodup →
      (∀ m ∈ acc.2.1, m.id < acc.2.2) →
      mls_qty_sum pid (packs.foldl (swap_contents_step quants) acc).1 +
        mls_qty_sum pid (packs.foldl (swap_contents_step quants) acc).2.1 =
      mls_qty_sum pid acc.1 + mls_qty_sum pid acc.2.1 := by
  induction packs with
  | nil => intro acc _ _; rfl
  | cons pack packs ih =>
      intro acc hnd hbd
      rw [List.foldl_cons]
      obtain ⟨hle, hexcnd, hexcbd⟩ := mls_can_fulfil_core_excess acc.2.1
        (pack_product_caps quants pack) acc.2.2
      have hstep1 : (swap_contents_step quants acc pack).1 =
          acc.1 ++ update_move_lines_swap
            ((mls_can_fulfil_core (pack_product_caps quants pack) acc.2.2 acc.2.1).1)
            pack := rfl
      have hstep21 : (swap_contents_step quants acc pack).2.1 =
          acc.2.1.filter (fun x =>
            ¬ x.id ∈ ((mls_can_fulfil_core (pack_product_caps quants pack)
              acc.2.2 acc.2.1).1).map (fun m => m.id)) ++
          (mls_can_fulfil_core (pack_product_caps quants pack) acc.2.2 acc.2.1).2.1 := rfl
      have hstep22 : (swap_contents_step quants acc pack).2.2 =
          (mls_can_fulfil_core (pack_product_caps quants pack) acc.2.2 acc.2.1).2.2 := rfl
      have hnd2 : ((swap_contents_step quants acc pack).2.1.map (fun m => m.id)).Nodup := by
        rw [hstep21, List.map_append]
        apply List.Nodup.append
        · exact ((List.filter_sublist _).map _).nodup hnd
        · exact hexcnd
        · intro a ha hb
          rcases List.mem_map.mp ha with ⟨m, hm, rfl⟩
          rcases List.mem_map.mp hb with ⟨m2, hm2, hmid⟩
          have h1 := hbd m (List.mem_of_mem_filter hm)
          have h2 := (hexcbd m2 hm2).1
          omega
      have hbd2 : ∀ m ∈ (swap_contents_step quants acc pack).2.1,
          m.id < (swap_contents_step quants acc pack).2.2 := by
        intro m hm
        rw [hstep21] at hm
        rw [hstep22]
        rcases List.mem_append.mp hm with h | h
        · exact lt_of_lt_of_le (hbd m (List.mem_of_mem_filter h)) hle
        · exact (hexcbd m h).2
      have hih := ih (swap_contents_step quants acc pack) hnd2 hbd2
      rw [hih, hstep1, hstep21]
      rw [mls_qty_sum_append, mls_qty_sum_append, mls_qty_sum_update_swap]
      have hc := mls_can_fulfil_core_conserves pid acc.2.1
        (pack_product_caps quants pack) acc.2.2 hnd
      omega


/-- Claim C4: the package-swap operations conserve per-product totals.
Splitting a move line by quantity (`_split_by_qty`) keeps the line's
product and total quantity to do; splitting a quant during field
swapping (`_split_quant_swap_field`) keeps the products and the total
quantity and reserved quantity of the quants involved; an
entire-package swap (`_swap_entire_package`, both the reserved-reserved
branch and the `_swap_unreserved` branch) reassigns the
move-line-to-package associations while keeping, for each product, the
total reserved quantity over the quant table and the total quantity to
do over the affected move lines, under the stock invariants (reserved
within quantity, unique quant ids, expected quants disjoint from the
scanned package, scanned package unreserved, demand covered both by the
expected reservation and by the scanned package's stock); and a
content swap (`_swap_package_contents`, distributing the scanned
package's lines over the expected packages with splits, or the
`_swap_unreserved` branch) likewise keeps both per-product totals,
given non-overlapping sides and distinct scanned line ids below the
fresh-id base. -/
theorem swap_conserves_per_product
    (ml : MoveLine) (qty newId : Nat)
    (smaller larger : Quant) (fields : List QuantField) (nqId : Nat)
    (quants : List Quant) (scanned expected : Package)
    (expected_packages : List Package) (nid2 : Nat)
    (scanned_pack_mls exp_pack_mls : List MoveLine) (pid : Nat)
    (hle : smaller.quantity ≤ larger.quantity)
    (hrq : ∀ q ∈ quants, q.reserved_quantity ≤ q.quantity)
    (hnodup : (quants.map (fun q => q.id)).Nodup)
    (hdisj : ∀ q ∈ quants, gathers exp_pack_mls q = true →
        ¬ q.package_id = some scanned.id)
    (hscan0 : ∀ q ∈ quants, q.package_id = some scanned.id →
        q.reserved_quantity = 0)
    (hresle : mls_qty_sum pid exp_pack_mls ≤
        res_sum (fun q => decide (q.product_id.id = pid) &&
          gathers exp_pack_mls q) quants)
    (hscancover : ∀ pid2 ∈ exp_pack_mls.map (fun ml => ml.product_id.id),
        mls_qty_sum pid2 exp_pack_mls ≤
        qty_sum (fun q => decide (q.package_id = some scanned.id) &&
          decide (q.product_id.id = pid2)) quants)
    (hml_disj : scanned_pack_mls.filter (fun ml =>
        ml.id ∈ exp_pack_mls.map (fun m => m.id)) = [])
    (hsnodup : (scanned_pack_mls.map (fun m => m.id)).Nodup)
    (hsbound : ∀ m ∈ scanned_pack_mls, m.id < nid2) :
    (∀ a ob, split_by_qty ml qty newId = Except.ok (a, ob) →
        a.product_uom_qty +
          (match ob with | some b => b.product_uom_qty | none => 0) =
          ml.product_uom_qty ∧
        a.product_id = ml.product_id ∧
        (∀ b, ob = some b → b.product_id = ml.product_id)) ∧
    ((split_quant_swap_field smaller larger fields nqId).1.reserved_quantity +
        ((split_quant_swap_field smaller larger fields nqId).2.1.reserved_quantity +
          (split_quant_swap_field smaller larger fields nqId).2.2.reserved_quantity) =
        smaller.reserved_quantity + larger.reserved_quantity ∧
      (split_quant_swap_field smaller larger fields nqId).1.quantity +
        ((split_quant_swap_field smaller larger fields nqId).2.1.quantity +
          (split_quant_swap_field smaller larger fields nqId).2.2.quantity) =
        smaller.quantity + larger.quantity ∧
      (split_quant_swap_field smaller larger fields nqId).1.product_id =
        smaller.product_id ∧
      (split_quant_swap_field smaller larger fields nqId).2.1.product_id =
        larger.product_id ∧
      (split_quant_swap_field smaller larger fields nqId).2.2.product_id =
        larger.product_id) ∧
    (∀ res, swap_entire_package quants scanned expected scanned_pack_mls
          exp_pack_mls = Except.ok res →
        res_sum (fun q => decide (q.product_id.id = pid)) res.1 =
          res_sum (fun q => decide (q.product_id.id = pid)) quants ∧
        mls_qty_sum pid res.2 =
          mls_qty_sum pid (exp_pack_mls ++ scanned_pack_mls)) ∧
    (∀ res2, swap_package_contents quants scanned expected_packages
          scanned_pack_mls exp_pack_mls nid2 = Except.ok res2 →
        res_sum (fun q => decide (q.product_id.id = pid)) res2.1 =
          res_sum (fun q => decide (q.product_id.id = pid)) quants ∧
        mls_qty_sum pid res2.2 =
          mls_qty_sum pid (exp_pack_mls ++ scanned_pack_mls)) := by
  refine ⟨?_, ?_, ?_, ?_⟩
  · intro a ob h
    simp only [split_by_qty] at h
    split_ifs at h with h1 h2 h3
    · rw [Except.ok.injEq, Prod.mk.injEq] at h
      obtain ⟨ha, hb⟩ := h
      subst ha
      subst hb
      refine ⟨?_, rfl, ?_⟩
      · first
          | (show ml.product_uom_qty - qty + qty = ml.product_uom_qty; omega)
          | (show ml.product_uom_qty + 0 = ml.product_uom_qty; omega)
      · intro b hbeq
        first
          | (injection hbeq with h4; rw [← h4])
          | simp at hbeq
    · rw [Except.ok.injEq, Prod.mk.injEq] at h
      obtain ⟨ha, hb⟩ := h
      subst ha
      subst hb
      refine ⟨?_, rfl, ?_⟩
      · first
          | (show ml.product_uom_qty - qty + qty = ml.product_uom_qty; omega)
          | (show ml.product_uom_qty + 0 = ml.product_uom_qty; omega)
      · intro b hbeq
        first
          | (injection hbeq with h4; rw [← h4])
          | simp at hbeq
    · rw [Except.ok.injEq, Prod.mk.injEq] at h
      obtain ⟨ha, hb⟩ := h
      subst ha
      subst hb
      refine ⟨?_, rfl, ?_⟩
      · first
          | (show ml.product_uom_qty - qty + qty = ml.product_uom_qty; omega)
          | (show ml.product_uom_qty + 0 = ml.product_uom_qty; omega)
      · intro b hbeq
        first
          | (injection hbeq with h4; rw [← h4])
          | simp at hbeq
  · have h1 := foldl_set_quant_field (get_quant_field larger) fields smaller
    have h2 := foldl_set_quant_field (get_quant_field smaller) fields
      (quant_split larger smaller.quantity nqId).2
    have e1 : (split_quant_swap_field smaller larger fields nqId).1.reserved_quantity =
        smaller.reserved_quantity := h1.1
    have e2 : (split_quant_swap_field smaller larger fields nqId).2.1.reserved_quantity =
        larger.reserved_quantity := rfl
    have e3 : (split_quant_swap_field smaller larger fields nqId).2.2.reserved_quantity =
        0 := h2.1
    have e4 : (split_quant_swap_field smaller larger fields nqId).1.quantity =
        smaller.quantity := h1.2.1
    have e5 : (split_quant_swap_field smaller larger fields nqId).2.1.quantity =
        larger.quantity - smaller.quantity := rfl
    have e6 : (split_quant_swap_field smaller larger fields nqId).2.2.quantity =
        smaller.quantity := h2.2.1
    refine ⟨?_, ?_, h1.2.2, rfl, h2.2.2⟩
    · rw [e1, e2, e3]
      omega
    · rw [e4, e5, e6]
      omega
  · intro res h
    simp only [swap_entire_package] at h
    split_ifs at h with h1 h2
    · rw [Except.ok.injEq] at h
      constructor
      · rw [← h]
      · rw [← h]
        show mls_qty_sum pid (update_move_lines_swap exp_pack_mls scanned ++
            update_move_lines_swap scanned_pack_mls expected) = _
        rw [mls_qty_sum_append, mls_qty_sum_append]
        have u1 : mls_qty_sum pid (update_move_lines_swap exp_pack_mls scanned) =
            mls_qty_sum pid exp_pack_mls :=
          mls_qty_sum_pack_write pid exp_pack_mls scanned
        have u2 : mls_qty_sum pid (update_move_lines_swap scanned_pack_mls expected) =
            mls_qty_sum pid scanned_pack_mls :=
          mls_qty_sum_pack_write pid scanned_pack_mls expected
        rw [u1, u2]
    · rw [Except.ok.injEq] at h
      have hscanempty : scanned_pack_mls = [] := by
        by_contra hne
        exact h1 ⟨hne, h2⟩
      subst h
      constructor
      · exact swap_unreserved_conserves quants scanned exp_pack_mls pid
          hrq hnodup hdisj hscan0 hresle hscancover
      · show mls_qty_sum pid (exp_pack_mls.map (fun ml => { ml with package_id := some scanned, result_package_id := some scanned })) = _
        rw [mls_qty_sum_pack_write, hscanempty, List.append_nil]
  · intro res2 h
    simp only [swap_package_contents] at h
    have hdd : (if scanned_pack_mls ≠ [] ∧ exp_pack_mls ≠ [] ∧
          (scanned_pack_mls.filter (fun ml =>
            ml.id ∈ exp_pack_mls.map (fun m => m.id))) ≠ [] then
        scanned_pack_mls.filter (fun ml => ¬ ml.id ∈ exp_pack_mls.map (fun m => m.id))
      else scanned_pack_mls) = scanned_pack_mls := by
      rw [if_neg]
      intro hcon
      exact hcon.2.2 hml_disj
    rw [hdd] at h
    split_ifs at h with h1 h2
    · rw [Except.ok.injEq] at h
      constructor
      · rw [← h]
      · rw [← h]
        show mls_qty_sum pid (update_move_lines_swap exp_pack_mls scanned ++
            ((expected_packages.foldl (swap_contents_step quants)
                ([], scanned_pack_mls, nid2)).1 ++
              (expected_packages.foldl (swap_contents_step quants)
                ([], scanned_pack_mls, nid2)).2.1)) = _
        rw [mls_qty_sum_append, mls_qty_sum_append, mls_qty_sum_update_swap,
          mls_qty_sum_append]
        have hfold : mls_qty_sum pid (expected_packages.foldl
              (swap_contents_step quants) ([], scanned_pack_mls, nid2)).1 +
            mls_qty_sum pid (expected_packages.foldl
              (swap_contents_step quants) ([], scanned_pack_mls, nid2)).2.1 =
            mls_qty_sum pid ([] : List MoveLine) +
              mls_qty_sum pid scanned_pack_mls :=
          swap_contents_fold_conserves pid quants expected_packages
            ([], scanned_pack_mls, nid2) hsnodup hsbound
        have hz : mls_qty_sum pid ([] : List MoveLine) = 0 := rfl
        omega
    · rw [Except.ok.injEq] at h
      have hscanempty : scanned_pack_mls = [] := by
        by_contra hne
        exact h1 ⟨hne, h2⟩
      subst h
      constructor
      · exact swap_unreserved_conserves quants scanned exp_pack_mls pid
          hrq hnodup hdisj hscan0 hresle hscancover
      · show mls_qty_sum pid (exp_pack_mls.map (fun ml => { ml with package_id := some scanned, result_package_id := some scanned })) = _
        rw [mls_qty_sum_pack_write, hscanempty, List.append_nil]


/-- Closed instance of the swap conservation theorem on a two-quant
table: an unreserved-package swap of one four-unit line keeps the
product's reserved total and quantity to do. -/
theorem swap_conserves_per_product_witness :
    res_sum (fun q => decide (q.product_id.id = 40))
        (swap_unreserved [{ id := 1, product_id := { id := 40 }, package_id := some 2, location_id := 5, quantity := 4, reserved_quantity := 4 }, { id := 2, product_id := { id := 40 }, package_id := some 3, location_id := 5, quantity := 4, reserved_quantity := 0 }] { id := 3, name := "SP", location_id := 5 } [{ id := 9, picking_id := { id := 7, state := PickState.assigned, picking_type_id := { id := 8 } }, product_id := { id := 40 }, package_id := some { id := 2, name := "EP", location_id := 5 }, location_id := { id := 5 }, product_uom_qty := 4 }]).1 =
      res_sum (fun q => decide (q.product_id.id = 40)) [{ id := 1, product_id := { id := 40 }, package_id := some 2, location_id := 5, quantity := 4, reserved_quantity := 4 }, { id := 2, product_id := { id := 40 }, package_id := some 3, location_id := 5, quantity := 4, reserved_quantity := 0 }] ∧
    mls_qty_sum 40 (swap_unreserved [{ id := 1, product_id := { id := 40 }, package_id := some 2, location_id := 5, quantity := 4, reserved_quantity := 4 }, { id := 2, product_id := { id := 40 }, package_id := some 3, location_id := 5, quantity := 4, reserved_quantity := 0 }] { id := 3, name := "SP", location_id := 5 } [{ id := 9, picking_id := { id := 7, state := PickState.assigned, picking_type_id := { id := 8 } }, product_id := { id := 40 }, package_id := some { id := 2, name := "EP", location_id := 5 }, location_id := { id := 5 }, product_uom_qty := 4 }]).2 =
      mls_qty_sum 40 ([{ id := 9, picking_id := { id := 7, state := PickState.assigned, picking_type_id := { id := 8 } }, product_id := { id := 40 }, package_id := some { id := 2, name := "EP", location_id := 5 }, location_id := { id := 5 }, product_uom_qty := 4 }] ++ []) :=
  (swap_conserves_per_product { id := 10, picking_id := { id := 7, state := PickState.assigned, picking_type_id := { id := 8 } }, product_id := { id := 40 }, location_id := { id := 5 }, product_uom_qty := 5, ordered_qty := 5 } 2 100 { id := 20, product_id := { id := 40 }, quantity := 1, reserved_quantity := 1 } { id := 21, product_id := { id := 40 }, quantity := 3, reserved_quantity := 2 } [QuantField.package] 101
    [{ id := 1, product_id := { id := 40 }, package_id := some 2, location_id := 5, quantity := 4, reserved_quantity := 4 }, { id := 2, product_id := { id := 40 }, package_id := some 3, location_id := 5, quantity := 4, reserved_quantity := 0 }] { id := 3, name := "SP", location_id := 5 } { id := 2, name := "EP", location_id := 5 } [{ id := 2, name := "EP", location_id := 5 }] 100 [] [{ id := 9, picking_id := { id := 7, state := PickState.assigned, picking_type_id := { id := 8 } }, product_id := { id := 40 }, package_id := some { id := 2, name := "EP", location_id := 5 }, location_id := { id := 5 }, product_uom_qty := 4 }] 40
    (by decide) (by decide) (by decide) (by decide) (by decide) (by decide)
    (by decide) (by decide) (by decide) (by decide)).2.2.1
    (swap_unreserved [{ id := 1, product_id := { id := 40 }, package_id := some 2, location_id := 5, quantity := 4, reserved_quantity := 4 }, { id := 2, product_id := { id := 40 }, package_id := some 3, location_id := 5, quantity := 4, reserved_quantity := 0 }] { id := 3, name := "SP", location_id := 5 } [{ id := 9, picking_id := { id := 7, state := PickState.assigned, picking_type_id := { id := 8 } }, product_id := { id := 40 }, package_id := some { id := 2, name := "EP", location_id := 5 }, location_id := { id := 5 }, product_uom_qty := 4 }]) rfl


/-- A move id present in the table is found by the lookup of the
backorder fold. -/
theorem head_filter_some (mT : List Move) (mid : Nat)
    (h : ∃ mv ∈ mT, mv.id = mid) :
    ∃ mv0, ((mT.filter (fun mv => mv.id = mid)).head? = some mv0) ∧
      mv0.id = mid := by
  obtain ⟨mv, hmem, hid⟩ := h
  have hne : mT.filter (fun mv => decide (mv.id = mid)) ≠ [] := by
    intro hnil
    have hin : mv ∈ mT.filter (fun mv => decide (mv.id = mid)) :=
      List.mem_filter.mpr ⟨hmem, by simpa using hid⟩
    rw [hnil] at hin
    simp at hin
  cases hfe : mT.filter (fun mv => decide (mv.id = mid)) with
  | nil => exact absurd hfe hne
  | cons x xs =>
      have hx : x ∈ mT.filter (fun mv => decide (mv.id = mid)) := by
        rw [hfe]
        exact List.mem_cons_self _ _
      exact ⟨x, rfl, by simpa using (List.mem_filter.mp hx).2⟩

/-- Reassigning the parent move of selected lines keeps every line id. -/
theorem reassign_map_ids (nid : Nat) (isel : List Nat) (l : List MoveLine) :
    (l.map (fun ml => if ml.id ∈ isel then { ml with move_id := nid } else ml)).map
        (fun ml => ml.id) = l.map (fun ml => ml.id) := by
  induction l with
  | nil => rfl
  | cons ml l ih =>
      simp only [List.map_cons, ih]
      by_cases h : ml.id ∈ isel
      · rw [if_pos h]
      · rw [if_neg h]

/-- Reassigning the parent move of selected lines alters at most the
line's move id. -/
theorem reassign_corr (nid : Nat) (isel : List Nat) (l : List MoveLine) :
    ∀ L ∈ l.map (fun ml => if ml.id ∈ isel then
        { ml with move_id := nid } else ml),
      ∃ ml ∈ l, L = { ml with move_id := L.move_id } := by
  intro L hL
  obtain ⟨ml, hml, he⟩ := List.mem_map.mp hL
  refine ⟨ml, hml, ?_⟩
  by_cases h : ml.id ∈ isel
  · rw [if_pos h] at he
    rw [← he]
  · rw [if_neg h] at he
    rw [← he]

/-- Moving selected lines into the destination picking keeps every line
id. -/
theorem pickwrite_map_ids (dest : Picking) (sel : List Nat) (l : List MoveLine) :
    (l.map (fun ml => if ml.move_id ∈ sel then
        { ml with picking_id := dest } else ml)).map (fun ml => ml.id)
      = l.map (fun ml => ml.id) := by
  induction l with
  | nil => rfl
  | cons ml l ih =>
      simp only [List.map_cons, ih]
      by_cases h : ml.move_id ∈ sel
      · rw [if_pos h]
      · rw [if_neg h]


/-- Invariant of the move-splitting fold of `_backorder_movelines`: line
ids are preserved, each line is its original up to the parent move id,
after all rounds every given line's move is among the collected new
moves, and every line of a collected move is one of the given lines. -/
theorem backorder_fold_inv (mls all_mls : List MoveLine) (base : Nat)
    (hsub : ∀ m ∈ mls, m ∈ all_mls)
    (hnodup : (all_mls.map (fun ml => ml.id)).Nodup) :
    ∀ (todo ids : List Nat) (mT : List Move) (lT : List MoveLine) (nx : Nat),
    todo.Nodup →
    (∀ mid ∈ todo, mid < base) →
    lT.map (fun ml => ml.id) = all_mls.map (fun ml => ml.id) →
    (∀ L ∈ lT, ∃ ml ∈ all_mls, L = { ml with move_id := L.move_id }) →
    (∀ L ∈ lT, ∀ ml ∈ all_mls, ml.id = L.id →
        L.id ∈ mls.map (fun m => m.id) →
        (ml.move_id ∈ todo → L.move_id = ml.move_id) ∧
        (¬ ml.move_id ∈ todo → L.move_id ∈ ids)) →
    (∀ i ∈ ids, ∀ L ∈ lT, L.move_id = i → L.id ∈ mls.map (fun m => m.id)) →
    (∀ i ∈ ids, ¬ i ∈ todo) →
    (∀ mid ∈ todo, ∃ mv ∈ mT, mv.id = mid) →
    (base ≤ nx ∧ (∀ L ∈ lT, L.move_id < nx) ∧ (∀ i ∈ ids, i < nx)) →
    ((List.foldl (fun (acc : List Nat × List Move × List MoveLine × Nat) mid =>
      match (acc.2.1.filter (fun mv => mv.id = mid)).head? with
      | none => acc
      | some mv =>
        let s := split_out_move_lines mv (mls.filter (fun ml => ml.move_id = mid))
          acc.2.1 acc.2.2.1 acc.2.2.2
        (acc.1 ++ [s.1], s.2.1, s.2.2, acc.2.2.2 + 1)) (ids, mT, lT, nx) todo).2.2.1.map (fun ml => ml.id) = all_mls.map (fun ml => ml.id)) ∧
    (∀ L ∈ (List.foldl (fun (acc : List Nat × List Move × List MoveLine × Nat) mid =>
      match (acc.2.1.filter (fun mv => mv.id = mid)).head? with
      | none => acc
      | some mv =>
        let s := split_out_move_lines mv (mls.filter (fun ml => ml.move_id = mid))
          acc.2.1 acc.2.2.1 acc.2.2.2
        (acc.1 ++ [s.1], s.2.1, s.2.2, acc.2.2.2 + 1)) (ids, mT, lT, nx) todo).2.2.1, ∃ ml ∈ all_mls,
        L = { ml with move_id := L.move_id }) ∧
    (∀ L ∈ (List.foldl (fun (acc : List Nat × List Move × List MoveLine × Nat) mid =>
      match (acc.2.1.filter (fun mv => mv.id = mid)).head? with
      | none => acc
      | some mv =>
        let s := split_out_move_lines mv (mls.filter (fun ml => ml.move_id = mid))
          acc.2.1 acc.2.2.1 acc.2.2.2
        (acc.1 ++ [s.1], s.2.1, s.2.2, acc.2.2.2 + 1)) (ids, mT, lT, nx) todo).2.2.1, L.id ∈ mls.map (fun m => m.id) → L.move_id ∈ (List.foldl (fun (acc : List Nat × List Move × List MoveLine × Nat) mid =>
      match (acc.2.1.filter (fun mv => mv.id = mid)).head? with
      | none => acc
      | some mv =>
        let s := split_out_move_lines mv (mls.filter (fun ml => ml.move_id = mid))
          acc.2.1 acc.2.2.1 acc.2.2.2
        (acc.1 ++ [s.1], s.2.1, s.2.2, acc.2.2.2 + 1)) (ids, mT, lT, nx) todo).1) ∧
    (∀ i ∈ (List.foldl (fun (acc : List Nat × List Move × List MoveLine × Nat) mid =>
      match (acc.2.1.filter (fun mv => mv.id = mid)).head? with
      | none => acc
      | some mv =>
        let s := split_out_move_lines mv (mls.filter (fun ml => ml.move_id = mid))
          acc.2.1 acc.2.2.1 acc.2.2.2
        (acc.1 ++ [s.1], s.2.1, s.2.2, acc.2.2.2 + 1)) (ids, mT, lT, nx) todo).1, ∀ L ∈ (List.foldl (fun (acc : List Nat × List Move × List MoveLine × Nat) mid =>
      match (acc.2.1.filter (fun mv => mv.id = mid)).head? with
      | none => acc
      | some mv =>
        let s := split_out_move_lines mv (mls.filter (fun ml => ml.move_id = mid))
          acc.2.1 acc.2.2.1 acc.2.2.2
        (acc.1 ++ [s.1], s.2.1, s.2.2, acc.2.2.2 + 1)) (ids, mT, lT, nx) todo).2.2.1, L.move_id = i →
        L.id ∈ mls.map (fun m => m.id)) := by
  intro todo
  induction todo with
  | nil =>
      intro ids mT lT nx _ _ h1 h2 h4 h5 _ _ _
      refine ⟨h1, h2, ?_, h5⟩
      intro L hL hmem
      obtain ⟨ml, hml, he⟩ := h2 L hL
      have hid : ml.id = L.id := by rw [he]
      exact (h4 L hL ml hml hid hmem).2 (by simp)
  | cons mid todo ih =>
      intro ids mT lT nx htodoN hmidlt h1 h2 h4 h5 h6 h7 h8
      have hinj := List.inj_on_of_nodup_map hnodup
      obtain ⟨mv0, hhead, hmv0⟩ :=
        head_filter_some mT mid (h7 mid (List.mem_cons_self _ _))
      have htN := List.nodup_cons.mp htodoN
      have hs : (match ((ids, mT, lT, nx).2.1.filter
            (fun mv => mv.id = mid)).head? with
          | none => (ids, mT, lT, nx)
          | some mv =>
            let s := split_out_move_lines mv (mls.filter (fun ml => ml.move_id = mid))
              (ids, mT, lT, nx).2.1 (ids, mT, lT, nx).2.2.1 (ids, mT, lT, nx).2.2.2
            ((ids, mT, lT, nx).1 ++ [s.1], s.2.1, s.2.2, (ids, mT, lT, nx).2.2.2 + 1)) =
          (ids ++ [(split_out_move_lines mv0 (mls.filter (fun ml => ml.move_id = mid)) mT lT nx).1], (split_out_move_lines mv0 (mls.filter (fun ml => ml.move_id = mid)) mT lT nx).2.1, (split_out_move_lines mv0 (mls.filter (fun ml => ml.move_id = mid)) mT lT nx).2.2, nx + 1) := by
        show (match (mT.filter (fun mv => mv.id = mid)).head? with
              | none => ((ids, mT, lT, nx) :
                  List Nat × List Move × List MoveLine × Nat)
              | some mv =>
                (ids ++ [(split_out_move_lines mv (mls.filter (fun ml => ml.move_id = mid)) mT lT nx).1],
                 (split_out_move_lines mv (mls.filter (fun ml => ml.move_id = mid)) mT lT nx).2.1,
                 (split_out_move_lines mv (mls.filter (fun ml => ml.move_id = mid)) mT lT nx).2.2,
                 nx + 1)) =
            (ids ++ [(split_out_move_lines mv0 (mls.filter (fun ml => ml.move_id = mid)) mT lT nx).1], (split_out_move_lines mv0 (mls.filter (fun ml => ml.move_id = mid)) mT lT nx).2.1, (split_out_move_lines mv0 (mls.filter (fun ml => ml.move_id = mid)) mT lT nx).2.2, nx + 1)
        rw [hhead]
      have hfold : (List.foldl (fun (acc : List Nat × List Move × List MoveLine × Nat) mid =>
      match (acc.2.1.filter (fun mv => mv.id = mid)).head? with
      | none => acc
      | some mv =>
        let s := split_out_move_lines mv (mls.filter (fun ml => ml.move_id = mid))
          acc.2.1 acc.2.2.1 acc.2.2.2
        (acc.1 ++ [s.1], s.2.1, s.2.2, acc.2.2.2 + 1)) (ids, mT, lT, nx) (mid :: todo)) =
          List.foldl (fun (acc : List Nat × List Move × List MoveLine × Nat) mid =>
      match (acc.2.1.filter (fun mv => mv.id = mid)).head? with
      | none => acc
      | some mv =>
        let s := split_out_move_lines mv (mls.filter (fun ml => ml.move_id = mid))
          acc.2.1 acc.2.2.1 acc.2.2.2
        (acc.1 ++ [s.1], s.2.1, s.2.2, acc.2.2.2 + 1)) (ids ++ [(split_out_move_lines mv0 (mls.filter (fun ml => ml.move_id = mid)) mT lT nx).1], (split_out_move_lines mv0 (mls.filter (fun ml => ml.move_id = mid)) mT lT nx).2.1, (split_out_move_lines mv0 (mls.filter (fun ml => ml.move_id = mid)) mT lT nx).2.2, nx + 1) todo := by
        rw [List.foldl_cons, hs]
      rw [hfold]
      by_cases hcov : same_records (lT.filter (fun ml => ml.move_id = mv0.id))
          (mls.filter (fun ml => ml.move_id = mid)) = true
      · have hSval : (split_out_move_lines mv0 (mls.filter (fun ml => ml.move_id = mid)) mT lT nx) = (mv0.id, mT, lT) := by
          simp only [split_out_move_lines, if_pos hcov]
        rw [hSval]
        apply ih (ids ++ [mv0.id]) mT lT (nx + 1) htN.2
          (fun m hm => hmidlt m (List.mem_cons_of_mem _ hm)) h1 h2
        · intro L hL ml hml hid hmem
          obtain ⟨hA, hB⟩ := h4 L hL ml hml hid hmem
          constructor
          · intro hin
            exact hA (List.mem_cons_of_mem _ hin)
          · intro hnin
            by_cases hmid2 : ml.move_id = mid
            · have := hA (by rw [hmid2]; exact List.mem_cons_self _ _)
              rw [this, hmid2, ← hmv0]
              simp
            · have : ¬ ml.move_id ∈ mid :: todo := by
                simp only [List.mem_cons, not_or]
                exact ⟨hmid2, hnin⟩
              exact List.mem_append_left _ (hB this)
        · intro i hi L hL hLmv
          rcases List.mem_append.mp hi with h' | h'
          · exact h5 i h' L hL hLmv
          · have hieq : i = mv0.id := by simpa using h'
            have hLfil : L ∈ lT.filter (fun ml => ml.move_id = mv0.id) :=
              List.mem_filter.mpr ⟨hL, by simp [hLmv, hieq]⟩
            have hLid : L.id ∈ (lT.filter (fun ml =>
                ml.move_id = mv0.id)).map (fun ml => ml.id) :=
              List.mem_map.mpr ⟨L, hLfil, rfl⟩
            simp only [same_records, Bool.and_eq_true, List.all_eq_true] at hcov
            have := hcov.1 L.id (by simpa using hLid)
            simp only [decide_eq_true_eq] at this
            have h2' : L.id ∈ (mls.filter (fun ml => ml.move_id = mid)).map (fun ml => ml.id) := by simpa using this
            obtain ⟨m2, hm2, hm2id⟩ := List.mem_map.mp h2'
            exact List.mem_map.mpr ⟨m2, List.mem_of_mem_filter hm2, hm2id⟩
        · intro i hi
          rcases List.mem_append.mp hi with h' | h'
          · exact fun hin => h6 i h' (List.mem_cons_of_mem _ hin)
          · have hieq : i = mv0.id := by simpa using h'
            intro hin
            apply htN.1
            rw [← hmv0, ← hieq]
            exact hin
        · intro m hm
          exact h7 m (List.mem_cons_of_mem _ hm)
        · refine ⟨Nat.le_succ_of_le h8.1, ?_, ?_⟩
          · intro L hL
            exact Nat.lt_succ_of_lt (h8.2.1 L hL)
          · intro i hi
            rcases List.mem_append.mp hi with h' | h'
            · exact Nat.lt_succ_of_lt (h8.2.2 i h')
            · have hieq : i = mv0.id := by simpa using h'
              rw [hieq, hmv0]
              exact Nat.lt_succ_of_lt (Nat.lt_of_lt_of_le
                (hmidlt mid (List.mem_cons_self _ _)) h8.1)
      · have hSval : (split_out_move_lines mv0 (mls.filter (fun ml => ml.move_id = mid)) mT lT nx) =
            (nx,
             mT.map (fun m => if m.id = mv0.id then
                { m with product_uom_qty := m.product_uom_qty -
                  ((mls.filter (fun ml => ml.move_id = mid)).map (fun ml => ml.product_uom_qty)).sum } else m) ++
               [{ mv0 with id := nx, product_uom_qty :=
                  ((mls.filter (fun ml => ml.move_id = mid)).map (fun ml => ml.product_uom_qty)).sum }],
             lT.map (fun ml => if ml.id ∈ (mls.filter (fun ml => ml.move_id = mid)).map (fun m2 => m2.id) then
                { ml with move_id := nx } else ml)) := by
          simp only [split_out_move_lines, if_neg hcov]
        rw [hSval]
        have hcur_mem : ∀ (i : Nat), i ∈ (mls.filter (fun ml => ml.move_id = mid)).map (fun m2 => m2.id) →
            ∃ m ∈ mls, m.move_id = mid ∧ m.id = i := by
          intro i hi
          obtain ⟨m2, hm2, hm2id⟩ := List.mem_map.mp hi
          have hm2' := List.mem_filter.mp hm2
          exact ⟨m2, hm2'.1, by simpa using hm2'.2, hm2id⟩
        apply ih (ids ++ [nx]) _ _ (nx + 1) htN.2
          (fun m hm => hmidlt m (List.mem_cons_of_mem _ hm))
        · exact (reassign_map_ids nx ((mls.filter (fun ml => ml.move_id = mid)).map (fun m2 => m2.id)) lT).trans h1
        · intro L hL
          obtain ⟨L0, hL0, he0⟩ :=
            reassign_corr nx ((mls.filter (fun ml => ml.move_id = mid)).map (fun m2 => m2.id)) lT L hL
          obtain ⟨ml, hml, he1⟩ := h2 L0 hL0
          refine ⟨ml, hml, ?_⟩
          rw [he0, he1]
        · intro L hL ml hml hid hmem
          obtain ⟨L0, hL0, he0⟩ := List.mem_map.mp hL
          by_cases hc : L0.id ∈ (mls.filter (fun ml => ml.move_id = mid)).map (fun m2 => m2.id)
          · rw [if_pos hc] at he0
            have hLid : L.id = L0.id := by rw [← he0]
            have hmlmid : ml.move_id = mid := by
              obtain ⟨m, hm, hmmid, hmid2⟩ := hcur_mem L0.id hc
              have : m = ml := hinj (hsub m hm) hml (by rw [hmid2, ← hLid, hid])
              rw [← this]
              exact hmmid
            constructor
            · intro hin
              exact absurd (hmlmid ▸ hin) htN.1
            · intro _
              rw [← he0]
              simp
          · rw [if_neg hc] at he0
            rw [← he0]
            rw [← he0] at hid hmem
            obtain ⟨hA, hB⟩ := h4 L0 hL0 ml hml hid hmem
            constructor
            · intro hin
              exact hA (List.mem_cons_of_mem _ hin)
            · intro hnin
              by_cases hmid2 : ml.move_id = mid
              · exfalso
                apply hc
                have hL0mls : ∃ m ∈ mls, m.id = L0.id := by
                  obtain ⟨m, hm, hmid3⟩ := List.mem_map.mp hmem
                  exact ⟨m, hm, hmid3⟩
                obtain ⟨m, hm, hmid3⟩ := hL0mls
                have hmeq : m = ml := hinj (hsub m hm) hml (by rw [hmid3, hid])
                refine List.mem_map.mpr ⟨m, ?_, hmid3⟩
                exact List.mem_filter.mpr ⟨hm, by simp [hmeq, hmid2]⟩
              · have : ¬ ml.move_id ∈ mid :: todo := by
                  simp only [List.mem_cons, not_or]
                  exact ⟨hmid2, hnin⟩
                exact List.mem_append_left _ (hB this)
        · intro i hi L hL hLmv
          obtain ⟨L0, hL0, he0⟩ := List.mem_map.mp hL
          rcases List.mem_append.mp hi with h' | h'
          · by_cases hc : L0.id ∈ (mls.filter (fun ml => ml.move_id = mid)).map (fun m2 => m2.id)
            · rw [if_pos hc] at he0
              have : L.move_id = nx := by rw [← he0]
              rw [this] at hLmv
              have := h8.2.2 i h'
              omega
            · rw [if_neg hc] at he0
              rw [← he0] at hLmv ⊢
              exact h5 i h' L0 hL0 hLmv
          · have hieq : i = nx := by simpa using h'
            by_cases hc : L0.id ∈ (mls.filter (fun ml => ml.move_id = mid)).map (fun m2 => m2.id)
            · rw [if_pos hc] at he0
              have hLid : L.id = L0.id := by rw [← he0]
              rw [hLid]
              obtain ⟨m, hm, _, hmid2⟩ := hcur_mem L0.id hc
              exact List.mem_map.mpr ⟨m, hm, hmid2⟩
            · rw [if_neg hc] at he0
              rw [← he0] at hLmv
              have := h8.2.1 L0 hL0
              omega
        · intro i hi
          rcases List.mem_append.mp hi with h' | h'
          · exact fun hin => h6 i h' (List.mem_cons_of_mem _ hin)
          · have hieq : i = nx := by simpa using h'
            intro hin
            have := hmidlt i (List.mem_cons_of_mem _ hin)
            omega
        · intro m hm
          obtain ⟨mv, hmv, hmvid⟩ := h7 m (List.mem_cons_of_mem _ hm)
          refine ⟨if mv.id = mv0.id then
              { mv with product_uom_qty := mv.product_uom_qty -
                ((mls.filter (fun ml => ml.move_id = mid)).map (fun ml => ml.product_uom_qty)).sum } else mv, ?_, ?_⟩
          · apply List.mem_append_left
            exact List.mem_map.mpr ⟨mv, hmv, rfl⟩
          · by_cases hc : mv.id = mv0.id
            · rw [if_pos hc]
              exact hmvid
            · rw [if_neg hc]
              exact hmvid
        · refine ⟨Nat.le_succ_of_le h8.1, ?_, ?_⟩
          · intro L hL
            obtain ⟨L0, hL0, he0⟩ := List.mem_map.mp hL
            by_cases hc : L0.id ∈ (mls.filter (fun ml => ml.move_id = mid)).map (fun m2 => m2.id)
            · rw [if_pos hc] at he0
              rw [← he0]
              exact Nat.lt_succ_self _
            · rw [if_neg hc] at he0
              rw [← he0]
              exact Nat.lt_succ_of_lt (h8.2.1 L0 hL0)
          · intro i hi
            rcases List.mem_append.mp hi with h' | h'
            · exact Nat.lt_succ_of_lt (h8.2.2 i h')
            · have hieq : i = nx := by simpa using h'
              omega


/-- Claim C8: for every picking and non-empty subset of its move lines,
`_backorder_movelines` creates a new picking linked to the original via
`backorder_id` and moves exactly the given move lines into it (splitting
their parent moves when only partially covered), leaving the remaining
lines with their original picking; it raises a ValidationError exactly
when the given lines are disjoint from the picking's lines; and
`_requires_backorder` holds exactly when some non-cancelled move of the
picking is missing from the lines' moves, is not fully covered by the
given lines, or has an unfinished originating move. -/
theorem backorder_movelines_spec
    (p : Picking) (moves : List Move) (all_mls mls : List MoveLine)
    (newPickingId newMoveIdBase : Nat)
    (hsub : ∀ m ∈ mls, m ∈ all_mls)
    (hnodup : (all_mls.map (fun ml => ml.id)).Nodup)
    (hfresh : ∀ ml ∈ all_mls, ml.move_id < newMoveIdBase)
    (hmoves : ∀ m ∈ mls, ∃ mv ∈ moves, mv.id = m.move_id) :
    ((mls.filter (fun ml => ml.id ∈ (all_mls.filter
        (fun m2 => m2.picking_id.id = p.id)).map (fun m2 => m2.id))) = [] ↔
      backorder_movelines p moves all_mls mls newPickingId newMoveIdBase =
        Except.error "There are no move lines within picking to backorder") ∧
    (∀ dest moves2 mls2,
      backorder_movelines p moves all_mls mls newPickingId newMoveIdBase =
        Except.ok (dest, moves2, mls2) →
      dest.backorder_id = some p.id ∧
      mls2.map (fun ml => ml.id) = all_mls.map (fun ml => ml.id) ∧
      (∀ L ∈ mls2, L.id ∈ mls.map (fun m => m.id) → L.picking_id = dest) ∧
      (∀ L ∈ mls2, ¬ L.id ∈ mls.map (fun m => m.id) →
        ∃ ml ∈ all_mls, L.id = ml.id ∧ L.picking_id = ml.picking_id ∧
          L.product_uom_qty = ml.product_uom_qty)) ∧
    (requires_backorder p moves all_mls mls = true ↔
      ∃ mv ∈ moves, mv.picking_id = p.id ∧ mv.state ≠ PickState.cancel ∧
        (¬ mv.id ∈ mls.map (fun ml => ml.move_id) ∨
         ¬ same_records (all_mls.filter (fun ml => ml.move_id = mv.id))
            (mls.filter (fun ml => ml.move_id = mv.id)) = true ∨
         (mv.move_orig_ids.filter (fun o => o.state ≠ PickState.done ∧
            o.state ≠ PickState.cancel)) ≠ [])) := by
  have hinj := List.inj_on_of_nodup_map hnodup
  refine ⟨?_, ?_, ?_⟩
  · constructor
    · intro hg
      simp only [backorder_movelines, if_pos hg]
    · intro he
      by_contra hg
      simp only [backorder_movelines, if_neg hg] at he
      simp at he
  · intro dest moves2 mls2 h
    simp only [backorder_movelines] at h
    split_ifs at h with hguard
    rw [Except.ok.injEq, Prod.mk.injEq, Prod.mk.injEq] at h
    obtain ⟨hd, hm, hl⟩ := h
    subst hd
    subst hm
    subst hl
    obtain ⟨c1, c2, c3, c4⟩ :=
      backorder_fold_inv mls all_mls newMoveIdBase hsub hnodup
        ((mls.map (fun ml => ml.move_id)).dedup) [] moves all_mls newMoveIdBase
        (List.nodup_dedup _)
        (by
          intro mid hmid
          obtain ⟨m, hm2, hm2id⟩ := List.mem_map.mp (List.mem_dedup.mp hmid)
          rw [← hm2id]
          exact hfresh m (hsub m hm2))
        rfl
        (fun L hL => ⟨L, hL, rfl⟩)
        (by
          intro L hL ml hml hid hmem
          have hml2 : ml = L := hinj hml hL hid
          constructor
          · intro _
            rw [hml2]
          · intro hnin
            exfalso
            apply hnin
            obtain ⟨m, hm2, hm2id⟩ := List.mem_map.mp hmem
            have hmL : m = L := hinj (hsub m hm2) hL hm2id
            rw [hml2, ← hmL]
            exact List.mem_dedup.mpr (List.mem_map.mpr ⟨m, hm2, rfl⟩))
        (by
          intro i hi
          simp at hi)
        (by
          intro i hi
          simp at hi)
        (by
          intro mid hmid
          obtain ⟨m, hm2, hm2id⟩ := List.mem_map.mp (List.mem_dedup.mp hmid)
          obtain ⟨mv, hmv, hmvid⟩ := hmoves m hm2
          exact ⟨mv, hmv, by rw [hmvid, hm2id]⟩)
        ⟨Nat.le_refl _, fun L hL => hfresh L hL, by
          intro i hi
          simp at hi⟩
    refine ⟨rfl, ?_, ?_, ?_⟩
    · exact (pickwrite_map_ids { p with id := newPickingId, backorder_id := some p.id } (List.foldl (fun (acc : List Nat × List Move × List MoveLine × Nat) mid =>
        match (acc.2.1.filter (fun mv => mv.id = mid)).head? with
        | none => acc
        | some mv =>
          let s := split_out_move_lines mv (mls.filter (fun ml => ml.move_id = mid))
            acc.2.1 acc.2.2.1 acc.2.2.2
          (acc.1 ++ [s.1], s.2.1, s.2.2, acc.2.2.2 + 1)) ([], moves, all_mls, newMoveIdBase) ((mls.map (fun ml => ml.move_id)).dedup)).1 (List.foldl (fun (acc : List Nat × List Move × List MoveLine × Nat) mid =>
        match (acc.2.1.filter (fun mv => mv.id = mid)).head? with
        | none => acc
        | some mv =>
          let s := split_out_move_lines mv (mls.filter (fun ml => ml.move_id = mid))
            acc.2.1 acc.2.2.1 acc.2.2.2
          (acc.1 ++ [s.1], s.2.1, s.2.2, acc.2.2.2 + 1)) ([], moves, all_mls, newMoveIdBase) ((mls.map (fun ml => ml.move_id)).dedup)).2.2.1).trans c1
    · intro L hL hmem
      obtain ⟨L0, hL0, he0⟩ := List.mem_map.mp hL
      have hLid : L.id = L0.id := by
        by_cases hc : L0.move_id ∈ (List.foldl (fun (acc : List Nat × List Move × List MoveLine × Nat) mid =>
        match (acc.2.1.filter (fun mv => mv.id = mid)).head? with
        | none => acc
        | some mv =>
          let s := split_out_move_lines mv (mls.filter (fun ml => ml.move_id = mid))
            acc.2.1 acc.2.2.1 acc.2.2.2
          (acc.1 ++ [s.1], s.2.1, s.2.2, acc.2.2.2 + 1)) ([], moves, all_mls, newMoveIdBase) ((mls.map (fun ml => ml.move_id)).dedup)).1
        · rw [if_pos hc] at he0
          rw [← he0]
        · rw [if_neg hc] at he0
          rw [← he0]
      have hc : L0.move_id ∈ (List.foldl (fun (acc : List Nat × List Move × List MoveLine × Nat) mid =>
        match (acc.2.1.filter (fun mv => mv.id = mid)).head? with
        | none => acc
        | some mv =>
          let s := split_out_move_lines mv (mls.filter (fun ml => ml.move_id = mid))
            acc.2.1 acc.2.2.1 acc.2.2.2
          (acc.1 ++ [s.1], s.2.1, s.2.2, acc.2.2.2 + 1)) ([], moves, all_mls, newMoveIdBase) ((mls.map (fun ml => ml.move_id)).dedup)).1 := c3 L0 hL0 (by rw [← hLid]; exact hmem)
      rw [if_pos hc] at he0
      rw [← he0]
    · intro L hL hmem
      obtain ⟨L0, hL0, he0⟩ := List.mem_map.mp hL
      have hc : ¬ L0.move_id ∈ (List.foldl (fun (acc : List Nat × List Move × List MoveLine × Nat) mid =>
        match (acc.2.1.filter (fun mv => mv.id = mid)).head? with
        | none => acc
        | some mv =>
          let s := split_out_move_lines mv (mls.filter (fun ml => ml.move_id = mid))
            acc.2.1 acc.2.2.1 acc.2.2.2
          (acc.1 ++ [s.1], s.2.1, s.2.2, acc.2.2.2 + 1)) ([], moves, all_mls, newMoveIdBase) ((mls.map (fun ml => ml.move_id)).dedup)).1 := by
        intro hc
        apply hmem
        have := c4 L0.move_id hc L0 hL0 rfl
        have hLid : L.id = L0.id := by
          rw [if_pos hc] at he0
          rw [← he0]
        rw [hLid]
        exact this
      rw [if_neg hc] at he0
      obtain ⟨ml, hml, he1⟩ := c2 L0 hL0
      refine ⟨ml, hml, ?_, ?_, ?_⟩
      · rw [← he0, he1]
      · rw [← he0, he1]
      · rw [← he0, he1]
  · simp only [requires_backorder, List.any_eq_true, List.mem_filter,
      Bool.or_eq_true, decide_eq_true_eq, ne_eq]
    constructor
    · rintro ⟨mv, ⟨⟨hmem, hpick⟩, hstate⟩, hcond⟩
      exact ⟨mv, hmem, hpick, hstate, by tauto⟩
    · rintro ⟨mv, hmem, hpick, hstate, hcond⟩
      exact ⟨mv, ⟨⟨hmem, hpick⟩, hstate⟩, by tauto⟩


/-- Closed instance of the backorder theorem: backordering both lines of
a fully covered move keeps every line id in the table. -/
theorem backorder_movelines_spec_witness :
    ([{ id := 1, picking_id := { id := 50, state := PickState.assigned, picking_type_id := { id := 2 }, backorder_id := some 1 }, move_id := 10, product_id := { id := 40 }, location_id := { id := 5 }, product_uom_qty := 3 }, { id := 2, picking_id := { id := 50, state := PickState.assigned, picking_type_id := { id := 2 }, backorder_id := some 1 }, move_id := 10, product_id := { id := 40 }, location_id := { id := 5 }, product_uom_qty := 2 }] : List MoveLine).map (fun ml => ml.id) =
      ([{ id := 1, picking_id := { id := 1, state := PickState.assigned, picking_type_id := { id := 2 } }, move_id := 10, product_id := { id := 40 }, location_id := { id := 5 }, product_uom_qty := 3 }, { id := 2, picking_id := { id := 1, state := PickState.assigned, picking_type_id := { id := 2 } }, move_id := 10, product_id := { id := 40 }, location_id := { id := 5 }, product_uom_qty := 2 }] : List MoveLine).map (fun ml => ml.id) :=
  ((backorder_movelines_spec { id := 1, state := PickState.assigned, picking_type_id := { id := 2 } } [{ id := 10, picking_id := 1, state := PickState.assigned, product_id := { id := 40 }, product_uom_qty := 5 }] [{ id := 1, picking_id := { id := 1, state := PickState.assigned, picking_type_id := { id := 2 } }, move_id := 10, product_id := { id := 40 }, location_id := { id := 5 }, product_uom_qty := 3 }, { id := 2, picking_id := { id := 1, state := PickState.assigned, picking_type_id := { id := 2 } }, move_id := 10, product_id := { id := 40 }, location_id := { id := 5 }, product_uom_qty := 2 }] [{ id := 1, picking_id := { id := 1, state := PickState.assigned, picking_type_id := { id := 2 } }, move_id := 10, product_id := { id := 40 }, location_id := { id := 5 }, product_uom_qty := 3 }, { id := 2, picking_id := { id := 1, state := PickState.assigned, picking_type_id := { id := 2 } }, move_id := 10, product_id := { id := 40 }, location_id := { id := 5 }, product_uom_qty := 2 }] 50 100
    (by decide) (by decide) (by decide) (by decide)).2.1
    { id := 50, state := PickState.assigned, picking_type_id := { id := 2 }, backorder_id := some 1 } [{ id := 10, picking_id := 50, state := PickState.assigned, product_id := { id := 40 }, product_uom_qty := 5 }] [{ id := 1, picking_id := { id := 50, state := PickState.assigned, picking_type_id := { id := 2 }, backorder_id := some 1 }, move_id := 10, product_id := { id := 40 }, location_id := { id := 5 }, product_uom_qty := 3 }, { id := 2, picking_id := { id := 50, state := PickState.assigned, picking_type_id := { id := 2 }, backorder_id := some 1 }, move_id := 10, product_id := { id := 40 }, location_id := { id := 5 }, product_uom_qty := 2 }] rfl).2.1

end UDES
